import Mathlib

/-!
# ChurnInsight front end: risk banding, aggregation and connectivity

A shallow embedding of the risk-normalisation code of the ChurnInsight
dashboard (`ClientExplainability.jsx`, `PredictionForm.jsx`, `Dashboard.jsx`,
`useData.js`, and the credential prompt of `api.js`) together with theorems
about it.

## Modelling conventions

* A JavaScript number is modelled by its exact value (`JSNumber`): `NaN`, the two
  infinities, or a rational. Comparison, `Math.min` and `Math.max` are exact on
  doubles, so they are exact here. The decimal literals `0.4`, `0.6`, `0.45` of
  the source denote the rationals `2/5`, `3/5`, `9/20`: the double written `0.4`
  is the double nearest to `2/5`, so a double is below one exactly when it is
  below the other. The two zeros are identified. A sum of two integers is exact
  as long as the operands and the sum have magnitude at most `2^53`; every other
  sum of finite numbers is rounded by the runtime.
* Values read out of records are primitives (`JSValue`).
* The conversions that the language runtime performs on strings (string to
  number, `parseFloat`, `toLowerCase`, number to string), the rounded sums and
  the source text of built-in functions are parameters (`JSRuntime`), and so is
  `trim` where it is used; every theorem holds for every runtime.
* A plain object used as a dictionary is an association list of its own
  properties in insertion order. The properties that it inherits from
  `Object.prototype` (`objectPrototypeKeys`) are seen by a read `d[k]` and the
  assignment `d["__proto__"] = v` creates no property.
-/

namespace ChurnInsight

/-! ## JavaScript values -/

/-- A JavaScript number, by exact value. -/
inductive JSNumber where
  | nan
  | posInf
  | negInf
  | fin (q : ℚ)
deriving DecidableEq

namespace JSNumber

instance : OfNat JSNumber n := ⟨fin n⟩

/-- The relational operator `a < b` on numbers: false as soon as one side is `NaN`. -/
def lt : JSNumber → JSNumber → Bool
  | nan, _ => false
  | _, nan => false
  | fin a, fin b => decide (a < b)
  | negInf, negInf => false
  | negInf, _ => true
  | _, negInf => false
  | posInf, _ => false
  | fin _, posInf => true

/-- The operator `a > b`, which is `b < a`. -/
def gt (a b : JSNumber) : Bool := lt b a

/-- The function `Number.isFinite` on a number. -/
def isFinite : JSNumber → Bool
  | fin _ => true
  | _ => false

/-- The function `Math.max(a, b)`. -/
def max : JSNumber → JSNumber → JSNumber
  | nan, _ => nan
  | _, nan => nan
  | a, b => if lt a b then b else a

/-- The function `Math.min(a, b)`. -/
def min : JSNumber → JSNumber → JSNumber
  | nan, _ => nan
  | _, nan => nan
  | a, b => if lt b a then b else a

/-- The sum `a + b` by exact value: the operator `+` wherever no rounding takes
place, as in the increment of a counter of array elements. -/
def add : JSNumber → JSNumber → JSNumber
  | nan, _ => nan
  | _, nan => nan
  | fin a, fin b => fin (a + b)
  | posInf, negInf => nan
  | negInf, posInf => nan
  | posInf, _ => posInf
  | _, posInf => posInf
  | negInf, _ => negInf
  | _, negInf => negInf

/-- Truthiness of a number: every number but `NaN` and zero. -/
def truthy : JSNumber → Bool
  | nan => false
  | fin q => decide (q ≠ 0)
  | _ => true

/-- Whether a rational is an integer of magnitude at most `2^53`. Every such
number is a double, and a sum of two of them that is again one is not rounded. -/
def exactInteger (q : ℚ) : Bool :=
  decide (q.den = 1) && decide (q.num.natAbs ≤ 9007199254740992)

end JSNumber

/-- A primitive JavaScript value, as found in a field of a JSON-like record. -/
inductive JSValue where
  | undefined
  | null
  | bool (b : Bool)
  | number (n : JSNumber)
  | string (s : String)
deriving DecidableEq

/-- What is left to the language runtime: the conversions that act on strings,
the sums that are rounded and the source text of built-in functions. -/
structure JSRuntime where
  /-- The conversion `Number(s)` of a string. -/
  stringToNumber : String → JSNumber
  /-- The function `parseFloat(s)` on a string. -/
  parseFloat : String → JSNumber
  /-- The method `s.toLowerCase()`. -/
  toLowerCase : String → String
  /-- The conversion `String(n)` of a number. -/
  numberToString : JSNumber → String
  /-- The sum `a + b` of two finite numbers where it may be rounded (it may
  overflow to an infinity). -/
  roundedSum : ℚ → ℚ → JSNumber
  /-- What follows the keyword `function` in `String(f)`, `f` being the built-in
  function stored in `Object.prototype` under the given name: the result of
  `Function.prototype.toString` has the form `function name() { [native code] }`,
  with a spacing that depends on the runtime. -/
  nativeFunctionText : String → String

/-- The operator `a + b` on numbers. Adding zero changes nothing, a sum of
integers within `2^53` is exact, any other sum of finite numbers is the
runtime's. -/
def JSNumber.plus (rt : JSRuntime) : JSNumber → JSNumber → JSNumber
  | .fin a, .fin b =>
    if a = 0 then .fin b
    else if b = 0 then .fin a
    else if JSNumber.exactInteger a && JSNumber.exactInteger b && JSNumber.exactInteger (a + b)
      then .fin (a + b)
    else rt.roundedSum a b
  | a, b => a.add b

namespace JSValue

/-- Truthiness, as tested by `!v`, `v || w` and `if (v)`. -/
def truthy : JSValue → Bool
  | undefined => false
  | null => false
  | bool b => b
  | number n => n.truthy
  | string s => !s.data.isEmpty

/-- Whether the value is `undefined` or `null`, as tested by `??`. -/
def nullish : JSValue → Bool
  | undefined => true
  | null => true
  | _ => false

/-- The operator `a ?? b`. -/
def orElse (a b : JSValue) : JSValue := if a.nullish then b else a

/-- The operator `a || b`. -/
def or (a b : JSValue) : JSValue := if a.truthy then a else b

/-- The conversion `Number(v)`. -/
def toNumber (rt : JSRuntime) : JSValue → JSNumber
  | undefined => JSNumber.nan
  | null => 0
  | bool true => 1
  | bool false => 0
  | number n => n
  | string s => rt.stringToNumber s

/-- The conversion `String(v)`. -/
def toStr (rt : JSRuntime) : JSValue → String
  | undefined => "undefined"
  | null => "null"
  | bool true => "true"
  | bool false => "false"
  | number n => rt.numberToString n
  | string s => s

/-- The function `parseFloat(v)`: the argument is converted to a string and parsed.
A number survives the round trip through its own decimal form; the strings
`"undefined"`, `"null"`, `"true"` and `"false"` start no numeral. -/
def parseFloat (rt : JSRuntime) : JSValue → JSNumber
  | number n => n
  | string s => rt.parseFloat s
  | _ => JSNumber.nan

end JSValue

/-- A text field of a record: a string, or absent (`undefined` or `null`). -/
abbrev Text := Option String

namespace Text

/-- Truthiness of a text field: present and non-empty. -/
def truthy : Text → Bool
  | none => false
  | some s => !s.data.isEmpty

/-- The operator `a || b` on text fields. -/
def or (a b : Text) : Text := if truthy a then a else b

end Text

/-- The method `s.includes(t)`: `t` occurs in `s` as a contiguous run. -/
def includesAux : List Char → List Char → Bool
  | [], t => t.isEmpty
  | c :: s, t => t.isPrefixOf (c :: s) || includesAux s t

/-- The method `s.includes(t)` on strings. -/
def includes (s t : String) : Bool := includesAux s.data t.data

/-- A customer record, with the fields the dashboard reads. The probability may
arrive under four keys with any primitive value; a risk factor is a string or
absent. -/
structure Client where
  probability : JSValue := .undefined
  churnProbability : JSValue := .undefined
  churn_probability : JSValue := .undefined
  probabilidade : JSValue := .undefined
  primary_risk_factor : Text := none
  primaryRiskFactor : Text := none
  main_factor : Text := none
  fator_risco : Text := none
  clientId : JSValue := .undefined

/-- The value of a run of decimal digits. -/
def digitsValue (cs : List Char) : Nat :=
  cs.foldl (fun acc c => 10 * acc + (c.toNat - 48)) 0

/-- The method `s.replace(/^p/, "")`: drops the leading `p` of `s` when `s` starts with it. -/
def dropLeading (p s : String) : String :=
  if p.data.isPrefixOf s.data then String.mk (s.data.drop p.data.length) else s

/-- The names of the properties that every object inherits from
`Object.prototype`, the legacy accessors of browsers included. Each is bound to
a built-in function, except `__proto__`, which reads as the prototype object. -/
def objectPrototypeKeys : List String :=
  ["constructor", "hasOwnProperty", "isPrototypeOf", "propertyIsEnumerable",
   "toLocaleString", "toString", "valueOf", "__proto__", "__defineGetter__",
   "__defineSetter__", "__lookupGetter__", "__lookupSetter__"]

/-- What a translator returns: a string, or the value that its table inherits
from `Object.prototype` under the given name (a built-in function, or the
prototype object for `__proto__`). -/
inductive Translated where
  | text (s : String)
  | inherited (name : String)
deriving DecidableEq

namespace Translated

/-- Truthiness: a non-empty string; functions and objects are truthy. -/
def truthy : Translated → Bool
  | text s => !s.data.isEmpty
  | inherited _ => true

/-- The property name denoted by the value in `acc[value]`: a string is its own
name, a built-in function is converted by `Function.prototype.toString`, and the
prototype object is converted to "[object Object]". -/
def propertyKey (rt : JSRuntime) : Translated → String
  | text s => s
  | inherited name =>
    if name = "__proto__" then "[object Object]" else "function" ++ rt.nativeFunctionText name

end Translated

/-- The expression `table[key] || fallback` for a table of strings written as an
object literal: the table's own entry when it is a non-empty string, else the
inherited value when `key` names one, else `fallback`. -/
def lookupOr (table : List (String × String)) (key fallback : String) : Translated :=
  match table.lookup key with
  | some v => if v.data.isEmpty then .text fallback else .text v
  | none => if key ∈ objectPrototypeKeys then .inherited key else .text fallback

/-! ## ClientExplainability.jsx -/

namespace ClientExplainability

/-- The risk band shown for a client: the strings `'LOW'`, `'MODERATE'`, `'HIGH'`. -/
inductive Band where
  | LOW
  | MODERATE
  | HIGH
deriving DecidableEq

/-- The helper `safeNumber(v, fallback)`. -/
def safeNumber (rt : JSRuntime) (v : JSValue) (fallback : JSNumber) : JSNumber :=
  let n := v.toNumber rt
  if n.isFinite then n else fallback

/-- The constant `rawProb`: the first probability key that is neither `undefined`
nor `null`, else `0`. -/
def rawProb (client : Client) : JSValue :=
  ((((client.probability.orElse client.churnProbability).orElse
    client.churn_probability).orElse client.probabilidade).orElse (.number 0))

/-- The constant `prob`: `Math.min(Math.max(safeNumber(rawProb, 0), 0), 1)`. -/
def prob (rt : JSRuntime) (client : Client) : JSNumber :=
  JSNumber.min (JSNumber.max (safeNumber rt (rawProb client) 0) 0) 1

/-- The function `getRiskLevel(p)`. -/
def getRiskLevel (p : JSNumber) : Band :=
  if p.lt (.fin 0.4) then .LOW
  else if p.lt (.fin 0.6) then .MODERATE
  else .HIGH

/-- The constant `riskLevel` of the component. -/
def riskLevel (rt : JSRuntime) (client : Client) : Band :=
  getRiskLevel (prob rt client)

/-- The table `traducao`. -/
def traducao : List (String × String) :=
  [("gender", "Gênero"),
   ("gender_Male", "Gênero Masculino"),
   ("gender_Female", "Gênero Feminino"),
   ("age", "Idade"),
   ("Age", "Idade"),
   ("country", "País"),
   ("country_FR", "País França"),
   ("country_IN", "País Índia"),
   ("subscription_type", "Tipo de Assinatura"),
   ("subscription_type_Student", "Assinatura Estudante"),
   ("listening_time", "Tempo de Escuta"),
   ("songs_played_per_day", "Músicas por Dia"),
   ("skip_rate", "Taxa de Pulagem"),
   ("device_type", "Tipo de Dispositivo"),
   ("ads_listened_per_week", "Anúncios por Semana"),
   ("offline_listening", "Uso Offline"),
   ("is_churned", "Cancelamento (Churn)"),
   ("songs_per_minute", "Músicas por Minuto"),
   ("ad_intensity", "Intensidade de Anúncios"),
   ("frustration_index", "Índice de Frustração"),
   ("is_heavy_user", "Usuário Intenso (Heavy)"),
   ("premium_no_offline", "Premium sem Offline"),
   ("premium_sub_month", "Meses de Assinatura Premium"),
   ("fav_genre", "Gênero Favorito")]

/-- The function `traduzir(termo)` of the component. -/
def traduzir (termo : String) : Translated :=
  if termo.data.isEmpty || termo = "N/A" then .text "N/A"
  else
    let termoLimpo := dropLeading "cat__" (dropLeading "num__" termo)
    lookupOr traducao termoLimpo termoLimpo

/-- The constant `rawRiskFactor`: the first truthy risk-factor key, else `''`. -/
def rawRiskFactor (client : Client) : String :=
  ((((client.primary_risk_factor.or client.primaryRiskFactor).or
    client.main_factor).or client.fator_risco).or (some "")).getD ""

/-- The constant `riskFactor`: the text shown on the line "Fator de Risco". -/
def riskFactor (rt : JSRuntime) (client : Client) : Translated :=
  if riskLevel rt client = .LOW then .text "Nenhum fator de risco relevante identificado"
  else
    let t := traduzir (rawRiskFactor client)
    if t.truthy then t else .text "Perfil de Risco Moderado"

end ClientExplainability

/-! ## PredictionForm.jsx -/

namespace PredictionForm

/-- The nested object `ai_diagnosis` of a prediction. -/
structure Diagnosis where
  primary_risk_factor : Text := none
  primary_retention_factor : Text := none
  suggested_action : Text := none

/-- The prediction returned by the service, with the fields the form reads. -/
structure PredictionResult where
  probability : JSValue := .undefined
  churn_probability : JSValue := .undefined
  risk_level : JSValue := .undefined
  primary_risk_factor : Text := none
  ai_diagnosis : Option Diagnosis := none
  recommended_action : Text := none

/-- The variable `riskLevel`: the strings `'low'`, `'mod'`, `'high'`, `'unknown'`. -/
inductive RiskLevel where
  | low
  | mod
  | high
  | unknown
deriving DecidableEq

/-- The constant `LOW_MAX`. -/
def LOW_MAX : JSNumber := .fin 0.40

/-- The constant `MOD_MIN`. -/
def MOD_MIN : JSNumber := .fin 0.40

/-- The constant `MOD_MAX`. -/
def MOD_MAX : JSNumber := .fin 0.60

/-- The constant `HIGH_MIN`. -/
def HIGH_MIN : JSNumber := .fin 0.60

/-- The constant `rawProbability`; `result` is `none` before any prediction. -/
def rawProbability (result : Option PredictionResult) : JSValue :=
  match result with
  | none => .number 0
  | some r =>
    if r.probability ≠ .undefined then r.probability
    else r.churn_probability.or (.number 0)

/-- The constant `apiRiskLevel`: the lower-cased `risk_level` when it is a string,
else `null`. -/
def apiRiskLevel (rt : JSRuntime) (result : Option PredictionResult) : Text :=
  match result with
  | some r =>
    match r.risk_level with
    | .string s => some (rt.toLowerCase s)
    | _ => none
  | none => none

/-- The numeric branch of the determination of `riskLevel`, on `p = rawProbability`. -/
def numericRiskLevel (rt : JSRuntime) (p : JSValue) : RiskLevel :=
  if (p.toNumber rt).lt LOW_MAX then .low
  else if (p.toNumber rt).lt MOD_MAX then .mod
  else .high

/-- The variable `riskLevel` after its determination. -/
def riskLevel (rt : JSRuntime) (result : Option PredictionResult) : RiskLevel :=
  let api := apiRiskLevel rt result
  if api.truthy then
    let l := api.getD ""
    if includes l "low" || includes l "baixo" then .low
    else if includes l "mod" || includes l "moder" then .mod
    else if includes l "high" || includes l "alto" then .high
    else .unknown
  else numericRiskLevel rt (rawProbability result)

/-- The table `mapa` of the form. -/
def mapa : List (String × String) :=
  [("listening_time", "Tempo de Escuta"),
   ("skip_rate", "Taxa de Pulos"),
   ("songs_played_per_day", "Músicas Diárias"),
   ("ads_listened_per_week", "Anúncios por Semana"),
   ("age", "Idade"),
   ("subscription_type", "Tipo de Assinatura"),
   ("offline_listening", "Uso Offline")]

/-- The function `traduzir(texto)` of the form; `none` is a missing text. -/
def traduzir (texto : Text) : Translated :=
  match texto with
  | none => .text "Desconhecido"
  | some t =>
    if t.data.isEmpty then .text "Desconhecido"
    else lookupOr mapa t (String.mk (t.data.map (fun c => if c = '_' then ' ' else c)))

/-- The constant `rawRiskFactor` of the form. -/
def rawRiskFactor (result : Option PredictionResult) : Text :=
  match result with
  | none => none
  | some r =>
    Text.or r.primary_risk_factor
      (match r.ai_diagnosis with
       | some d => d.primary_risk_factor
       | none => none)

/-- The constant `riskFactor` of the form. -/
def riskFactor (rt : JSRuntime) (result : Option PredictionResult) : Translated :=
  let showRiskFactorFromApi :=
    (riskLevel rt result = .mod || riskLevel rt result = .high) &&
      (rawRiskFactor result).truthy
  if showRiskFactorFromApi then traduzir (rawRiskFactor result)
  else .text "Nenhum fator de risco relevante identificado"

end PredictionForm

/-! ## Connectivity state and dictionaries -/

/-- The state `apiStatus`: the strings `"checking"`, `"online"`, `"degraded"`, `"offline"`. -/
inductive ApiStatus where
  | checking
  | online
  | degraded
  | offline
deriving DecidableEq

/-- A plain object used as a dictionary: its own string-keyed properties, in the
order in which they were created. -/
abbrev Dict (α : Type) := List (String × α)

namespace Dict

/-- The own property `k` of `d`, if there is one. -/
def get {α : Type} (d : Dict α) (k : String) : Option α :=
  match d with
  | [] => none
  | (k1, v) :: rest => if k1 = k then some v else get rest k

/-- Writing the own property `k`: an existing property keeps its place, a new
one goes last. -/
def put {α : Type} (d : Dict α) (k : String) (v : α) : Dict α :=
  match d with
  | [] => [(k, v)]
  | (k1, v1) :: rest => if k1 = k then (k1, v) :: rest else (k1, v1) :: put rest k v

/-- The assignment `d[k] = v` on an object created as `{}`. The name `__proto__`
is an accessor inherited from `Object.prototype`: assigning to it replaces the
prototype of `d` and creates no property. Every other name is written as an own
property. -/
def set {α : Type} (d : Dict α) (k : String) (v : α) : Dict α :=
  if k = "__proto__" then d else put d k v

/-- Whether the read `d[k]` is truthy, for a dictionary of objects created as
`{}`: an own property, or a value inherited from `Object.prototype`. -/
def has {α : Type} (d : Dict α) (k : String) : Bool :=
  (get d k).isSome || decide (k ∈ objectPrototypeKeys)

/-- An in-place update of the object stored under `k`, as in `d[k].qtd += 1`. -/
def modify {α : Type} (d : Dict α) (k : String) (f : α → α) : Dict α :=
  match d with
  | [] => []
  | (k1, v1) :: rest => if k1 = k then (k1, f v1) :: rest else (k1, v1) :: modify rest k f

/-- The array index written by a property name, if any: a decimal numeral
without superfluous leading zero, below `2^32 - 1`. -/
def arrayIndex (k : String) : Option Nat :=
  if k.data.isEmpty then none
  else if !k.data.all Char.isDigit then none
  else if decide (1 < k.data.length) && k.data.head? == some '0' then none
  else
    if digitsValue k.data < 4294967295 then some (digitsValue k.data) else none

/-- The order of two properties that are array indices: ascending index. -/
def indexLe {α : Type} (a b : String × α) : Prop :=
  (arrayIndex a.1).getD 0 ≤ (arrayIndex b.1).getD 0

instance {α : Type} : DecidableRel (@indexLe α) :=
  fun a b => inferInstanceAs (Decidable ((arrayIndex a.1).getD 0 ≤ (arrayIndex b.1).getD 0))

/-- The function `Object.entries(d)`: the properties whose names are array
indices come first, in ascending numeric order, then the others in creation
order. -/
def entries {α : Type} (d : Dict α) : List (String × α) :=
  (d.filter (fun e => (arrayIndex e.1).isSome)).insertionSort indexLe ++
    d.filter (fun e => !(arrayIndex e.1).isSome)

end Dict

/-! ## Dashboard.jsx -/

namespace Dashboard

/-- The constant `canShowData`. -/
def canShowData (apiStatus : ApiStatus) : Bool := decide (apiStatus = .online)

/-- An entry of `summary.risk_factors`. -/
structure RiskFactorItem where
  name : String
  count : JSValue

/-- The response of `/dashboard/metrics` kept in `summary`; `risk_factors` is
`none` when the field is missing or is not an array. -/
structure Summary where
  risk_factors : Option (List RiskFactorItem) := none

/-- A value of `statsPorMotivo`: the object with fields `qtd` and `totalRisco`. -/
structure Stat where
  qtd : JSNumber
  totalRisco : JSNumber
deriving DecidableEq

/-- The table `mapaTraducao`. -/
def mapaTraducao : List (String × String) :=
  [("gender", "Gênero"), ("age", "Idade"), ("Age", "Idade"), ("country", "País"),
   ("subscription_type", "Tipo de Assinatura"),
   ("listening_time", "Tempo de Escuta"),
   ("songs_played_per_day", "Músicas por Dia"), ("skip_rate", "Taxa de Pulagem"),
   ("device_type", "Tipo de Dispositivo"), ("ads_listened_per_week", "Anúncios por Semana"),
   ("offline_listening", "Uso Offline"), ("is_churned", "Cancelamento (Churn)"),
   ("songs_per_minute", "Músicas por Minuto"), ("ad_intensity", "Intensidade de Anúncios"),
   ("frustration_index", "Índice de Frustração"), ("is_heavy_user", "Usuário Intenso (Heavy)"),
   ("premium_no_offline", "Premium sem Offline"), ("country_FR", "País França"),
   ("country_IN", "País Índia"), ("subscription_type_Student", "Assinatura Estudante"),
   ("gender_Male", "Gênero Masculino"), ("gender_Female", "Gênero Feminino")]

/-- The function `traduzir(termo)` of the dashboard: the pattern
`/^num__|^cat__/` removes one leading tag, `num__` being tried first. -/
def traduzir (termo : String) : Translated :=
  if termo.data.isEmpty then .text ""
  else
    let limpo :=
      if "num__".data.isPrefixOf termo.data then dropLeading "num__" termo
      else dropLeading "cat__" termo
    lookupOr mapaTraducao limpo limpo

/-- The expression `Number(it.count) || 0`. -/
def countOf (rt : JSRuntime) (count : JSValue) : JSNumber :=
  if (count.toNumber rt).truthy then count.toNumber rt else 0

/-- The constant `total` of the preferred path:
`risk_factors.reduce((s, it) => s + (Number(it.count) || 0), 0) || 1`. -/
def total (rt : JSRuntime) (risk_factors : List RiskFactorItem) : JSNumber :=
  let sum := risk_factors.foldl (fun s it => s.plus rt (countOf rt it.count)) 0
  if sum.truthy then sum else 1

/-- The preferred path: one property per entry of `risk_factors`. -/
def fromRiskFactors (rt : JSRuntime) (risk_factors : List RiskFactorItem) : Dict Stat :=
  risk_factors.foldl
    (fun acc it => acc.set it.name { qtd := countOf rt it.count, totalRisco := total rt risk_factors })
    []

/-- The helper `getProb(c)`. -/
def getProb (rt : JSRuntime) (c : Client) : JSNumber :=
  let val := ((c.probability.orElse c.churnProbability).orElse c.churn_probability).orElse
    c.probabilidade
  if val ≠ .undefined then val.parseFloat rt else 0

/-- The helper `getRiskFactor(c)`. -/
def getRiskFactor (c : Client) : String :=
  ((((c.primary_risk_factor.or c.primaryRiskFactor).or c.main_factor).or c.fator_risco).or
    (some "")).getD ""

/-- The constant `emRisco`: the clients above the sill. -/
def emRisco (rt : JSRuntime) (clients : List Client) : List Client :=
  clients.filter (fun c => (getProb rt c).gt (.fin 0.45))

/-- One step of the reduction of the fallback path, `n` being `emRisco.length`.
When `acc[factor]` is a value inherited from `Object.prototype` the guard
`!acc[factor]` is false and the increment is made on that value: the properties
of `acc` stay as they are. A counter never exceeds the length of the array, so
its increment is exact. -/
def countStep (rt : JSRuntime) (n : Nat) (acc : Dict Stat) (c : Client) : Dict Stat :=
  let factor := traduzir (getRiskFactor c)
  if !factor.truthy then acc
  else
    let key := factor.propertyKey rt
    let acc1 := if !acc.has key then acc.set key { qtd := 0, totalRisco := .fin n } else acc
    if (acc1.get key).isSome then acc1.modify key (fun s => { s with qtd := s.qtd.add 1 })
    else acc1

/-- The fallback path: the local count over `clients`. -/
def fromClients (rt : JSRuntime) (clients : List Client) : Dict Stat :=
  (emRisco rt clients).foldl (countStep rt (emRisco rt clients).length) []

/-- The memo `statsPorMotivo`; `summary` and `clients` are `none` when they are
`null`, `undefined` or, for `clients`, not an array. -/
def statsPorMotivo (rt : JSRuntime) (apiStatus : ApiStatus) (summary : Option Summary)
    (clients : Option (List Client)) : Dict Stat :=
  if !canShowData apiStatus then []
  else
    match summary.bind (fun s => s.risk_factors) with
    | some (it :: its) => fromRiskFactors rt (it :: its)
    | _ =>
      match clients with
      | none => []
      | some [] => []
      | some (c :: cs) => fromClients rt (c :: cs)

/-- The order required of the sorted array by the comparator
`([, a], [, b]) => b.qtd - a.qtd`: `a` may stand before `b` unless `a.qtd < b.qtd`. -/
def qtdGe (a b : String × Stat) : Prop := a.2.qtd.lt b.2.qtd = false

instance : DecidableRel qtdGe :=
  fun a b => inferInstanceAs (Decidable (a.2.qtd.lt b.2.qtd = false))

/-- The ranked list that is rendered:
`Object.entries(statsPorMotivo).sort(([, a], [, b]) => b.qtd - a.qtd)`.
`Array.prototype.sort` is a stable sort; insertion from the right realises it. -/
def ranked (stats : Dict Stat) : List (String × Stat) :=
  (Dict.entries stats).insertionSort qtdGe

/-- The constant `selectedClient`. -/
def selectedClient (rt : JSRuntime) (apiStatus : ApiStatus) (clients : Option (List Client))
    (selectedClientId : JSValue) : Option Client :=
  match clients with
  | some (c :: cs) =>
    if canShowData apiStatus then
      match (c :: cs).find? (fun x => x.clientId.toStr rt == selectedClientId.toStr rt) with
      | some found => some found
      | none => some c
    else none
  | _ => none

/-- The tabs of the page: the values of `activeTab`. -/
inductive Tab where
  | dashboard
  | prediction
  | batch
  | search
deriving DecidableEq

/-- The state of the page that the invalidation effect writes. -/
structure PageState where
  summary : Option Summary
  summaryError : Option String
  selectedRiskFactor : String
  selectedClientId : JSValue
  activeTab : Tab

/-- The effect that runs when `canShowData` changes ("Quando sai do ONLINE, zera
tudo"). -/
def invalidate (apiStatus : ApiStatus) (st : PageState) : PageState :=
  if !canShowData apiStatus then
    let st1 : PageState :=
      { st with summary := none, summaryError := none, selectedRiskFactor := "",
                selectedClientId := .null }
    if st1.activeTab ≠ .dashboard then { st1 with activeTab := .dashboard } else st1
  else st

end Dashboard

/-! ## useData.js -/

namespace UseData

/-- How the promise of `healthCheck()` settles: rejected, or resolved with a
response that is `null` (`none`) or an object whose `status` field has the given
value (`undefined` when the field is missing). -/
inductive HealthOutcome where
  | rejected
  | resolved (status : Option JSValue)

/-- How the promise of `getDashboardMetrics()` settles: rejected with an error
whose `message` is given, or resolved with a payload. -/
inductive FetchOutcome (D : Type) where
  | rejected (message : Text)
  | resolved (data : D)

/-- The state of the hook; `M` is the type of the normalised metrics. -/
structure State (M : Type) where
  metrics : Option M
  apiStatus : ApiStatus
  loading : Bool
  error : Option String

/-- The initial state of the hook. -/
def State.initial (M : Type) : State M :=
  { metrics := none, apiStatus := .checking, loading := true, error := none }

/-- The value of `health?.status === "UP"`. -/
def isUp (status : Option JSValue) : Bool :=
  match status with
  | some (.string s) => decide (s = "UP")
  | _ => false

/-- The function `fetchData`, as the state it leaves once it has run to its end.
`normalize` is `normalizeDashboardMetrics`. -/
def fetchData {D M : Type} (normalize : D → Option M) (health : HealthOutcome)
    (dashboard : FetchOutcome D) (st : State M) : State M :=
  let st0 : State M := { st with loading := true, error := none }
  let finish (s : State M) : State M := { s with loading := false }
  match health with
  | .rejected =>
    finish { st0 with apiStatus := .offline, metrics := none }
  | .resolved status =>
    if isUp status then
      let st1 : State M := { st0 with apiStatus := .online }
      match dashboard with
      | .resolved data => finish { st1 with metrics := normalize data }
      | .rejected message =>
        finish { st1 with
          error := some ((Text.or message (some "Erro ao carregar métricas")).getD ""),
          metrics := none }
    else
      finish { st0 with apiStatus := .degraded, metrics := none }

/-- The state while the health probe is pending: `setLoading(true)` and
`setError(null)` have run, nothing else has. -/
def pending {M : Type} (st : State M) : State M :=
  { st with loading := true, error := none }

/-- The `try` block of `fetchData`, entered in the state `st0`: the state it
reaches, and the error it throws, if any. A rejection of `healthCheck()` is
caught by the inner `try`; a rejection of `getDashboardMetrics()` is thrown, with
the `message` of the error. -/
def tryBlock {D M : Type} (normalize : D → Option M) (health : HealthOutcome)
    (dashboard : FetchOutcome D) (st0 : State M) : State M × Option Text :=
  match health with
  | .rejected => ({ st0 with apiStatus := .offline, metrics := none }, none)
  | .resolved status =>
    if isUp status then
      match dashboard with
      | .resolved data => ({ st0 with apiStatus := .online, metrics := normalize data }, none)
      | .rejected message => ({ st0 with apiStatus := .online }, some message)
    else ({ st0 with apiStatus := .degraded, metrics := none }, none)

/-- The `catch` block of `fetchData`, which handles every error thrown by the
`try` block. -/
def catchBlock {M : Type} (s : State M) (message : Text) : State M :=
  { s with
    error := some ((Text.or message (some "Erro ao carregar métricas")).getD ""),
    metrics := none }

/-- The `finally` block of `fetchData`. -/
def finallyBlock {M : Type} (s : State M) : State M :=
  { s with loading := false }

end UseData

/-! ## PredictionForm.jsx: submission -/

namespace PredictionForm

/-- The state `formData`: the identifier typed by the user and the ten other
fields of the form, whose values are what the inputs hold. -/
structure FormData where
  user_id : Text
  gender : JSValue
  age : JSValue
  country : JSValue
  subscription_type : JSValue
  device_type : JSValue
  listening_time : JSValue
  songs_played_per_day : JSValue
  skip_rate : JSValue
  ads_listened_per_week : JSValue
  offline_listening : JSValue

/-- The object `payload` sent to the prediction API. -/
structure Payload where
  user_id : String
  gender : JSValue
  age : JSNumber
  country : JSValue
  subscription_type : JSValue
  device_type : JSValue
  listening_time : JSNumber
  songs_played_per_day : JSNumber
  skip_rate : JSNumber
  ads_listened_per_week : JSNumber
  offline_listening : Bool

/-- The expression `Number(v) || 0`. -/
def numberOrZero (rt : JSRuntime) (v : JSValue) : JSNumber :=
  if (v.toNumber rt).truthy then v.toNumber rt else 0

/-- The object literal `payload` of `handleSubmit`, `userId` being the trimmed
identifier. -/
def payloadOf (rt : JSRuntime) (formData : FormData) (userId : String) : Payload :=
  { user_id := userId
    gender := formData.gender
    age := numberOrZero rt formData.age
    country := formData.country
    subscription_type := formData.subscription_type
    device_type := formData.device_type
    listening_time := numberOrZero rt formData.listening_time
    songs_played_per_day := numberOrZero rt formData.songs_played_per_day
    skip_rate := numberOrZero rt formData.skip_rate
    ads_listened_per_week := numberOrZero rt formData.ads_listened_per_week
    offline_listening := formData.offline_listening.truthy }

/-- What one call of `handleSubmit` does: the form error it leaves, whether it
calls `reset()`, and the payload it passes to `predict`, if any. -/
structure SubmitOutcome where
  formError : Option String
  resetCalled : Bool
  request : Option Payload

/-- The function `handleSubmit`; `trim` is the method `String.prototype.trim`. -/
def handleSubmit (rt : JSRuntime) (trim : String → String) (formData : FormData) :
    SubmitOutcome :=
  let userId := trim ((formData.user_id.or (some "")).getD "")
  if userId.data.isEmpty then
    { formError := some "Informe o ID do Usuário para realizar a predição."
      resetCalled := true
      request := none }
  else
    { formError := none
      resetCalled := false
      request := some (payloadOf rt formData userId) }

end PredictionForm

/-! ## api.js: credentials -/

namespace Api

/-- The object `runtimeCredentials`. -/
structure RuntimeCredentials where
  username : Text
  password : Text

/-- The position of the first `c` at or after position `i` of a text whose
remaining characters are given: the method `indexOf`, `-1` when there is none. -/
def indexOfFrom (c : Char) : List Char → Nat → Int
  | [], _ => -1
  | x :: xs, i => if x = c then (i : Int) else indexOfFrom c xs (i + 1)

/-- The method `s.indexOf(c)` for a one-character needle. -/
def indexOf (s : String) (c : Char) : Int := indexOfFrom c s.data 0

/-- The prompt branch of `ensureCredentials`: `input` is what `prompt` returned
(`none` for `null`); the result is the pair `username`, `password`, or the
message of the error thrown. -/
def parsePrompt (input : Option String) : Except String (String × String) :=
  match input with
  | none => .error "Credenciais da API não fornecidas"
  | some text =>
    if text.data.isEmpty then .error "Credenciais da API não fornecidas"
    else
      let idx := indexOf text ':'
      if idx ≤ 0 then .error "Formato inválido. Use username:password"
      else
        .ok (String.mk (text.data.take idx.toNat), String.mk (text.data.drop (idx.toNat + 1)))

/-- The function `ensureCredentials`: the credentials it leaves in
`runtimeCredentials`, or the message of the error it throws. `stored` is the
pair read back from `sessionStorage` (`none` when the item is absent or cannot
be read), `promptAvailable` tells whether `window` and `prompt` exist, and
`input` is what the prompt returns. -/
def ensureCredentials (creds : RuntimeCredentials) (stored : Option (Text × Text))
    (promptAvailable : Bool) (input : Option String) : Except String RuntimeCredentials :=
  if creds.username.truthy && creds.password.truthy then .ok creds
  else
    match stored with
    | some (u, p) =>
      if u.truthy && p.truthy then .ok { username := u, password := p }
      else
        if promptAvailable then
          match parsePrompt input with
          | .ok (u2, p2) => .ok { username := some u2, password := some p2 }
          | .error e => .error e
        else .error "Sem credenciais disponíveis para a API"
    | none =>
      if promptAvailable then
        match parsePrompt input with
        | .ok (u2, p2) => .ok { username := some u2, password := some p2 }
        | .error e => .error e
      else .error "Sem credenciais disponíveis para a API"

end Api

/-! ## A runtime for the examples -/

/-- Lower case of an ASCII letter; other characters are unchanged. -/
def asciiLower (c : Char) : Char :=
  if 65 ≤ c.toNat ∧ c.toNat ≤ 90 then Char.ofNat (c.toNat + 32) else c

/-- An unsigned decimal numeral `ddd` or `ddd.ddd` at the start of the text: its
value and what follows it. -/
def leadingDecimal (cs : List Char) : Option (ℚ × List Char) :=
  let ds := cs.takeWhile Char.isDigit
  let rest := cs.dropWhile Char.isDigit
  if ds.isEmpty then none
  else
    match rest with
    | '.' :: more =>
      let fs := more.takeWhile Char.isDigit
      some ((digitsValue ds : ℚ) + (digitsValue fs : ℚ) / (10 : ℚ) ^ fs.length,
        more.dropWhile Char.isDigit)
    | _ => some ((digitsValue ds : ℚ), rest)

/-- A runtime used to evaluate the examples. It agrees with the language on the
empty string, on unsigned decimal numerals `ddd` and `ddd.ddd` of moderate
length, on texts that begin with a letter other than `I`, on ASCII text for
`toLowerCase`, on natural numbers for `String(n)`, on the sums that need no
rounding, and on the text of built-in functions as most engines print it; other
inputs are outside its domain. -/
def exampleRuntime : JSRuntime where
  stringToNumber s :=
    if s.data.isEmpty then 0
    else
      match leadingDecimal s.data with
      | some (q, []) => .fin q
      | _ => .nan
  parseFloat s :=
    match leadingDecimal s.data with
    | some (q, _) => .fin q
    | none => .nan
  toLowerCase s := String.mk (s.data.map asciiLower)
  numberToString n :=
    match n with
    | .nan => "NaN"
    | .posInf => "Infinity"
    | .negInf => "-Infinity"
    | .fin q => toString q.num.toNat
  roundedSum a b := .fin (a + b)
  nativeFunctionText name :=
    " " ++ (if name = "constructor" then "Object" else name) ++ "() \x7b [native code] \x7d"

/-- White space and line terminators of the language, which `trim` removes. -/
def isWhiteSpace (c : Char) : Bool :=
  [9, 10, 11, 12, 13, 32, 160, 5760, 8232, 8233, 8239, 8287, 12288, 65279].contains c.toNat ||
    (decide (8192 ≤ c.toNat) && decide (c.toNat ≤ 8202))

/-- The method `String.prototype.trim`, used to evaluate the examples. -/
def jsTrim (s : String) : String :=
  String.mk ((s.data.dropWhile isWhiteSpace).reverse.dropWhile isWhiteSpace).reverse

end ChurnInsight

/-! # Theorems -/

namespace ChurnInsight

/-! ## Comparison of finite numbers -/

theorem JSNumber.lt_fin (a b : ℚ) : JSNumber.lt (.fin a) (.fin b) = decide (a < b) := rfl

theorem ClientExplainability.getRiskLevel_fin (p : ℚ) :
    ClientExplainability.getRiskLevel (.fin p) =
      if p < 2 / 5 then .LOW else if p < 3 / 5 then .MODERATE else .HIGH := by
  have h4 : (0.4 : ℚ) = 2 / 5 := by norm_num
  have h6 : (0.6 : ℚ) = 3 / 5 := by norm_num
  simp only [ClientExplainability.getRiskLevel, JSNumber.lt_fin, h4, h6]
  by_cases h1 : p < 2 / 5
  · simp [h1]
  · by_cases h2 : p < 3 / 5 <;> simp [h1, h2]

theorem PredictionForm.numericRiskLevel_fin (rt : JSRuntime) (p : ℚ) :
    PredictionForm.numericRiskLevel rt (.number (.fin p)) =
      if p < 2 / 5 then .low else if p < 3 / 5 then .mod else .high := by
  have h4 : (0.40 : ℚ) = 2 / 5 := by norm_num
  have h6 : (0.60 : ℚ) = 3 / 5 := by norm_num
  simp only [PredictionForm.numericRiskLevel, PredictionForm.LOW_MAX, PredictionForm.MOD_MAX,
    JSValue.toNumber, JSNumber.lt_fin, h4, h6]
  by_cases h1 : p < 2 / 5
  · simp [h1]
  · by_cases h2 : p < 3 / 5 <;> simp [h1, h2]

theorem PredictionForm.riskLevel_no_label (rt : JSRuntime) (result : Option PredictionResult)
    (h : (PredictionForm.apiRiskLevel rt result).truthy = false) :
    PredictionForm.riskLevel rt result =
      PredictionForm.numericRiskLevel rt (PredictionForm.rawProbability result) := by
  simp [PredictionForm.riskLevel, h]

/-! ## Risk classifier -/

/-- C1: for every finite probability `p`, hence for every `p` in `[0,1]`, the
numeric banding rule returns LOW exactly when `p < 0.40`, MODERATE exactly when
`0.40 <= p < 0.60` and HIGH exactly when `p >= 0.60`, both in `getRiskLevel` of
ClientExplainability and in the branch of PredictionForm taken when there is no
upstream label; at the six sample points the bands are LOW, MODERATE, MODERATE,
HIGH, HIGH, LOW. -/
theorem numeric_banding_partition (rt : JSRuntime) (p : ℚ) :
    ((ClientExplainability.getRiskLevel (.fin p) = .LOW ↔ p < 2 / 5) ∧
      (ClientExplainability.getRiskLevel (.fin p) = .MODERATE ↔ 2 / 5 ≤ p ∧ p < 3 / 5) ∧
      (ClientExplainability.getRiskLevel (.fin p) = .HIGH ↔ 3 / 5 ≤ p)) ∧
    (∀ result : Option PredictionForm.PredictionResult,
      (PredictionForm.apiRiskLevel rt result).truthy = false →
      PredictionForm.rawProbability result = .number (.fin p) →
        (PredictionForm.riskLevel rt result = .low ↔ p < 2 / 5) ∧
        (PredictionForm.riskLevel rt result = .mod ↔ 2 / 5 ≤ p ∧ p < 3 / 5) ∧
        (PredictionForm.riskLevel rt result = .high ↔ 3 / 5 ≤ p)) ∧
    (ClientExplainability.getRiskLevel (.fin 0.3999) = .LOW ∧
      ClientExplainability.getRiskLevel (.fin 0.4) = .MODERATE ∧
      ClientExplainability.getRiskLevel (.fin 0.5999) = .MODERATE ∧
      ClientExplainability.getRiskLevel (.fin 0.6) = .HIGH ∧
      ClientExplainability.getRiskLevel (.fin 1.0) = .HIGH ∧
      ClientExplainability.getRiskLevel (.fin 0.0) = .LOW) := by
  refine ⟨?_, ?_, ?_⟩
  · rw [ClientExplainability.getRiskLevel_fin]
    by_cases h1 : p < 2 / 5
    · have h3 : ¬ (3 : ℚ) / 5 ≤ p := by linarith
      have h2 : ¬ (2 : ℚ) / 5 ≤ p := by linarith
      simp [h1, h2, h3]
    · by_cases h2 : p < 3 / 5
      · have h3 : ¬ (3 : ℚ) / 5 ≤ p := by linarith
        simp [h1, h2, h3, not_lt.mp h1]
      · simp [h1, h2, not_lt.mp h2]
  · intro result hlabel hp
    rw [PredictionForm.riskLevel_no_label rt result hlabel, hp,
      PredictionForm.numericRiskLevel_fin]
    by_cases h1 : p < 2 / 5
    · have h3 : ¬ (3 : ℚ) / 5 ≤ p := by linarith
      have h2 : ¬ (2 : ℚ) / 5 ≤ p := by linarith
      simp [h1, h2, h3]
    · by_cases h2 : p < 3 / 5
      · have h3 : ¬ (3 : ℚ) / 5 ≤ p := by linarith
        simp [h1, h2, h3, not_lt.mp h1]
      · simp [h1, h2, not_lt.mp h2]
  · simp only [ClientExplainability.getRiskLevel_fin]
    norm_num

/-- C1, at a concrete input: a prediction without label whose probability is
`0.5` is in the band `mod`. -/
theorem numeric_banding_partition_witness :
    PredictionForm.riskLevel exampleRuntime
      (some { probability := .number (.fin (1 / 2)) }) = .mod :=
  ((numeric_banding_partition exampleRuntime (1 / 2)).2.1
    (some { probability := .number (.fin (1 / 2)) }) (by decide) (by rfl)).2.1.mpr
    (by norm_num)

theorem PredictionForm.includes_ne_nil (l t : String) (ht : t.data ≠ [])
    (h : includes l t = true) : l.data ≠ [] := by
  intro hl
  unfold includes at h
  rw [hl] at h
  cases hd : t.data with
  | nil => exact ht hd
  | cons c cs => rw [hd] at h; simp [includesAux] at h

theorem PredictionForm.riskLevel_label (rt : JSRuntime) (r : PredictionResult) (s : String)
    (hs : r.risk_level = .string s) (hne : (rt.toLowerCase s).data ≠ []) :
    PredictionForm.riskLevel rt (some r) =
      if includes (rt.toLowerCase s) "low" || includes (rt.toLowerCase s) "baixo" then .low
      else if includes (rt.toLowerCase s) "mod" || includes (rt.toLowerCase s) "moder" then .mod
      else if includes (rt.toLowerCase s) "high" || includes (rt.toLowerCase s) "alto" then .high
      else .unknown := by
  simp [PredictionForm.riskLevel, PredictionForm.apiRiskLevel, hs, Text.truthy, hne]

/-- C2: in PredictionForm, when `risk_level` is a string whose lower-cased form
contains a recognised substring, the band is the one the label names (the
family low/baixo, else mod/moder, else high/alto), whatever the rest of the
prediction holds, its probability included; probability `0.1` with the label
"ALTO RISCO" gives `high`. -/
theorem label_overrides_probability (rt : JSRuntime) (r : PredictionForm.PredictionResult)
    (s : String) (hs : r.risk_level = .string s)
    (hrec : includes (rt.toLowerCase s) "low" = true ∨ includes (rt.toLowerCase s) "baixo" = true ∨
      includes (rt.toLowerCase s) "mod" = true ∨ includes (rt.toLowerCase s) "moder" = true ∨
      includes (rt.toLowerCase s) "high" = true ∨ includes (rt.toLowerCase s) "alto" = true) :
    (includes (rt.toLowerCase s) "low" = true ∨ includes (rt.toLowerCase s) "baixo" = true →
      PredictionForm.riskLevel rt (some r) = .low) ∧
    (includes (rt.toLowerCase s) "low" = false → includes (rt.toLowerCase s) "baixo" = false →
      includes (rt.toLowerCase s) "mod" = true ∨ includes (rt.toLowerCase s) "moder" = true →
      PredictionForm.riskLevel rt (some r) = .mod) ∧
    (includes (rt.toLowerCase s) "low" = false → includes (rt.toLowerCase s) "baixo" = false →
      includes (rt.toLowerCase s) "mod" = false → includes (rt.toLowerCase s) "moder" = false →
      PredictionForm.riskLevel rt (some r) = .high) ∧
    (∀ r2 : PredictionForm.PredictionResult, r2.risk_level = r.risk_level →
      PredictionForm.riskLevel rt (some r2) = PredictionForm.riskLevel rt (some r)) ∧
    PredictionForm.riskLevel exampleRuntime
      (some { probability := .number (.fin 0.1), risk_level := .string "ALTO RISCO" }) = .high := by
  have hne : (rt.toLowerCase s).data ≠ [] := by
    rcases hrec with h | h | h | h | h | h <;>
      exact PredictionForm.includes_ne_nil _ _ (by decide) h
  have hr := PredictionForm.riskLevel_label rt r s hs hne
  refine ⟨?_, ?_, ?_, ?_, by decide⟩
  · intro h
    rw [hr]
    rcases h with h | h <;> simp [h]
  · intro h1 h2 h
    rw [hr]
    rcases h with h | h <;> simp [h1, h2, h]
  · intro h1 h2 h3 h4
    rw [hr]
    rcases hrec with h | h | h | h | h | h <;> simp_all
  · intro r2 h2
    rw [hr, PredictionForm.riskLevel_label rt r2 s (h2.trans hs) hne]

/-- C2, at a concrete input: the label "High" with probability `0.1`. -/
theorem label_overrides_probability_witness :
    PredictionForm.riskLevel exampleRuntime
      (some { probability := .number (.fin 0.1), risk_level := .string "High" }) = .high :=
  (label_overrides_probability exampleRuntime
    { probability := .number (.fin 0.1), risk_level := .string "High" } "High" rfl
    (by decide)).2.2.1 (by decide) (by decide) (by decide) (by decide)

/-- C3: whenever the band is LOW, the displayed risk factor is the fixed text
'Nenhum fator de risco relevante identificado', whatever risk factor the record
carries under any key, in ClientExplainability and in PredictionForm. -/
theorem low_band_suppression (rt : JSRuntime) :
    (∀ client : Client, ClientExplainability.riskLevel rt client = .LOW →
      ClientExplainability.riskFactor rt client =
        .text "Nenhum fator de risco relevante identificado") ∧
    (∀ result : Option PredictionForm.PredictionResult,
      PredictionForm.riskLevel rt result = .low →
      PredictionForm.riskFactor rt result =
        .text "Nenhum fator de risco relevante identificado") := by
  constructor
  · intro client h
    simp [ClientExplainability.riskFactor, h]
  · intro result h
    simp [PredictionForm.riskFactor, h]

/-- C3, at concrete inputs: a client at probability `0.1` whose record names
`skip_rate` as risk factor, and a prediction labelled "low" that names one too. -/
theorem low_band_suppression_witness :
    ClientExplainability.riskFactor exampleRuntime
        { probability := .number (.fin 0.1), primary_risk_factor := some "skip_rate" } =
      .text "Nenhum fator de risco relevante identificado" ∧
    PredictionForm.riskFactor exampleRuntime
        (some { risk_level := .string "low", primary_risk_factor := some "skip_rate" }) =
      .text "Nenhum fator de risco relevante identificado" :=
  ⟨(low_band_suppression exampleRuntime).1
      { probability := .number (.fin 0.1), primary_risk_factor := some "skip_rate" }
      (by
        simp only [ClientExplainability.riskLevel, ClientExplainability.prob,
          ClientExplainability.safeNumber, ClientExplainability.rawProb, JSValue.orElse,
          JSValue.nullish, JSValue.toNumber, JSNumber.isFinite, JSNumber.max, JSNumber.min,
          JSNumber.lt_fin, ClientExplainability.getRiskLevel_fin]
        norm_num [JSNumber.lt_fin, ClientExplainability.getRiskLevel_fin]),
    (low_band_suppression exampleRuntime).2
      (some { risk_level := .string "low", primary_risk_factor := some "skip_rate" })
      (by decide)⟩

/-! ## Dictionaries -/

theorem Dict.get_put_self {α : Type} (d : Dict α) (k : String) (v : α) :
    Dict.get (Dict.put d k v) k = some v := by
  induction d with
  | nil => simp [Dict.put, Dict.get]
  | cons e rest ih =>
    obtain ⟨k1, v1⟩ := e
    by_cases h : k1 = k
    · simp [Dict.put, Dict.get, h]
    · simp [Dict.put, Dict.get, h, ih]

theorem Dict.get_put_ne {α : Type} (d : Dict α) (k k2 : String) (v : α) (hne : k ≠ k2) :
    Dict.get (Dict.put d k v) k2 = Dict.get d k2 := by
  induction d with
  | nil => simp [Dict.put, Dict.get, hne]
  | cons e rest ih =>
    obtain ⟨k1, v1⟩ := e
    by_cases h : k1 = k
    · subst h
      simp [Dict.put, Dict.get, hne]
    · simp only [Dict.put, h, if_false, Dict.get, ih]

theorem Dict.set_eq_put {α : Type} (d : Dict α) (k : String) (v : α) (hk : k ≠ "__proto__") :
    Dict.set d k v = Dict.put d k v := by
  simp [Dict.set, hk]

theorem Dict.set_proto {α : Type} (d : Dict α) (v : α) : Dict.set d "__proto__" v = d := by
  simp [Dict.set]

theorem Dict.get_set_self {α : Type} (d : Dict α) (k : String) (v : α) (hk : k ≠ "__proto__") :
    Dict.get (Dict.set d k v) k = some v := by
  rw [Dict.set_eq_put d k v hk, Dict.get_put_self]

theorem Dict.get_set_ne {α : Type} (d : Dict α) (k k2 : String) (v : α) (hne : k ≠ k2) :
    Dict.get (Dict.set d k v) k2 = Dict.get d k2 := by
  by_cases hk : k = "__proto__"
  · rw [hk, Dict.set_proto]
  · rw [Dict.set_eq_put d k v hk, Dict.get_put_ne d k k2 v hne]

theorem Dict.get_modify_self {α : Type} (d : Dict α) (k : String) (f : α → α) :
    Dict.get (Dict.modify d k f) k = (Dict.get d k).map f := by
  induction d with
  | nil => simp [Dict.modify, Dict.get]
  | cons e rest ih =>
    obtain ⟨k1, v1⟩ := e
    by_cases h : k1 = k
    · simp [Dict.modify, Dict.get, h]
    · simp [Dict.modify, Dict.get, h, ih]

theorem Dict.get_modify_ne {α : Type} (d : Dict α) (k k2 : String) (f : α → α) (hne : k ≠ k2) :
    Dict.get (Dict.modify d k f) k2 = Dict.get d k2 := by
  induction d with
  | nil => simp [Dict.modify, Dict.get]
  | cons e rest ih =>
    obtain ⟨k1, v1⟩ := e
    by_cases h : k1 = k
    · subst h
      simp [Dict.modify, Dict.get, hne]
    · simp only [Dict.modify, h, if_false, Dict.get, ih]

/-! ## Aggregator: the preferred path -/

theorem Dashboard.get_foldl_set {β : Type} (f : Dashboard.RiskFactorItem → β)
    (l : List Dashboard.RiskFactorItem) (acc : Dict β) (k : String) (hk : k ≠ "__proto__") :
    Dict.get (l.foldl (fun a it => Dict.set a it.name (f it)) acc) k =
      match (l.filter (fun it => decide (it.name = k))).getLast? with
      | some it => some (f it)
      | none => Dict.get acc k := by
  induction l generalizing acc with
  | nil => simp
  | cons x l ih =>
    rw [List.foldl_cons, ih]
    by_cases hx : x.name = k
    · simp only [List.filter_cons, hx, decide_True, if_true, List.getLast?_cons]
      cases hl : (l.filter (fun it => decide (it.name = k))).getLast? with
      | none => simp [← hx, Dict.get_set_self _ _ _ (hx ▸ hk)]
      | some it => simp
    · have hf : (x :: l).filter (fun it => decide (it.name = k)) =
          l.filter (fun it => decide (it.name = k)) := by
        simp [List.filter_cons, hx]
      rw [hf]
      cases hl : (l.filter (fun it => decide (it.name = k))).getLast? with
      | none => exact Dict.get_set_ne _ _ _ _ hx
      | some it => rfl

theorem Dashboard.get_foldl_set_proto {β : Type} (f : Dashboard.RiskFactorItem → β)
    (l : List Dashboard.RiskFactorItem) (acc : Dict β) :
    Dict.get (l.foldl (fun a it => Dict.set a it.name (f it)) acc) "__proto__" =
      Dict.get acc "__proto__" := by
  induction l generalizing acc with
  | nil => rfl
  | cons x l ih =>
    rw [List.foldl_cons, ih]
    by_cases hx : x.name = "__proto__"
    · rw [hx, Dict.set_proto]
    · exact Dict.get_set_ne _ _ _ _ hx

theorem Dashboard.countOf_eq (rt : JSRuntime) (c : JSValue) :
    Dashboard.countOf rt c = if c.toNumber rt = .nan then 0 else c.toNumber rt := by
  unfold Dashboard.countOf
  cases h : c.toNumber rt with
  | nan => simp [JSNumber.truthy]
  | posInf => simp [JSNumber.truthy]
  | negInf => simp [JSNumber.truthy]
  | fin q =>
    by_cases hq : q = 0
    · subst hq
      simp [JSNumber.truthy]
      rfl
    · simp [JSNumber.truthy, hq]

theorem JSNumber.exactInteger_nat (a : ℕ) :
    JSNumber.exactInteger (a : ℚ) = decide (a ≤ 9007199254740992) := by
  simp [JSNumber.exactInteger]

theorem JSNumber.plus_nat (rt : JSRuntime) (a b : ℕ) (h : a + b ≤ 9007199254740992) :
    JSNumber.plus rt (.fin (a : ℚ)) (.fin (b : ℚ)) = .fin ((a + b : ℕ) : ℚ) := by
  unfold JSNumber.plus
  by_cases ha : a = 0
  · simp [ha]
  · by_cases hb : b = 0
    · simp [hb, ha]
    · have hab : JSNumber.exactInteger ((a : ℚ) + (b : ℚ)) = true := by
        have hc : ((a : ℚ) + (b : ℚ)) = ((a + b : ℕ) : ℚ) := by
          push_cast
          ring
        rw [hc, JSNumber.exactInteger_nat]
        simpa using h
      have ha2 : JSNumber.exactInteger (a : ℚ) = true := by
        rw [JSNumber.exactInteger_nat]
        simp only [decide_eq_true_eq]
        omega
      have hb2 : JSNumber.exactInteger (b : ℚ) = true := by
        rw [JSNumber.exactInteger_nat]
        simp only [decide_eq_true_eq]
        omega
      simp [ha, hb, ha2, hb2, hab]

theorem Dashboard.sum_counts_nat (rt : JSRuntime) (l : List Dashboard.RiskFactorItem)
    (ks : List ℕ)
    (hks : l.map (fun e => e.count.toNumber rt) = ks.map (fun (k : ℕ) => JSNumber.fin (k : ℚ)))
    (a : ℕ) (hsum : a + ks.sum ≤ 9007199254740992) :
    l.foldl (fun (s : JSNumber) it => s.plus rt (Dashboard.countOf rt it.count))
        (JSNumber.fin (a : ℚ)) = JSNumber.fin ((a + ks.sum : ℕ) : ℚ) := by
  induction l generalizing ks a with
  | nil =>
    cases ks with
    | nil => simp
    | cons k ks => simp at hks
  | cons x l ih =>
    cases ks with
    | nil => simp at hks
    | cons k ks =>
      simp only [List.map_cons, List.cons.injEq] at hks
      simp only [List.sum_cons] at hsum
      have hc : Dashboard.countOf rt x.count = .fin (k : ℚ) := by
        rw [Dashboard.countOf_eq, hks.1]
        simp
      rw [List.foldl_cons, hc, JSNumber.plus_nat rt a k (by omega),
        ih ks hks.2 (a + k) (by omega)]
      simp only [List.sum_cons]
      congr 2
      omega

theorem Dashboard.total_nat (rt : JSRuntime) (l : List Dashboard.RiskFactorItem) (ks : List ℕ)
    (hks : l.map (fun e => e.count.toNumber rt) = ks.map (fun (k : ℕ) => JSNumber.fin (k : ℚ)))
    (hsum : ks.sum ≤ 9007199254740992) :
    Dashboard.total rt l = if ks.sum = 0 then .fin 1 else .fin (ks.sum : ℚ) := by
  have h := Dashboard.sum_counts_nat rt l ks hks 0 (by omega)
  unfold Dashboard.total
  have h0 : (0 : JSNumber) = .fin ((0 : ℕ) : ℚ) := rfl
  have h1 : (1 : JSNumber) = .fin 1 := by
    show JSNumber.fin ((1 : ℕ) : ℚ) = .fin 1
    simp
  rw [h0, h, h1, Nat.zero_add]
  by_cases hz : ks.sum = 0
  · simp [hz, JSNumber.truthy]
  · have hq : ((ks.sum : ℕ) : ℚ) ≠ 0 := by exact_mod_cast hz
    have ht : (JSNumber.fin ((ks.sum : ℕ) : ℚ)).truthy = true := by
      simp only [JSNumber.truthy, decide_eq_true_eq]
      exact hq
    simp only [ht, if_true, hz, if_false]

theorem Dashboard.statsPorMotivo_preferred (rt : JSRuntime) (it : Dashboard.RiskFactorItem)
    (its : List Dashboard.RiskFactorItem) (clients : Option (List Client)) :
    Dashboard.statsPorMotivo rt .online (some { risk_factors := some (it :: its) }) clients =
      Dashboard.fromRiskFactors rt (it :: its) := by
  simp [Dashboard.statsPorMotivo, Dashboard.canShowData]

/-- C4, as stated, fails: when two entries carry the same name the first
entry's name is mapped to the count of the second (here `A` to 5, not to 3); an
entry named `__proto__` is mapped to nothing, since the assignment replaces the
prototype; and when the counts sum to `NaN` (opposite infinities) the total is 1
although the sum is not 0. -/
theorem preferred_path_duplicate_name :
    (¬ ∀ (rt : JSRuntime) (rf : List Dashboard.RiskFactorItem) (clients : Option (List Client)),
        rf ≠ [] → ∀ it ∈ rf,
          Dict.get (Dashboard.statsPorMotivo rt .online (some { risk_factors := some rf }) clients)
              it.name =
            some { qtd := Dashboard.countOf rt it.count, totalRisco := Dashboard.total rt rf }) ∧
    Dashboard.statsPorMotivo exampleRuntime .online
        (some { risk_factors := some [⟨"__proto__", .number (.fin 3)⟩, ⟨"A", .number (.fin 5)⟩] })
        none = [("A", { qtd := .fin 5, totalRisco := .fin 8 })] ∧
    (Dashboard.total exampleRuntime [⟨"A", .number .posInf⟩, ⟨"B", .number .negInf⟩] = .fin 1 ∧
      JSNumber.plus exampleRuntime (JSNumber.plus exampleRuntime (.fin 0) .posInf) .negInf =
        .nan) := by
  refine ⟨?_, ?_, ?_, ?_⟩
  · intro h
    have h1 := h exampleRuntime [⟨"A", .number (.fin 3)⟩, ⟨"A", .number (.fin 5)⟩] none
      (by simp) ⟨"A", .number (.fin 3)⟩ (by simp)
    rw [Dashboard.statsPorMotivo_preferred, Dashboard.fromRiskFactors,
      Dashboard.get_foldl_set _ _ _ _ (by decide)] at h1
    simp [List.filter, Dashboard.countOf, JSValue.toNumber, JSNumber.truthy] at h1
  · have ht : Dashboard.total exampleRuntime
        [⟨"__proto__", .number (.fin 3)⟩, ⟨"A", .number (.fin 5)⟩] = .fin 8 := by
      rw [Dashboard.total_nat exampleRuntime _ [3, 5] (by simp [JSValue.toNumber])
        (by norm_num)]
      norm_num
    rw [Dashboard.statsPorMotivo_preferred]
    simp only [Dashboard.fromRiskFactors, ht, List.foldl_cons, List.foldl_nil, Dict.set_proto]
    rw [Dict.set_eq_put _ _ _ (by decide)]
    simp [Dict.put, Dashboard.countOf, JSValue.toNumber, JSNumber.truthy]
  · simp [Dashboard.total, Dashboard.countOf, JSValue.toNumber, JSNumber.truthy,
      JSNumber.plus, JSNumber.add]
    rfl
  · rfl

/-- C4, amended: when the API is online and `summary.risk_factors` is a
non-empty array, `statsPorMotivo` maps every name `k` other than `__proto__`
that is borne by an entry to `{qtd, totalRisco}` where `qtd` is the count of the
last entry named `k` (the count converted to a number, 0 when that is `NaN`) and
`totalRisco` is the sum of all the converted counts as the language adds them,
or 1 when that sum is 0 or `NaN`; for counts that are natural numbers whose sum
does not exceed `2^53` that sum is exact; the name `__proto__` and the names
borne by no entry are absent; the result is the same for every clients list; the
entries `Idade: 12`, `País: 8` give `Idade -> {12, 20}` and `País -> {8, 20}`. -/
theorem preferred_path_last_count (rt : JSRuntime) (it : Dashboard.RiskFactorItem)
    (its : List Dashboard.RiskFactorItem) (clients : Option (List Client)) (k : String) :
    (Dict.get
        (Dashboard.statsPorMotivo rt .online (some { risk_factors := some (it :: its) }) clients) k =
      if k = "__proto__" then none
      else
        ((((it :: its).filter (fun e => decide (e.name = k))).getLast?).map fun e =>
          { qtd := if e.count.toNumber rt = .nan then .fin 0 else e.count.toNumber rt,
            totalRisco := Dashboard.total rt (it :: its) })) ∧
    (∀ S : JSNumber,
      S = (it :: its).foldl
        (fun s e =>
          s.plus rt (if e.count.toNumber rt = .nan then .fin 0 else e.count.toNumber rt))
        (.fin 0) →
      Dashboard.total rt (it :: its) = if S = .fin 0 ∨ S = .nan then .fin 1 else S) ∧
    (∀ ks : List ℕ,
      (it :: its).map (fun e => e.count.toNumber rt) =
        ks.map (fun (n : ℕ) => JSNumber.fin (n : ℚ)) →
      ks.sum ≤ 9007199254740992 →
      Dashboard.total rt (it :: its) = if ks.sum = 0 then .fin 1 else .fin (ks.sum : ℚ)) ∧
    (∀ clients2 : Option (List Client),
      Dashboard.statsPorMotivo rt .online (some { risk_factors := some (it :: its) }) clients2 =
        Dashboard.statsPorMotivo rt .online (some { risk_factors := some (it :: its) }) clients) ∧
    (Dict.get (Dashboard.statsPorMotivo rt .online
        (some { risk_factors := some [⟨"Idade", .number (.fin 12)⟩, ⟨"País", .number (.fin 8)⟩] })
        clients) "Idade" = some { qtd := .fin 12, totalRisco := .fin 20 } ∧
      Dict.get (Dashboard.statsPorMotivo rt .online
        (some { risk_factors := some [⟨"Idade", .number (.fin 12)⟩, ⟨"País", .number (.fin 8)⟩] })
        clients) "País" = some { qtd := .fin 8, totalRisco := .fin 20 }) := by
  have h0 : (0 : JSNumber) = .fin 0 := by
    show JSNumber.fin ((0 : ℕ) : ℚ) = .fin 0
    simp
  have h1 : (1 : JSNumber) = .fin 1 := by
    show JSNumber.fin ((1 : ℕ) : ℚ) = .fin 1
    simp
  have hcount : ∀ c : JSValue, Dashboard.countOf rt c =
      if c.toNumber rt = .nan then .fin 0 else c.toNumber rt := by
    intro c
    rw [Dashboard.countOf_eq, h0]
  have ht : Dashboard.total rt [⟨"Idade", .number (.fin 12)⟩, ⟨"País", .number (.fin 8)⟩] =
      .fin 20 := by
    rw [Dashboard.total_nat rt _ [12, 8] (by simp [JSValue.toNumber]) (by norm_num)]
    norm_num
  refine ⟨?_, ?_, ?_, ?_, ?_, ?_⟩
  · rw [Dashboard.statsPorMotivo_preferred, Dashboard.fromRiskFactors]
    by_cases hk : k = "__proto__"
    · rw [hk, Dashboard.get_foldl_set_proto]
      rfl
    · rw [Dashboard.get_foldl_set _ _ _ _ hk, if_neg hk]
      cases ((it :: its).filter (fun e => decide (e.name = k))).getLast? with
      | none => rfl
      | some e => simp [hcount]
  · intro S hS
    unfold Dashboard.total
    simp only [hcount, h0, h1]
    rw [← hS]
    cases S with
    | nan => simp [JSNumber.truthy]
    | posInf => simp [JSNumber.truthy]
    | negInf => simp [JSNumber.truthy]
    | fin q =>
      by_cases hq : q = 0
      · simp [JSNumber.truthy, hq]
      · simp [JSNumber.truthy, hq]
  · intro ks hks hsum
    exact Dashboard.total_nat rt (it :: its) ks hks hsum
  · intro clients2
    rw [Dashboard.statsPorMotivo_preferred, Dashboard.statsPorMotivo_preferred]
  · rw [Dashboard.statsPorMotivo_preferred, Dashboard.fromRiskFactors,
      Dashboard.get_foldl_set _ _ _ _ (by decide), ht]
    simp [List.filter, hcount, JSValue.toNumber]
  · rw [Dashboard.statsPorMotivo_preferred, Dashboard.fromRiskFactors,
      Dashboard.get_foldl_set _ _ _ _ (by decide), ht]
    simp [List.filter, hcount, JSValue.toNumber]

/-- C4, amended, at a concrete input: the two entries of the example, whose
counts are natural numbers, sum to 20 exactly. -/
theorem preferred_path_last_count_witness :
    Dashboard.total exampleRuntime [⟨"Idade", .number (.fin 12)⟩, ⟨"País", .number (.fin 8)⟩] =
      .fin 20 := by
  have h := (preferred_path_last_count exampleRuntime ⟨"Idade", .number (.fin 12)⟩
    [⟨"País", .number (.fin 8)⟩] none "Idade").2.2.1 [12, 8] (by simp [JSValue.toNumber])
    (by norm_num)
  rw [h]
  norm_num

/-! ## Aggregator: the fallback path -/

theorem not_mem_of_head (s : String) (c : Char) (cs : List Char) (hs : s.data = c :: cs)
    (l : List String) (hl : ∀ q ∈ l, q.data.head? ≠ some c) : s ∉ l := by
  intro hmem
  have h := hl s hmem
  rw [hs] at h
  exact h rfl

theorem Translated.inherited_key_not_proto (rt : JSRuntime) (name : String) :
    (Translated.inherited name).propertyKey rt ∉ objectPrototypeKeys := by
  show (if name = "__proto__" then "[object Object]"
    else "function" ++ rt.nativeFunctionText name) ∉ objectPrototypeKeys
  by_cases h : name = "__proto__"
  · rw [if_pos h]
    decide
  · rw [if_neg h]
    apply not_mem_of_head _ 'f' ("unction".data ++ (rt.nativeFunctionText name).data)
    · rw [String.data_append]
      rfl
    · decide

theorem Translated.inherited_key_ne_nil (rt : JSRuntime) (name : String) :
    ((Translated.inherited name).propertyKey rt).data ≠ [] := by
  show (if name = "__proto__" then "[object Object]"
    else "function" ++ rt.nativeFunctionText name).data ≠ []
  by_cases h : name = "__proto__"
  · rw [if_pos h]
    decide
  · rw [if_neg h, String.data_append]
    intro h2
    have h3 := (List.append_eq_nil.mp h2).1
    exact absurd h3 (by decide)

theorem Translated.truthy_eq (rt : JSRuntime) (t : Translated) :
    t.truthy = !(t.propertyKey rt).data.isEmpty := by
  cases t with
  | text s => rfl
  | inherited name =>
    have h := Translated.inherited_key_ne_nil rt name
    simp [Translated.truthy, h]

theorem Dashboard.mapaTraducao_not_proto :
    ∀ e ∈ Dashboard.mapaTraducao, e.2 ∉ objectPrototypeKeys ∧ e.2.data ≠ [] := by
  decide

theorem lookup_mem {β : Type} (table : List (String × β)) (k : String) (v : β)
    (h : table.lookup k = some v) : ∃ k1, (k1, v) ∈ table := by
  induction table with
  | nil => simp [List.lookup] at h
  | cons e rest ih =>
    obtain ⟨k1, v1⟩ := e
    by_cases hk : k = k1
    · subst hk
      simp [List.lookup] at h
      exact ⟨k, by simp [h]⟩
    · have hb : (k == k1) = false := by simpa using hk
      simp only [List.lookup, hb] at h
      obtain ⟨k2, h2⟩ := ih h
      exact ⟨k2, List.mem_cons_of_mem _ h2⟩

theorem lookupOr_key_not_proto (rt : JSRuntime) (table : List (String × String))
    (hv : ∀ e ∈ table, e.2 ∉ objectPrototypeKeys ∧ e.2.data ≠ []) (k : String) :
    (lookupOr table k k).propertyKey rt ∉ objectPrototypeKeys := by
  unfold lookupOr
  cases h : table.lookup k with
  | none =>
    by_cases hk : k ∈ objectPrototypeKeys
    · simp only [hk, if_true]
      exact Translated.inherited_key_not_proto rt k
    · simp only [hk, if_false]
      exact hk
  | some v =>
    obtain ⟨k1, hmem⟩ := lookup_mem table k v h
    have hv2 := hv (k1, v) hmem
    simp only [List.isEmpty_iff, hv2.2, if_false]
    exact hv2.1

theorem Dashboard.traduzir_key_not_proto (rt : JSRuntime) (termo : String) :
    (Dashboard.traduzir termo).propertyKey rt ∉ objectPrototypeKeys := by
  unfold Dashboard.traduzir
  by_cases he : termo.data.isEmpty = true
  · rw [if_pos he]
    show "" ∉ objectPrototypeKeys
    decide
  · rw [if_neg he]
    exact lookupOr_key_not_proto rt _ Dashboard.mapaTraducao_not_proto _

theorem Dashboard.countStep_eq (rt : JSRuntime) (n : Nat) (acc : Dict Dashboard.Stat)
    (c : Client) :
    Dashboard.countStep rt n acc c =
      if ((Dashboard.traduzir (Dashboard.getRiskFactor c)).propertyKey rt).data = [] then acc
      else
        Dict.modify
          (if (Dict.get acc
              ((Dashboard.traduzir (Dashboard.getRiskFactor c)).propertyKey rt)).isNone then
            Dict.put acc ((Dashboard.traduzir (Dashboard.getRiskFactor c)).propertyKey rt)
              { qtd := 0, totalRisco := .fin n }
          else acc)
          ((Dashboard.traduzir (Dashboard.getRiskFactor c)).propertyKey rt)
          (fun s => { s with qtd := s.qtd.add 1 }) := by
  have hnp := Dashboard.traduzir_key_not_proto rt (Dashboard.getRiskFactor c)
  have htr := Translated.truthy_eq rt (Dashboard.traduzir (Dashboard.getRiskFactor c))
  have hne : (Dashboard.traduzir (Dashboard.getRiskFactor c)).propertyKey rt ≠ "__proto__" := by
    intro h
    apply hnp
    rw [h]
    decide
  unfold Dashboard.countStep
  simp only [htr, Bool.not_not, List.isEmpty_iff, Dict.has, hnp, decide_False, Bool.or_false]
  by_cases he : ((Dashboard.traduzir (Dashboard.getRiskFactor c)).propertyKey rt).data = []
  · simp only [he, if_true]
  · simp only [he, if_false]
    cases hg : Dict.get acc ((Dashboard.traduzir (Dashboard.getRiskFactor c)).propertyKey rt) with
    | none =>
      simp only [Option.isSome_none, Bool.not_false, if_true, Option.isNone_none,
        Dict.set_eq_put _ _ _ hne, Dict.get_put_self, Option.isSome_some]
    | some v =>
      simp only [Option.isSome_some, Bool.not_true, Bool.false_eq_true, if_false,
        Option.isNone_some, hg, if_true]

theorem Dashboard.get_countStep (rt : JSRuntime) (n : Nat) (acc : Dict Dashboard.Stat)
    (c : Client) (f : String) :
    Dict.get (Dashboard.countStep rt n acc c) f =
      if (Dashboard.traduzir (Dashboard.getRiskFactor c)).propertyKey rt = f ∧ f.data ≠ [] then
        some ((fun s : Dashboard.Stat => { s with qtd := s.qtd.add 1 })
          ((Dict.get acc f).getD { qtd := 0, totalRisco := .fin n }))
      else Dict.get acc f := by
  rw [Dashboard.countStep_eq]
  by_cases he : ((Dashboard.traduzir (Dashboard.getRiskFactor c)).propertyKey rt).data = []
  · have hne : ¬ ((Dashboard.traduzir (Dashboard.getRiskFactor c)).propertyKey rt = f ∧
        f.data ≠ []) := by
      rintro ⟨h1, h2⟩
      exact h2 (h1 ▸ he)
    simp [he, hne]
  · by_cases hf : (Dashboard.traduzir (Dashboard.getRiskFactor c)).propertyKey rt = f
    · have hfd : f.data ≠ [] := hf ▸ he
      simp only [he, if_false, hf, hfd, ne_eq, not_false_eq_true, and_self, if_true]
      rw [Dict.get_modify_self]
      cases hg : Dict.get acc f with
      | none => simp [Dict.get_put_self]
      | some s => simp [hg]
    · have hne : ¬ ((Dashboard.traduzir (Dashboard.getRiskFactor c)).propertyKey rt = f ∧
          f.data ≠ []) :=
        fun h => hf h.1
      simp only [he, if_false, hne]
      rw [Dict.get_modify_ne _ _ _ _ hf]
      split
      · exact Dict.get_put_ne _ _ _ _ hf
      · rfl

theorem Dashboard.get_foldl_countStep (rt : JSRuntime) (n : Nat) (l : List Client)
    (acc : Dict Dashboard.Stat) (f : String) :
    Dict.get (l.foldl (Dashboard.countStep rt n) acc) f =
      if (l.filter (fun c =>
          decide ((Dashboard.traduzir (Dashboard.getRiskFactor c)).propertyKey rt = f ∧
            f.data ≠ []))).length = 0 then Dict.get acc f
      else some ((fun s : Dashboard.Stat => { s with qtd := s.qtd.add 1 })^[
        (l.filter (fun c =>
          decide ((Dashboard.traduzir (Dashboard.getRiskFactor c)).propertyKey rt = f ∧
            f.data ≠ []))).length]
        ((Dict.get acc f).getD { qtd := 0, totalRisco := .fin n })) := by
  induction l generalizing acc with
  | nil => simp
  | cons c l ih =>
    rw [List.foldl_cons, ih, Dashboard.get_countStep]
    by_cases hc : (Dashboard.traduzir (Dashboard.getRiskFactor c)).propertyKey rt = f ∧
        f.data ≠ []
    · simp only [hc, and_self, if_true, List.filter_cons, decide_True, List.length_cons,
        Nat.succ_ne_zero, if_false, Option.getD_some, ne_eq, not_false_eq_true]
      split
      · rename_i h0
        rw [h0]
        rfl
      · rw [Function.iterate_succ_apply]
    · simp only [hc, if_false, List.filter_cons, decide_False]
      simp

theorem Dashboard.iterate_bump (k : Nat) (a : ℚ) (t : JSNumber) :
    ((fun s : Dashboard.Stat => { s with qtd := s.qtd.add 1 })^[k]
      ({ qtd := .fin a, totalRisco := t } : Dashboard.Stat)) =
      { qtd := .fin (a + k), totalRisco := t } := by
  induction k generalizing a with
  | zero => simp
  | succ k ih =>
    rw [Function.iterate_succ_apply]
    have h1 : (JSNumber.fin a).add 1 = .fin (a + 1) := by
      show (JSNumber.fin a).add (.fin ((1 : ℕ) : ℚ)) = .fin (a + 1)
      simp [JSNumber.add]
    simp only [h1]
    rw [ih]
    congr 2
    push_cast
    ring

theorem Dashboard.get_fromClients (rt : JSRuntime) (clients : List Client) (f : String) :
    Dict.get (Dashboard.fromClients rt clients) f =
      if f.data ≠ [] ∧ 0 < ((Dashboard.emRisco rt clients).filter
          (fun c => decide ((Dashboard.traduzir (Dashboard.getRiskFactor c)).propertyKey rt =
            f))).length then
        some { qtd := .fin ((Dashboard.emRisco rt clients).filter
                  (fun c => decide ((Dashboard.traduzir (Dashboard.getRiskFactor c)).propertyKey
                    rt = f))).length,
               totalRisco := .fin (Dashboard.emRisco rt clients).length }
      else none := by
  unfold Dashboard.fromClients
  rw [Dashboard.get_foldl_countStep]
  by_cases hf : f.data = []
  · simp [hf, Dict.get]
  · have h0 : (0 : JSNumber) = .fin 0 := by
      show JSNumber.fin ((0 : ℕ) : ℚ) = .fin 0
      simp
    simp only [hf, ne_eq, not_false_eq_true, and_true, true_and]
    by_cases hk : ((Dashboard.emRisco rt clients).filter
        (fun c => decide ((Dashboard.traduzir (Dashboard.getRiskFactor c)).propertyKey rt =
          f))).length = 0
    · simp [hk, Dict.get]
    · simp only [hk, if_false, Nat.pos_of_ne_zero hk, if_true, Dict.get, Option.getD_none, h0]
      rw [Dashboard.iterate_bump]
      simp

theorem Dashboard.getProb_number (rt : JSRuntime) (n : JSNumber) (a b c : JSValue)
    (d e f g : Text) (h : JSValue) :
    Dashboard.getProb rt ⟨.number n, a, b, c, d, e, f, g, h⟩ = n := by
  simp [Dashboard.getProb, JSValue.orElse, JSValue.nullish, JSValue.parseFloat]

theorem Dashboard.emRisco_eq (rt : JSRuntime) (clients : List Client) :
    Dashboard.emRisco rt clients =
      clients.filter (fun c =>
        match Dashboard.getProb rt c with
        | .fin q => decide (9 / 20 < q)
        | .posInf => true
        | _ => false) := by
  have h45 : (0.45 : ℚ) = 9 / 20 := by norm_num
  unfold Dashboard.emRisco
  congr 1
  funext c
  cases h : Dashboard.getProb rt c <;> simp [JSNumber.gt, JSNumber.lt, h45]

theorem Dashboard.statsPorMotivo_fallback (rt : JSRuntime) (summary : Option Dashboard.Summary)
    (hs : summary.bind (fun s => s.risk_factors) = none ∨
      summary.bind (fun s => s.risk_factors) = some [])
    (clients : List Client) :
    Dashboard.statsPorMotivo rt .online summary (some clients) =
      Dashboard.fromClients rt clients := by
  unfold Dashboard.statsPorMotivo
  rcases hs with hs | hs <;> rw [hs] <;> cases clients <;>
    simp [Dashboard.canShowData, Dashboard.fromClients, Dashboard.emRisco]

/-- C5: when online and no upstream `risk_factors` are available (`summary` is
null, or the field is missing, not an array or empty), for every clients list the
considered clients `emRisco` are exactly those whose resolved probability is
strictly above `0.45` (so `0.45` itself, and `NaN`, are left out), and
`statsPorMotivo` has an entry for a name exactly when the name is non-empty and
some considered client translates to it; that entry's `qtd` is the number of
considered clients with that translated name and its `totalRisco` is the size
of the whole considered set. The name of a group is the translation as a
property name: a client whose factor is `constructor` is counted under the text
of the built-in function that the table inherits, not under `constructor`.
Probabilities `[0.9, 0.5, 0.46, 0.2]` with factors `[A, A, B, C]` give
`A -> {2, 3}`, `B -> {1, 3}` and nothing for `C`. -/
theorem fallback_counts (rt : JSRuntime) (summary : Option Dashboard.Summary)
    (hs : summary.bind (fun s => s.risk_factors) = none ∨
      summary.bind (fun s => s.risk_factors) = some [])
    (clients : List Client) (f : String) :
    (Dashboard.emRisco rt clients =
      clients.filter (fun c =>
        match Dashboard.getProb rt c with
        | .fin q => decide (9 / 20 < q)
        | .posInf => true
        | _ => false)) ∧
    (Dict.get (Dashboard.statsPorMotivo rt .online summary (some clients)) f =
      if f ≠ "" ∧ 0 < ((Dashboard.emRisco rt clients).filter
          (fun c => decide ((Dashboard.traduzir (Dashboard.getRiskFactor c)).propertyKey rt =
            f))).length then
        some { qtd := .fin ((Dashboard.emRisco rt clients).filter
                  (fun c => decide ((Dashboard.traduzir (Dashboard.getRiskFactor c)).propertyKey
                    rt = f))).length,
               totalRisco := .fin (Dashboard.emRisco rt clients).length }
      else none) ∧
    (Dict.get (Dashboard.statsPorMotivo rt .online summary (some
        [{ probability := .number (.fin 0.9), primary_risk_factor := some "A" },
         { probability := .number (.fin 0.5), primary_risk_factor := some "A" },
         { probability := .number (.fin 0.46), primary_risk_factor := some "B" },
         { probability := .number (.fin 0.2), primary_risk_factor := some "C" }])) "A" =
        some { qtd := .fin 2, totalRisco := .fin 3 } ∧
      Dict.get (Dashboard.statsPorMotivo rt .online summary (some
        [{ probability := .number (.fin 0.9), primary_risk_factor := some "A" },
         { probability := .number (.fin 0.5), primary_risk_factor := some "A" },
         { probability := .number (.fin 0.46), primary_risk_factor := some "B" },
         { probability := .number (.fin 0.2), primary_risk_factor := some "C" }])) "B" =
        some { qtd := .fin 1, totalRisco := .fin 3 } ∧
      Dict.get (Dashboard.statsPorMotivo rt .online summary (some
        [{ probability := .number (.fin 0.9), primary_risk_factor := some "A" },
         { probability := .number (.fin 0.5), primary_risk_factor := some "A" },
         { probability := .number (.fin 0.46), primary_risk_factor := some "B" },
         { probability := .number (.fin 0.2), primary_risk_factor := some "C" }])) "C" =
        none) ∧
    (Dashboard.statsPorMotivo rt .online summary (some
        [{ probability := .number (.fin 0.9), primary_risk_factor := some "constructor" }]) =
      [("function" ++ rt.nativeFunctionText "constructor",
        { qtd := .fin 1, totalRisco := .fin 1 })]) := by
  have hem : Dashboard.emRisco rt
      [{ probability := .number (.fin 0.9), primary_risk_factor := some "A" },
       { probability := .number (.fin 0.5), primary_risk_factor := some "A" },
       { probability := .number (.fin 0.46), primary_risk_factor := some "B" },
       { probability := .number (.fin 0.2), primary_risk_factor := some "C" }] =
      [{ probability := .number (.fin 0.9), primary_risk_factor := some "A" },
       { probability := .number (.fin 0.5), primary_risk_factor := some "A" },
       { probability := .number (.fin 0.46), primary_risk_factor := some "B" }] := by
    rw [Dashboard.emRisco_eq]
    simp only [List.filter, Dashboard.getProb_number]
    norm_num
  have hA : Dashboard.traduzir (Dashboard.getRiskFactor
      { probability := .number (.fin 0.9), primary_risk_factor := some "A" }) = .text "A" := by
    decide
  have hA2 : Dashboard.traduzir (Dashboard.getRiskFactor
      { probability := .number (.fin 0.5), primary_risk_factor := some "A" }) = .text "A" := by
    decide
  have hB : Dashboard.traduzir (Dashboard.getRiskFactor
      { probability := .number (.fin 0.46), primary_risk_factor := some "B" }) = .text "B" := by
    decide
  have hc : Dashboard.traduzir (Dashboard.getRiskFactor
      { probability := .number (.fin 0.9), primary_risk_factor := some "constructor" }) =
      .inherited "constructor" := by
    decide
  refine ⟨?_, ?_, ⟨?_, ?_, ?_⟩, ?_⟩
  · exact Dashboard.emRisco_eq rt clients
  · rw [Dashboard.statsPorMotivo_fallback rt summary hs, Dashboard.get_fromClients]
    have hne : f ≠ "" ↔ f.data ≠ [] := by
      constructor
      · intro h hd
        apply h
        cases f
        simp_all
      · intro h hd
        apply h
        rw [hd]
    simp only [hne]
  · rw [Dashboard.statsPorMotivo_fallback rt summary hs, Dashboard.get_fromClients, hem]
    simp [List.filter, hA, hA2, hB, Translated.propertyKey]
  · rw [Dashboard.statsPorMotivo_fallback rt summary hs, Dashboard.get_fromClients, hem]
    simp [List.filter, hA, hA2, hB, Translated.propertyKey]
  · rw [Dashboard.statsPorMotivo_fallback rt summary hs, Dashboard.get_fromClients, hem]
    simp [List.filter, hA, hA2, hB, Translated.propertyKey]
  · have hem1 : Dashboard.emRisco rt
        [{ probability := .number (.fin 0.9), primary_risk_factor := some "constructor" }] =
        [{ probability := .number (.fin 0.9), primary_risk_factor := some "constructor" }] := by
      rw [Dashboard.emRisco_eq]
      simp only [List.filter, Dashboard.getProb_number]
      norm_num
    have hkey : (Translated.inherited "constructor").propertyKey rt =
        "function" ++ rt.nativeFunctionText "constructor" := by
      simp [Translated.propertyKey]
    have hd := Translated.inherited_key_ne_nil rt "constructor"
    rw [hkey] at hd
    have h01 : (0 : JSNumber).add 1 = .fin 1 := by
      show (JSNumber.fin ((0 : ℕ) : ℚ)).add (.fin ((1 : ℕ) : ℚ)) = .fin 1
      simp [JSNumber.add]
    rw [Dashboard.statsPorMotivo_fallback rt summary hs, Dashboard.fromClients, hem1]
    simp only [List.foldl_cons, List.foldl_nil, List.length_singleton, Dashboard.countStep_eq,
      hc, hkey, hd, if_false, Dict.get, Option.isNone_none, if_true, Dict.put, Dict.modify,
      h01]
    simp

/-- C5, at a concrete input: the four clients of the example, with no summary. -/
theorem fallback_counts_witness :
    Dict.get (Dashboard.statsPorMotivo exampleRuntime .online none (some
        [{ probability := .number (.fin 0.9), primary_risk_factor := some "A" },
         { probability := .number (.fin 0.5), primary_risk_factor := some "A" },
         { probability := .number (.fin 0.46), primary_risk_factor := some "B" },
         { probability := .number (.fin 0.2), primary_risk_factor := some "C" }])) "A" =
      some { qtd := .fin 2, totalRisco := .fin 3 } :=
  (fallback_counts exampleRuntime none (Or.inl rfl) [] "A").2.2.1.1

/-! ## The ranked list -/

theorem JSNumber.lt_irrefl (a : JSNumber) : JSNumber.lt a a = false := by
  cases a <;> simp [JSNumber.lt]

theorem JSNumber.lt_total (a b : JSNumber) : JSNumber.lt a b = false ∨ JSNumber.lt b a = false := by
  cases a <;> cases b <;> simp [JSNumber.lt]
  exact le_total _ _

theorem JSNumber.not_lt_trans (a b c : JSNumber) (hb : b ≠ .nan)
    (h1 : JSNumber.lt a b = false) (h2 : JSNumber.lt b c = false) : JSNumber.lt a c = false := by
  cases a <;> cases b <;> cases c <;> simp_all [JSNumber.lt]
  exact le_trans h2 h1

theorem JSNumber.not_lt_iff (a b : JSNumber) (ha : a ≠ .nan) (hb : b ≠ .nan) :
    JSNumber.lt a b = false ↔ (a = b ∨ JSNumber.lt b a = true) := by
  cases a <;> cases b <;> simp_all [JSNumber.lt]
  rename_i p q
  constructor
  · intro h
    rcases h.lt_or_eq with h1 | h1
    · exact Or.inr h1
    · exact Or.inl h1.symm
  · intro h
    rcases h with h1 | h1
    · exact h1.ge
    · exact h1.le

theorem Dict.forall_put {α : Type} (P : α → Prop) (d : Dict α) (k : String) (v : α)
    (hd : ∀ e ∈ d, P e.2) (hv : P v) : ∀ e ∈ Dict.put d k v, P e.2 := by
  induction d with
  | nil =>
    intro e he
    simp only [Dict.put, List.mem_singleton] at he
    subst he
    exact hv
  | cons x rest ih =>
    obtain ⟨k1, v1⟩ := x
    intro e he
    by_cases h : k1 = k
    · simp only [Dict.put, h, if_true, List.mem_cons] at he
      rcases he with he | he
      · subst he
        exact hv
      · exact hd e (List.mem_cons_of_mem _ he)
    · simp only [Dict.put, h, if_false, List.mem_cons] at he
      rcases he with he | he
      · subst he
        exact hd (k1, v1) (List.mem_cons_self _ _)
      · exact ih (fun e he => hd e (List.mem_cons_of_mem _ he)) e he

theorem Dict.forall_set {α : Type} (P : α → Prop) (d : Dict α) (k : String) (v : α)
    (hd : ∀ e ∈ d, P e.2) (hv : P v) : ∀ e ∈ Dict.set d k v, P e.2 := by
  unfold Dict.set
  split
  · exact hd
  · exact Dict.forall_put P d k v hd hv

theorem Dict.forall_modify {α : Type} (P : α → Prop) (d : Dict α) (k : String) (f : α → α)
    (hd : ∀ e ∈ d, P e.2) (hf : ∀ x, P x → P (f x)) : ∀ e ∈ Dict.modify d k f, P e.2 := by
  induction d with
  | nil =>
    intro e he
    simp [Dict.modify] at he
  | cons x rest ih =>
    obtain ⟨k1, v1⟩ := x
    intro e he
    by_cases h : k1 = k
    · simp only [Dict.modify, h, if_true, List.mem_cons] at he
      rcases he with he | he
      · subst he
        exact hf _ (hd (k1, v1) (List.mem_cons_self _ _))
      · exact hd e (List.mem_cons_of_mem _ he)
    · simp only [Dict.modify, h, if_false, List.mem_cons] at he
      rcases he with he | he
      · subst he
        exact hd (k1, v1) (List.mem_cons_self _ _)
      · exact ih (fun e he => hd e (List.mem_cons_of_mem _ he)) e he

theorem Dashboard.countOf_ne_nan (rt : JSRuntime) (c : JSValue) :
    Dashboard.countOf rt c ≠ .nan := by
  rw [Dashboard.countOf_eq]
  split
  · intro h
    cases h
  · assumption

theorem Dashboard.add_one_ne_nan (a : JSNumber) (h : a ≠ .nan) : a.add 1 ≠ .nan := by
  cases a with
  | nan => exact absurd rfl h
  | posInf => intro h2; cases h2
  | negInf => intro h2; cases h2
  | fin q => intro h2; cases h2

theorem Dashboard.statsPorMotivo_ne_nan (rt : JSRuntime) (apiStatus : ApiStatus)
    (summary : Option Dashboard.Summary) (clients : Option (List Client)) :
    ∀ e ∈ Dashboard.statsPorMotivo rt apiStatus summary clients, e.2.qtd ≠ .nan := by
  have hpref : ∀ (rf l : List Dashboard.RiskFactorItem) (acc : Dict Dashboard.Stat),
      (∀ e ∈ acc, e.2.qtd ≠ .nan) →
      ∀ e ∈ l.foldl (fun acc it => acc.set it.name
        { qtd := Dashboard.countOf rt it.count, totalRisco := Dashboard.total rt rf }) acc,
        e.2.qtd ≠ .nan := by
    intro rf l
    induction l with
    | nil => intro acc h; exact h
    | cons x l ih =>
      intro acc h
      rw [List.foldl_cons]
      exact ih _ (Dict.forall_set (fun s : Dashboard.Stat => s.qtd ≠ JSNumber.nan) acc _ _ h
        (Dashboard.countOf_ne_nan rt x.count))
  have hfall : ∀ (n : Nat) (l : List Client) (acc : Dict Dashboard.Stat),
      (∀ e ∈ acc, e.2.qtd ≠ .nan) →
      ∀ e ∈ l.foldl (Dashboard.countStep rt n) acc, e.2.qtd ≠ .nan := by
    intro n l
    induction l with
    | nil => intro acc h; exact h
    | cons x l ih =>
      intro acc h
      rw [List.foldl_cons]
      apply ih
      rw [Dashboard.countStep_eq]
      by_cases he : ((Dashboard.traduzir (Dashboard.getRiskFactor x)).propertyKey rt).data = []
      · simp only [he, if_true]
        exact h
      · simp only [he, if_false]
        apply Dict.forall_modify (fun s : Dashboard.Stat => s.qtd ≠ JSNumber.nan)
        · by_cases hg : (Dict.get acc
              ((Dashboard.traduzir (Dashboard.getRiskFactor x)).propertyKey rt)).isNone = true
          · simp only [hg, if_true]
            apply Dict.forall_put (fun s : Dashboard.Stat => s.qtd ≠ JSNumber.nan) acc _ _ h
            intro h2
            cases h2
          · simp only [hg, if_false, Bool.false_eq_true]
            exact h
        · intro s hs
          exact Dashboard.add_one_ne_nan _ hs
  unfold Dashboard.statsPorMotivo
  split
  · simp
  · split
    · exact hpref _ _ [] (by simp)
    · split
      · simp
      · simp
      · exact hfall _ _ [] (by simp)

theorem Dashboard.sorted_orderedInsert {α : Type} (r : α → α → Prop) [DecidableRel r]
    (a : α) (l : List α) (hs : l.Pairwise r)
    (htot : ∀ b ∈ l, r a b ∨ r b a)
    (htrans : ∀ b ∈ l, ∀ c ∈ l, r a b → r b c → r a c) :
    (l.orderedInsert r a).Pairwise r := by
  induction l with
  | nil => simp
  | cons b l ih =>
    rw [List.orderedInsert]
    by_cases hab : r a b
    · simp only [hab, if_true]
      rw [List.pairwise_cons]
      refine ⟨?_, hs⟩
      intro c hc
      rcases List.mem_cons.mp hc with hc | hc
      · rw [hc]
        exact hab
      · exact htrans b (List.mem_cons_self _ _) c (List.mem_cons_of_mem _ hc) hab
          ((List.pairwise_cons.mp hs).1 c hc)
    · simp only [hab, if_false]
      rw [List.pairwise_cons]
      constructor
      · intro c hc
        rcases (List.mem_orderedInsert r).mp hc with hc | hc
        · rw [hc]
          rcases htot b (List.mem_cons_self _ _) with h | h
          · exact absurd h hab
          · exact h
        · exact (List.pairwise_cons.mp hs).1 c hc
      · exact ih (List.pairwise_cons.mp hs).2
          (fun c hc => htot c (List.mem_cons_of_mem _ hc))
          (fun c hc d hd => htrans c (List.mem_cons_of_mem _ hc) d (List.mem_cons_of_mem _ hd))

theorem Dashboard.sorted_insertionSort_of {α : Type} (r : α → α → Prop) [DecidableRel r]
    (l : List α) (htot : ∀ a ∈ l, ∀ b ∈ l, r a b ∨ r b a)
    (htrans : ∀ a ∈ l, ∀ b ∈ l, ∀ c ∈ l, r a b → r b c → r a c) :
    (l.insertionSort r).Pairwise r := by
  induction l with
  | nil => simp
  | cons a l ih =>
    rw [List.insertionSort]
    have hmem : ∀ x, x ∈ l.insertionSort r → x ∈ a :: l := fun x hx =>
      List.mem_cons_of_mem _ ((List.perm_insertionSort r l).subset hx)
    apply Dashboard.sorted_orderedInsert
    · exact ih (fun x hx y hy => htot x (List.mem_cons_of_mem _ hx) y (List.mem_cons_of_mem _ hy))
        (fun x hx y hy z hz => htrans x (List.mem_cons_of_mem _ hx) y (List.mem_cons_of_mem _ hy)
          z (List.mem_cons_of_mem _ hz))
    · intro b hb
      exact htot a (List.mem_cons_self _ _) b (hmem b hb)
    · intro b hb c hc
      exact htrans a (List.mem_cons_self _ _) b (hmem b hb) c (hmem c hc)

theorem Dict.entries_perm {α : Type} (d : Dict α) : (Dict.entries d).Perm d := by
  unfold Dict.entries
  have h1 := List.perm_insertionSort (@Dict.indexLe α)
    (d.filter (fun e => (Dict.arrayIndex e.1).isSome))
  exact (h1.append_right _).trans (List.filter_append_perm _ d)

theorem Dict.entries_eq_self {α : Type} (d : Dict α)
    (h : ∀ e ∈ d, Dict.arrayIndex e.1 = none) : Dict.entries d = d := by
  unfold Dict.entries
  have h1 : d.filter (fun e => (Dict.arrayIndex e.1).isSome) = [] := by
    rw [List.filter_eq_nil_iff]
    intro e he
    simp [h e he]
  have h2 : d.filter (fun e => !(Dict.arrayIndex e.1).isSome) = d := by
    rw [List.filter_eq_self]
    intro e he
    simp [h e he]
  rw [h1, h2]
  simp

theorem Dashboard.stable_insertionSort (l : List (String × Dashboard.Stat)) (q : JSNumber) :
    (l.insertionSort Dashboard.qtdGe).filter (fun e => decide (e.2.qtd = q)) =
      l.filter (fun e => decide (e.2.qtd = q)) := by
  have hpw : (l.filter (fun e => decide (e.2.qtd = q))).Pairwise Dashboard.qtdGe := by
    rw [List.pairwise_iff_forall_sublist]
    intro a b hab
    have ha : a ∈ l.filter (fun e => decide (e.2.qtd = q)) := hab.subset (by simp)
    have hb : b ∈ l.filter (fun e => decide (e.2.qtd = q)) := hab.subset (by simp)
    simp only [List.mem_filter, decide_eq_true_eq] at ha hb
    unfold Dashboard.qtdGe
    rw [ha.2, hb.2]
    exact JSNumber.lt_irrefl q
  have hsub : List.Sublist (l.filter (fun e => decide (e.2.qtd = q)))
      (l.insertionSort Dashboard.qtdGe) :=
    List.sublist_insertionSort hpw (List.filter_sublist l)
  have hsub2 := hsub.filter (fun e => decide (e.2.qtd = q))
  rw [List.filter_filter] at hsub2
  simp only [Bool.and_self] at hsub2
  have hlen : ((l.insertionSort Dashboard.qtdGe).filter (fun e => decide (e.2.qtd = q))).length =
      (l.filter (fun e => decide (e.2.qtd = q))).length :=
    ((List.perm_insertionSort Dashboard.qtdGe l).filter _).length_eq
  exact (hsub2.eq_of_length hlen.symm).symm

/-- C6, as stated, fails: with the upstream entries `b: 1` then `1: 1` the two
counts are equal and `b` is seen first, yet the rendered list starts with `1`,
because `Object.entries` enumerates names that are array indices before all
others. -/
theorem ranked_integer_name_first :
    Dashboard.statsPorMotivo exampleRuntime .online
        (some { risk_factors := some [⟨"b", .number (.fin 1)⟩, ⟨"1", .number (.fin 1)⟩] }) none =
      [("b", { qtd := .fin 1, totalRisco := .fin 2 }),
       ("1", { qtd := .fin 1, totalRisco := .fin 2 })] ∧
    Dashboard.ranked (Dashboard.statsPorMotivo exampleRuntime .online
        (some { risk_factors := some [⟨"b", .number (.fin 1)⟩, ⟨"1", .number (.fin 1)⟩] }) none) =
      [("1", { qtd := .fin 1, totalRisco := .fin 2 }),
       ("b", { qtd := .fin 1, totalRisco := .fin 2 })] := by
  have hstats : Dashboard.statsPorMotivo exampleRuntime .online
        (some { risk_factors := some [⟨"b", .number (.fin 1)⟩, ⟨"1", .number (.fin 1)⟩] }) none =
      [("b", { qtd := .fin 1, totalRisco := .fin 2 }),
       ("1", { qtd := .fin 1, totalRisco := .fin 2 })] := by
    have ht : Dashboard.total exampleRuntime
        [⟨"b", .number (.fin 1)⟩, ⟨"1", .number (.fin 1)⟩] = .fin 2 := by
      rw [Dashboard.total_nat exampleRuntime _ [1, 1] (by simp [JSValue.toNumber])
        (by norm_num)]
      norm_num
    rw [Dashboard.statsPorMotivo_preferred]
    simp only [Dashboard.fromRiskFactors, ht, List.foldl_cons, List.foldl_nil]
    rw [Dict.set_eq_put _ _ _ (by decide), Dict.set_eq_put _ _ _ (by decide)]
    simp [Dict.put, Dashboard.countOf, JSValue.toNumber, JSNumber.truthy]
  have hb : Dict.arrayIndex "b" = none := by decide
  have h1 : Dict.arrayIndex "1" = some 1 := by decide
  refine ⟨hstats, ?_⟩
  rw [hstats]
  simp [Dashboard.ranked, Dict.entries, List.filter, hb, h1, List.insertionSort,
    List.orderedInsert, Dashboard.qtdGe, JSNumber.lt]

/-- C6, amended: the ranked list rendered from `statsPorMotivo` is a
permutation of its entries, in non-increasing order of `qtd`, and entries with
equal `qtd` keep the order in which `Object.entries` enumerates them: names that
are array indices first, in ascending numeric order, then the other names in
first-seen order; when no name is an array index that is the first-seen order
of all entries. -/
theorem ranked_sorted_stable (rt : JSRuntime) (apiStatus : ApiStatus)
    (summary : Option Dashboard.Summary) (clients : Option (List Client)) :
    (Dashboard.ranked (Dashboard.statsPorMotivo rt apiStatus summary clients)).Perm
        (Dashboard.statsPorMotivo rt apiStatus summary clients) ∧
    (Dashboard.ranked (Dashboard.statsPorMotivo rt apiStatus summary clients)).Pairwise
        (fun a b => a.2.qtd = b.2.qtd ∨ JSNumber.lt b.2.qtd a.2.qtd = true) ∧
    (∀ q : JSNumber,
      (Dashboard.ranked (Dashboard.statsPorMotivo rt apiStatus summary clients)).filter
          (fun e => decide (e.2.qtd = q)) =
        (Dict.entries (Dashboard.statsPorMotivo rt apiStatus summary clients)).filter
          (fun e => decide (e.2.qtd = q))) ∧
    ((∀ e ∈ Dashboard.statsPorMotivo rt apiStatus summary clients, Dict.arrayIndex e.1 = none) →
      Dict.entries (Dashboard.statsPorMotivo rt apiStatus summary clients) =
        Dashboard.statsPorMotivo rt apiStatus summary clients) := by
  have hnan := Dashboard.statsPorMotivo_ne_nan rt apiStatus summary clients
  have hperm := Dict.entries_perm (Dashboard.statsPorMotivo rt apiStatus summary clients)
  have hnan2 : ∀ e ∈ Dict.entries (Dashboard.statsPorMotivo rt apiStatus summary clients),
      e.2.qtd ≠ .nan := fun e he => hnan e (hperm.subset he)
  refine ⟨?_, ?_, ?_, ?_⟩
  · exact (List.perm_insertionSort _ _).trans hperm
  · have hsorted := Dashboard.sorted_insertionSort_of Dashboard.qtdGe
      (Dict.entries (Dashboard.statsPorMotivo rt apiStatus summary clients))
      (fun a _ b _ => JSNumber.lt_total a.2.qtd b.2.qtd)
      (fun a _ b hb c _ h1 h2 => JSNumber.not_lt_trans a.2.qtd b.2.qtd c.2.qtd (hnan2 b hb) h1 h2)
    have hmem : ∀ e ∈ Dashboard.ranked (Dashboard.statsPorMotivo rt apiStatus summary clients),
        e.2.qtd ≠ .nan := fun e he => hnan2 e ((List.perm_insertionSort _ _).subset he)
    unfold Dashboard.ranked at hmem ⊢
    rw [List.pairwise_iff_forall_sublist] at hsorted ⊢
    intro a b hab
    have ha := hmem a (hab.subset (by simp))
    have hb := hmem b (hab.subset (by simp))
    exact (JSNumber.not_lt_iff a.2.qtd b.2.qtd ha hb).mp (hsorted hab)
  · intro q
    exact Dashboard.stable_insertionSort _ q
  · intro h
    exact Dict.entries_eq_self _ h

/-! ## Connectivity -/

/-- C7: after a run of `fetchData` the connectivity state is `online` exactly
when the health probe resolved with `status` equal to the string "UP",
`degraded` exactly when it resolved with any other or missing status or with a
null response, and `offline` exactly when the probe rejected. -/
theorem fetchData_status {D M : Type} (normalize : D → Option M)
    (health : UseData.HealthOutcome) (dashboard : UseData.FetchOutcome D)
    (st : UseData.State M) :
    ((UseData.fetchData normalize health dashboard st).apiStatus = .online ↔
      health = .resolved (some (.string "UP"))) ∧
    ((UseData.fetchData normalize health dashboard st).apiStatus = .degraded ↔
      ∃ status, health = .resolved status ∧ status ≠ some (.string "UP")) ∧
    ((UseData.fetchData normalize health dashboard st).apiStatus = .offline ↔
      health = .rejected) := by
  cases health with
  | rejected => simp [UseData.fetchData]
  | resolved status =>
    by_cases hup : status = some (.string "UP")
    · subst hup
      cases dashboard <;> simp [UseData.fetchData, UseData.isUp]
    · have hno : UseData.isUp status = false := by
        unfold UseData.isUp
        split
        · rename_i s
          by_cases hs : s = "UP"
          · subst hs
            exact absurd rfl hup
          · simp [hs]
        · rfl
      simp [UseData.fetchData, hno, hup]

/-- C8: whenever the connectivity state is not `online`, the invalidation
effect of the dashboard leaves `summary = null`, `summaryError = null`,
`selectedRiskFactor = ""`, `selectedClientId = null` and
`activeTab = 'dashboard'`, whatever the state was before, and a run of
`fetchData` that ends in a state that is not `online` leaves `metrics = null`. -/
theorem invalidation_clears (apiStatus : ApiStatus) (h : apiStatus ≠ .online)
    (st : Dashboard.PageState) :
    ((Dashboard.invalidate apiStatus st).summary = none ∧
      (Dashboard.invalidate apiStatus st).summaryError = none ∧
      (Dashboard.invalidate apiStatus st).selectedRiskFactor = "" ∧
      (Dashboard.invalidate apiStatus st).selectedClientId = .null ∧
      (Dashboard.invalidate apiStatus st).activeTab = .dashboard) ∧
    (∀ {D M : Type} (normalize : D → Option M) (health : UseData.HealthOutcome)
        (dashboard : UseData.FetchOutcome D) (s : UseData.State M),
      (UseData.fetchData normalize health dashboard s).apiStatus = apiStatus →
      (UseData.fetchData normalize health dashboard s).metrics = none) := by
  have hc : Dashboard.canShowData apiStatus = false := by
    simp [Dashboard.canShowData, h]
  constructor
  · by_cases ht : st.activeTab = .dashboard <;> simp [Dashboard.invalidate, hc, ht]
  · intro D M normalize health dashboard s hs
    cases health with
    | rejected => simp [UseData.fetchData]
    | resolved status =>
      by_cases hup : UseData.isUp status = true
      · cases dashboard <;>
          simp [UseData.fetchData, hup] at hs <;> exact absurd hs.symm h
      · simp [UseData.fetchData, hup]

/-- C8, at a concrete input: the state `offline` met on the prediction tab with
a summary, an error, a selected factor and a selected client. -/
theorem invalidation_clears_witness :
    (Dashboard.invalidate .offline
        { summary := some {}, summaryError := some "Falha ao carregar dados do dashboard",
          selectedRiskFactor := "Idade", selectedClientId := .string "42",
          activeTab := .prediction }).activeTab = .dashboard ∧
    (Dashboard.invalidate .offline
        { summary := some {}, summaryError := some "Falha ao carregar dados do dashboard",
          selectedRiskFactor := "Idade", selectedClientId := .string "42",
          activeTab := .prediction }).selectedRiskFactor = "" :=
  ⟨(invalidation_clears .offline (by decide)
      { summary := some {}, summaryError := some "Falha ao carregar dados do dashboard",
        selectedRiskFactor := "Idade", selectedClientId := .string "42",
        activeTab := .prediction }).1.2.2.2.2,
    (invalidation_clears .offline (by decide)
      { summary := some {}, summaryError := some "Falha ao carregar dados do dashboard",
        selectedRiskFactor := "Idade", selectedClientId := .string "42",
        activeTab := .prediction }).1.2.2.1⟩

/-- C9: for every summary, clients list and selection, if the connectivity
state is anything other than `online` then `statsPorMotivo` is the empty
mapping and `selectedClient` is null. -/
theorem offline_gates_output (rt : JSRuntime) (apiStatus : ApiStatus) (h : apiStatus ≠ .online)
    (summary : Option Dashboard.Summary) (clients : Option (List Client))
    (selectedClientId : JSValue) :
    Dashboard.statsPorMotivo rt apiStatus summary clients = [] ∧
    Dashboard.selectedClient rt apiStatus clients selectedClientId = none := by
  have hc : Dashboard.canShowData apiStatus = false := by
    simp [Dashboard.canShowData, h]
  constructor
  · simp [Dashboard.statsPorMotivo, hc]
  · unfold Dashboard.selectedClient
    split
    · simp [hc]
    · rfl

/-- C9, at a concrete input: a degraded API with an upstream summary and one
client. -/
theorem offline_gates_output_witness :
    Dashboard.statsPorMotivo exampleRuntime .degraded
        (some { risk_factors := some [⟨"Idade", .number (.fin 12)⟩] })
        (some [{ probability := .number (.fin 0.9), primary_risk_factor := some "age" }]) = [] ∧
    Dashboard.selectedClient exampleRuntime .degraded
        (some [{ probability := .number (.fin 0.9), primary_risk_factor := some "age" }])
        .null = none :=
  offline_gates_output exampleRuntime .degraded (by decide)
    (some { risk_factors := some [⟨"Idade", .number (.fin 12)⟩] })
    (some [{ probability := .number (.fin 0.9), primary_risk_factor := some "age" }]) .null

/-! ## Clamping of the displayed probability -/

theorem ClientExplainability.clamp_fin (q : ℚ) :
    JSNumber.min (JSNumber.max (.fin q) 0) 1 =
      if 1 < q then .fin 1 else if q < 0 then .fin 0 else .fin q := by
  have h0 : (0 : JSNumber) = .fin 0 := by
    show JSNumber.fin ((0 : ℕ) : ℚ) = .fin 0
    simp
  have h1 : (1 : JSNumber) = .fin 1 := by
    show JSNumber.fin ((1 : ℕ) : ℚ) = .fin 1
    simp
  rw [h0, h1]
  by_cases hq0 : q < 0
  · have hq1 : ¬ (1 : ℚ) < q := by linarith
    simp [JSNumber.max, JSNumber.min, JSNumber.lt, hq0, hq1]
  · by_cases hq1 : (1 : ℚ) < q
    · simp [JSNumber.max, JSNumber.min, JSNumber.lt, hq0, hq1]
    · simp [JSNumber.max, JSNumber.min, JSNumber.lt, hq0, hq1]

theorem ClientExplainability.prob_eq (rt : JSRuntime) (client : Client) :
    ClientExplainability.prob rt client =
      match (ClientExplainability.rawProb client).toNumber rt with
      | .fin q => if 1 < q then .fin 1 else if q < 0 then .fin 0 else .fin q
      | _ => .fin 0 := by
  unfold ClientExplainability.prob ClientExplainability.safeNumber
  cases h : (ClientExplainability.rawProb client).toNumber rt with
  | fin q => simp only [JSNumber.isFinite, if_true, ClientExplainability.clamp_fin]
  | nan =>
    simp only [JSNumber.isFinite, Bool.false_eq_true, if_false]
    have := ClientExplainability.clamp_fin 0
    simp only [lt_self_iff_false, if_false] at this
    norm_num at this
    convert this using 3
  | posInf =>
    simp only [JSNumber.isFinite, Bool.false_eq_true, if_false]
    have := ClientExplainability.clamp_fin 0
    simp only [lt_self_iff_false, if_false] at this
    norm_num at this
    convert this using 3
  | negInf =>
    simp only [JSNumber.isFinite, Bool.false_eq_true, if_false]
    have := ClientExplainability.clamp_fin 0
    simp only [lt_self_iff_false, if_false] at this
    norm_num at this
    convert this using 3

/-- C10: in ClientExplainability, for every client record, `prob` is a finite
number in `[0,1]`: with `n = Number(rawProb)`, it is 1 when `n` is a finite
number above 1, 0 when `n` is a finite number below 0 or is not finite (`NaN` or
an infinity), and `n` itself otherwise; clamping `prob` again changes nothing;
a record with probability `1.5` gives 1 and one with `-0.2` gives 0. -/
theorem prob_clamped (rt : JSRuntime) (client : Client) :
    (∃ q : ℚ, ClientExplainability.prob rt client = .fin q ∧ 0 ≤ q ∧ q ≤ 1) ∧
    (∀ q : ℚ, (ClientExplainability.rawProb client).toNumber rt = .fin q → 1 < q →
      ClientExplainability.prob rt client = .fin 1) ∧
    (∀ q : ℚ, (ClientExplainability.rawProb client).toNumber rt = .fin q → q < 0 →
      ClientExplainability.prob rt client = .fin 0) ∧
    (((ClientExplainability.rawProb client).toNumber rt).isFinite = false →
      ClientExplainability.prob rt client = .fin 0) ∧
    (∀ q : ℚ, (ClientExplainability.rawProb client).toNumber rt = .fin q → 0 ≤ q → q ≤ 1 →
      ClientExplainability.prob rt client = .fin q) ∧
    JSNumber.min (JSNumber.max (ClientExplainability.prob rt client) 0) 1 =
      ClientExplainability.prob rt client ∧
    ClientExplainability.prob rt { probability := .number (.fin 1.5) } = .fin 1 ∧
    ClientExplainability.prob rt { probability := .number (.fin (-0.2)) } = .fin 0 := by
  have hp := ClientExplainability.prob_eq rt client
  have hrange : ∃ q : ℚ, ClientExplainability.prob rt client = .fin q ∧ 0 ≤ q ∧ q ≤ 1 := by
    rw [hp]
    cases (ClientExplainability.rawProb client).toNumber rt with
    | fin q =>
      by_cases h1 : 1 < q
      · exact ⟨1, by simp [h1], by norm_num, le_refl _⟩
      · by_cases h0 : q < 0
        · exact ⟨0, by simp [h1, h0], le_refl _, by norm_num⟩
        · exact ⟨q, by simp [h1, h0], not_lt.mp h0, not_lt.mp h1⟩
    | nan => exact ⟨0, rfl, le_refl _, by norm_num⟩
    | posInf => exact ⟨0, rfl, le_refl _, by norm_num⟩
    | negInf => exact ⟨0, rfl, le_refl _, by norm_num⟩
  refine ⟨hrange, ?_, ?_, ?_, ?_, ?_, ?_, ?_⟩
  · intro q hq h1
    rw [hp, hq]
    simp [h1]
  · intro q hq h0
    have h1 : ¬ (1 : ℚ) < q := by linarith
    rw [hp, hq]
    simp [h0, h1]
  · intro hfin
    rw [hp]
    cases h : (ClientExplainability.rawProb client).toNumber rt with
    | fin q => rw [h] at hfin; simp [JSNumber.isFinite] at hfin
    | nan => rfl
    | posInf => rfl
    | negInf => rfl
  · intro q hq h0 h1
    rw [hp, hq]
    simp [not_lt.mpr h0, not_lt.mpr h1]
  · obtain ⟨q, hq, h0, h1⟩ := hrange
    rw [hq, ClientExplainability.clamp_fin]
    simp [not_lt.mpr h0, not_lt.mpr h1]
  · rw [ClientExplainability.prob_eq]
    simp only [ClientExplainability.rawProb, JSValue.orElse, JSValue.nullish, JSValue.toNumber]
    norm_num
  · rw [ClientExplainability.prob_eq]
    simp only [ClientExplainability.rawProb, JSValue.orElse, JSValue.nullish, JSValue.toNumber]
    norm_num

/-- C10, at a concrete input: a record whose probability is the number `1.5`. -/
theorem prob_clamped_witness :
    ClientExplainability.prob exampleRuntime { probability := .number (.fin (3 / 2)) } = .fin 1 :=
  (prob_clamped exampleRuntime { probability := .number (.fin (3 / 2)) }).2.1 (3 / 2) rfl
    (by norm_num)

end ChurnInsight

namespace ChurnInsight

/-! ## Risk classifier: missing and unrecognised inputs -/

/-- C11: what the code does at the failing inputs. A prediction without label
whose `probability` is `NaN`, or the non-numeric string "abc", gets the band
`high`, not `low`: `NaN` fails both comparisons and the final `else` is taken.
The sibling paths do treat such a value as 0: `churn_probability` goes through
`|| 0`, and ClientExplainability goes through `safeNumber`. -/
theorem unlabelled_nan_is_high (rt : JSRuntime) :
    PredictionForm.riskLevel rt (some { probability := .number .nan }) = .high ∧
    PredictionForm.riskLevel exampleRuntime (some { probability := .string "abc" }) = .high ∧
    PredictionForm.riskLevel rt (some { churn_probability := .number .nan }) = .low ∧
    ClientExplainability.riskLevel rt { probability := .number .nan } = .LOW ∧
    ClientExplainability.riskLevel exampleRuntime { probability := .string "abc" } = .LOW := by
  have hlow : ClientExplainability.getRiskLevel (JSNumber.fin 0) = .LOW := by
    rw [ClientExplainability.getRiskLevel_fin]
    norm_num
  have hclamp : JSNumber.min (JSNumber.max (0 : JSNumber) 0) 1 = .fin 0 := by
    have h := ClientExplainability.clamp_fin 0
    norm_num at h
    convert h using 3
  refine ⟨?_, ?_, ?_, ?_, ?_⟩
  · simp [PredictionForm.riskLevel, PredictionForm.apiRiskLevel, Text.truthy,
      PredictionForm.numericRiskLevel, PredictionForm.rawProbability, JSValue.toNumber,
      JSNumber.lt]
  · decide
  · rw [PredictionForm.riskLevel_no_label _ _ (by rfl)]
    have hraw : PredictionForm.rawProbability (some { churn_probability := .number .nan }) =
        .number (.fin 0) := by
      simp [PredictionForm.rawProbability, JSValue.or, JSValue.truthy, JSNumber.truthy]
      rfl
    rw [hraw, PredictionForm.numericRiskLevel_fin]
    norm_num
  · simp only [ClientExplainability.riskLevel, ClientExplainability.prob,
      ClientExplainability.safeNumber, ClientExplainability.rawProb, JSValue.orElse,
      JSValue.nullish, JSValue.toNumber, JSNumber.isFinite, Bool.false_eq_true, if_false, hclamp,
      hlow]
  · have hnum : (JSValue.string "abc").toNumber exampleRuntime = .nan := by decide
    simp only [ClientExplainability.riskLevel, ClientExplainability.prob,
      ClientExplainability.safeNumber, ClientExplainability.rawProb, JSValue.orElse,
      JSValue.nullish, hnum, JSNumber.isFinite, Bool.false_eq_true, if_false, hclamp, hlow]

/-- C12, as stated, fails: with the label "medium", which contains no
recognised substring, and probability `0.1`, the band is `unknown`, while the
numeric rule gives `low` for `0.1`. -/
theorem unrecognised_label_not_numeric :
    PredictionForm.riskLevel exampleRuntime
        (some { probability := .number (.fin 0.1), risk_level := .string "medium" }) = .unknown ∧
    PredictionForm.numericRiskLevel exampleRuntime (.number (.fin 0.1)) = .low := by
  constructor
  · decide
  · rw [PredictionForm.numericRiskLevel_fin]
    norm_num

/-- C12, amended: in PredictionForm, for every probability and every
`risk_level` string whose lower-cased form is non-empty and contains none of the
recognised substrings (low, baixo, mod, moder, high, alto), the band is the
sentinel `unknown`; the numeric rule is not consulted. -/
theorem unrecognised_label_unknown (rt : JSRuntime) (r : PredictionForm.PredictionResult)
    (s : String) (hs : r.risk_level = .string s) (hne : (rt.toLowerCase s).data ≠ [])
    (h1 : includes (rt.toLowerCase s) "low" = false)
    (h2 : includes (rt.toLowerCase s) "baixo" = false)
    (h3 : includes (rt.toLowerCase s) "mod" = false)
    (h4 : includes (rt.toLowerCase s) "moder" = false)
    (h5 : includes (rt.toLowerCase s) "high" = false)
    (h6 : includes (rt.toLowerCase s) "alto" = false) :
    PredictionForm.riskLevel rt (some r) = .unknown ∧
    (∀ r2 : PredictionForm.PredictionResult, r2.risk_level = r.risk_level →
      PredictionForm.riskLevel rt (some r2) = .unknown) := by
  constructor
  · rw [PredictionForm.riskLevel_label rt r s hs hne]
    simp [h1, h2, h3, h4, h5, h6]
  · intro r2 hr2
    rw [PredictionForm.riskLevel_label rt r2 s (hr2.trans hs) hne]
    simp [h1, h2, h3, h4, h5, h6]

/-- C12, amended, at a concrete input: the label "Medium" with probability `0.9`. -/
theorem unrecognised_label_unknown_witness :
    PredictionForm.riskLevel exampleRuntime
      (some { probability := .number (.fin 0.9), risk_level := .string "Medium" }) = .unknown :=
  (unrecognised_label_unknown exampleRuntime
    { probability := .number (.fin 0.9), risk_level := .string "Medium" } "Medium" rfl
    (by decide) (by decide) (by decide) (by decide) (by decide) (by decide) (by decide)).1

end ChurnInsight

namespace ChurnInsight

/-! ## Label translators -/

theorem dropLeading_append (p s : String) : dropLeading p (p ++ s) = s := by
  unfold dropLeading
  have h : p.data.isPrefixOf (p ++ s).data = true := by
    rw [String.data_append, List.isPrefixOf_iff_prefix]
    exact List.prefix_append _ _
  rw [if_pos h]
  apply String.ext
  simp [String.data_append]

theorem isPrefixOf_iff_starts (p t : String) :
    p.data.isPrefixOf t.data = true ↔ ∃ r : String, t = p ++ r := by
  rw [List.isPrefixOf_iff_prefix]
  constructor
  · rintro ⟨r, hr⟩
    refine ⟨String.mk r, ?_⟩
    apply String.ext
    rw [String.data_append, ← hr]
  · rintro ⟨r, hr⟩
    rw [hr, String.data_append]
    exact List.prefix_append _ _

theorem dropLeading_of_not (p t : String) (h : ¬ ∃ r : String, t = p ++ r) :
    dropLeading p t = t := by
  unfold dropLeading
  have h2 : ¬ p.data.isPrefixOf t.data = true := fun hp => h ((isPrefixOf_iff_starts p t).mp hp)
  rw [if_neg h2]

theorem lookupOr_own (table : List (String × String)) (hv : ∀ e ∈ table, e.2.data ≠ [])
    (k fallback v : String) (h : table.lookup k = some v) :
    lookupOr table k fallback = .text v := by
  unfold lookupOr
  obtain ⟨k1, hmem⟩ := lookup_mem table k v h
  have hne := hv (k1, v) hmem
  simp [h, hne]

theorem lookupOr_inherited (table : List (String × String)) (k fallback : String)
    (h : table.lookup k = none) (hk : k ∈ objectPrototypeKeys) :
    lookupOr table k fallback = .inherited k := by
  unfold lookupOr
  simp [h, hk]

theorem lookupOr_miss (table : List (String × String)) (k fallback : String)
    (h : table.lookup k = none) (hk : k ∉ objectPrototypeKeys) :
    lookupOr table k fallback = .text fallback := by
  unfold lookupOr
  simp [h, hk]

theorem lookupOr_text (table : List (String × String)) (hv : ∀ e ∈ table, e.2.data ≠ [])
    (k fallback : String) (hk : k ∉ objectPrototypeKeys) :
    lookupOr table k fallback = .text ((table.lookup k).getD fallback) := by
  cases h : table.lookup k with
  | none => exact lookupOr_miss table k fallback h hk
  | some v => exact lookupOr_own table hv k fallback v h

theorem lookupOr_congr (t1 t2 : List (String × String)) (k fallback : String)
    (h : t1.lookup k = t2.lookup k) : lookupOr t1 k fallback = lookupOr t2 k fallback := by
  unfold lookupOr
  rw [h]

theorem lookupOr_eq_empty (table : List (String × String)) (hv : ∀ e ∈ table, e.2.data ≠ [])
    (s : String) (h : lookupOr table s s = .text "") : s = "" := by
  cases hl : table.lookup s with
  | none =>
    by_cases hk : s ∈ objectPrototypeKeys
    · rw [lookupOr_inherited table s s hl hk] at h
      cases h
    · rw [lookupOr_miss table s s hl hk] at h
      exact Translated.text.inj h
  | some v =>
    rw [lookupOr_own table hv s s v hl] at h
    obtain ⟨k1, hmem⟩ := lookup_mem table s v hl
    have hv2 := hv (k1, v) hmem
    have hv3 : v = "" := Translated.text.inj h
    exact absurd (by rw [hv3]) hv2

theorem Dashboard.mapaTraducao_values : ∀ e ∈ Dashboard.mapaTraducao, e.2.data ≠ [] := by
  decide

theorem ClientExplainability.traducao_values :
    ∀ e ∈ ClientExplainability.traducao, e.2.data ≠ [] := by
  decide

theorem append_data_ne_nil (p s : String) (hp : p.data ≠ []) : (p ++ s).data ≠ [] := by
  rw [String.data_append]
  intro h
  exact hp (List.append_eq_nil.mp h).1

theorem Dashboard.traduzir_num (s : String) :
    Dashboard.traduzir ("num__" ++ s) = lookupOr Dashboard.mapaTraducao s s := by
  unfold Dashboard.traduzir
  have hne : ("num__" ++ s).data ≠ [] := append_data_ne_nil _ _ (by decide)
  have hp : "num__".data.isPrefixOf ("num__" ++ s).data = true :=
    (isPrefixOf_iff_starts _ _).mpr ⟨s, rfl⟩
  simp only [List.isEmpty_iff, hne, if_false, hp, if_true, dropLeading_append]

theorem not_starts_of_head (p q s : String) (c d : Char) (cs ds : List Char)
    (hp : p.data = c :: cs) (hq : q.data = d :: ds) (hcd : c ≠ d) :
    ¬ ∃ r : String, p ++ s = q ++ r := by
  rintro ⟨r, hr⟩
  have h := congrArg String.data hr
  rw [String.data_append, String.data_append, hp, hq] at h
  simp only [List.cons_append, List.cons.injEq] at h
  exact hcd h.1

theorem Dashboard.traduzir_cat (s : String) :
    Dashboard.traduzir ("cat__" ++ s) = lookupOr Dashboard.mapaTraducao s s := by
  unfold Dashboard.traduzir
  have hne : ("cat__" ++ s).data ≠ [] := append_data_ne_nil _ _ (by decide)
  have hp : ¬ "num__".data.isPrefixOf ("cat__" ++ s).data = true := by
    rw [isPrefixOf_iff_starts]
    exact not_starts_of_head "cat__" "num__" s 'c' 'n' _ _ rfl rfl (by decide)
  simp only [List.isEmpty_iff, hne, if_false, hp, dropLeading_append, Bool.false_eq_true]

theorem Dashboard.traduzir_plain (t : String) (hne : t ≠ "")
    (h1 : ¬ ∃ r : String, t = "num__" ++ r) (h2 : ¬ ∃ r : String, t = "cat__" ++ r) :
    Dashboard.traduzir t = lookupOr Dashboard.mapaTraducao t t := by
  unfold Dashboard.traduzir
  have hd : t.data ≠ [] := fun h => hne (String.ext h)
  have hp : ¬ "num__".data.isPrefixOf t.data = true := fun h =>
    h1 ((isPrefixOf_iff_starts _ _).mp h)
  simp only [List.isEmpty_iff, hd, if_false, hp, dropLeading_of_not _ _ h2, Bool.false_eq_true]

theorem ClientExplainability.traduzir_eq (t : String) (hne : t ≠ "") (hna : t ≠ "N/A") :
    ClientExplainability.traduzir t =
      lookupOr ClientExplainability.traducao (dropLeading "cat__" (dropLeading "num__" t))
        (dropLeading "cat__" (dropLeading "num__" t)) := by
  unfold ClientExplainability.traduzir
  have hd : t.data ≠ [] := fun h => hne (String.ext h)
  have he : (t.data.isEmpty || decide (t = "N/A")) = false := by
    simp [hd, hna]
  simp only [he, Bool.false_eq_true, if_false]

theorem ne_of_data_length (a b : String) (h : a.data.length ≠ b.data.length) : a ≠ b := by
  intro hab
  exact h (by rw [hab])

end ChurnInsight

namespace ChurnInsight

theorem ClientExplainability.traduzir_strip (t : String) (hne : t ≠ "") (hna : t ≠ "N/A") :
    (∀ s : String, t = "num__" ++ ("cat__" ++ s) →
      ClientExplainability.traduzir t = lookupOr ClientExplainability.traducao s s) ∧
    (∀ s : String, t = "num__" ++ s → (¬ ∃ r : String, s = "cat__" ++ r) →
      ClientExplainability.traduzir t = lookupOr ClientExplainability.traducao s s) ∧
    (∀ s : String, t = "cat__" ++ s →
      ClientExplainability.traduzir t = lookupOr ClientExplainability.traducao s s) ∧
    ((¬ ∃ r : String, t = "num__" ++ r) → (¬ ∃ r : String, t = "cat__" ++ r) →
      ClientExplainability.traduzir t = lookupOr ClientExplainability.traducao t t) := by
  rw [ClientExplainability.traduzir_eq t hne hna]
  refine ⟨?_, ?_, ?_, ?_⟩
  · intro s hs
    rw [hs, dropLeading_append, dropLeading_append]
  · intro s hs hcat
    rw [hs, dropLeading_append, dropLeading_of_not _ _ hcat]
  · intro s hs
    have hnum : ¬ ∃ r : String, "cat__" ++ s = "num__" ++ r :=
      not_starts_of_head "cat__" "num__" s 'c' 'n' _ _ rfl rfl (by decide)
    rw [hs, dropLeading_of_not _ _ hnum, dropLeading_append]
  · intro h1 h2
    rw [dropLeading_of_not _ _ h1, dropLeading_of_not _ _ h2]

theorem append_ne_of_head (p s q : String) (c d : Char) (cs ds : List Char)
    (hp : p.data = c :: cs) (hq : q.data = d :: ds) (hcd : c ≠ d) : p ++ s ≠ q := by
  intro h
  have h2 := congrArg String.data h
  rw [String.data_append, hp, hq] at h2
  simp only [List.cons_append, List.cons.injEq] at h2
  exact hcd h2.1

/-- C13, as stated, fails: "constructor" is not a key of either table, yet the
translators do not return it unchanged. The expression `table[s] || s` finds the
function that every object inherits from `Object.prototype` under that name and
returns it; the same holds behind a tag and for each of the inherited names. -/
theorem translators_inherited_name :
    Dashboard.mapaTraducao.lookup "constructor" = none ∧
    Dashboard.traduzir "constructor" ≠ .text "constructor" ∧
    Dashboard.traduzir "constructor" = .inherited "constructor" ∧
    Dashboard.traduzir "num__toString" = .inherited "toString" ∧
    ClientExplainability.traducao.lookup "constructor" = none ∧
    ClientExplainability.traduzir "constructor" ≠ .text "constructor" ∧
    ClientExplainability.traduzir "constructor" = .inherited "constructor" ∧
    ClientExplainability.traduzir "num__cat__valueOf" = .inherited "valueOf" := by
  decide

/-- C13, amended: for the translators of Dashboard and ClientExplainability, and
every token that is not an absent marker and whose form `s` without the leading
tag is not the name of a property inherited from `Object.prototype`, the result
is `table[s]` when `s` is a key of the table, and `s` itself otherwise; for every
table key `k`, `traduzir("num__"+k)`, `traduzir("cat__"+k)` and `traduzir(k)` all
equal `table[k]`; "num__skip_rate" and "skip_rate" give "Taxa de Pulagem" and
"unmapped_token" is returned unchanged. For an inherited name the result is the
inherited value, with or without a tag. -/
theorem translators_table_or_passthrough (s t : String) (hs : s ∉ objectPrototypeKeys)
    (ht : t ∉ objectPrototypeKeys) :
    (Dashboard.traduzir ("num__" ++ s) = .text ((Dashboard.mapaTraducao.lookup s).getD s) ∧
      Dashboard.traduzir ("cat__" ++ s) = .text ((Dashboard.mapaTraducao.lookup s).getD s) ∧
      (t ≠ "" → (¬ ∃ r : String, t = "num__" ++ r) → (¬ ∃ r : String, t = "cat__" ++ r) →
        Dashboard.traduzir t = .text ((Dashboard.mapaTraducao.lookup t).getD t))) ∧
    (ClientExplainability.traduzir ("num__" ++ ("cat__" ++ s)) =
        .text ((ClientExplainability.traducao.lookup s).getD s) ∧
      ((¬ ∃ r : String, s = "cat__" ++ r) →
        ClientExplainability.traduzir ("num__" ++ s) =
          .text ((ClientExplainability.traducao.lookup s).getD s)) ∧
      ClientExplainability.traduzir ("cat__" ++ s) =
        .text ((ClientExplainability.traducao.lookup s).getD s) ∧
      (t ≠ "" → t ≠ "N/A" → (¬ ∃ r : String, t = "num__" ++ r) →
        (¬ ∃ r : String, t = "cat__" ++ r) →
        ClientExplainability.traduzir t =
          .text ((ClientExplainability.traducao.lookup t).getD t))) ∧
    (∀ e ∈ Dashboard.mapaTraducao,
      Dashboard.traduzir ("num__" ++ e.1) = .text e.2 ∧
        Dashboard.traduzir ("cat__" ++ e.1) = .text e.2 ∧
        Dashboard.traduzir e.1 = .text e.2) ∧
    (∀ e ∈ ClientExplainability.traducao,
      ClientExplainability.traduzir ("num__" ++ e.1) = .text e.2 ∧
        ClientExplainability.traduzir ("cat__" ++ e.1) = .text e.2 ∧
        ClientExplainability.traduzir e.1 = .text e.2) ∧
    (Dashboard.traduzir "num__skip_rate" = .text "Taxa de Pulagem" ∧
      Dashboard.traduzir "skip_rate" = .text "Taxa de Pulagem" ∧
      Dashboard.traduzir "unmapped_token" = .text "unmapped_token" ∧
      ClientExplainability.traduzir "num__skip_rate" = .text "Taxa de Pulagem" ∧
      ClientExplainability.traduzir "skip_rate" = .text "Taxa de Pulagem" ∧
      ClientExplainability.traduzir "unmapped_token" = .text "unmapped_token") ∧
    (∀ n ∈ objectPrototypeKeys,
      Dashboard.traduzir n = .inherited n ∧
        Dashboard.traduzir ("num__" ++ n) = .inherited n ∧
        Dashboard.traduzir ("cat__" ++ n) = .inherited n ∧
        ClientExplainability.traduzir n = .inherited n ∧
        ClientExplainability.traduzir ("num__" ++ n) = .inherited n ∧
        ClientExplainability.traduzir ("cat__" ++ n) = .inherited n ∧
        ClientExplainability.traduzir ("num__" ++ ("cat__" ++ n)) = .inherited n) := by
  have hne : ∀ p x : String, p.data ≠ [] → p ++ x ≠ "" := fun p x hp h =>
    append_data_ne_nil p x hp (by rw [h])
  have hnumNA : ∀ x : String, "num__" ++ x ≠ "N/A" := fun x =>
    append_ne_of_head "num__" x "N/A" 'n' 'N' _ _ rfl rfl (by decide)
  have hcatNA : ∀ x : String, "cat__" ++ x ≠ "N/A" := fun x =>
    append_ne_of_head "cat__" x "N/A" 'c' 'N' _ _ rfl rfl (by decide)
  have hD := lookupOr_text _ Dashboard.mapaTraducao_values
  have hC := lookupOr_text _ ClientExplainability.traducao_values
  refine ⟨⟨?_, ?_, ?_⟩, ⟨?_, ?_, ?_, ?_⟩, by decide, by decide, by decide, by decide⟩
  · rw [Dashboard.traduzir_num, hD s s hs]
  · rw [Dashboard.traduzir_cat, hD s s hs]
  · intro h0 h1 h2
    rw [Dashboard.traduzir_plain t h0 h1 h2, hD t t ht]
  · rw [(ClientExplainability.traduzir_strip _ (hne _ _ (by decide)) (hnumNA _)).1 s rfl,
      hC s s hs]
  · intro hcat
    rw [(ClientExplainability.traduzir_strip _ (hne _ _ (by decide)) (hnumNA _)).2.1 s rfl hcat,
      hC s s hs]
  · rw [(ClientExplainability.traduzir_strip _ (hne _ _ (by decide)) (hcatNA _)).2.2.1 s rfl,
      hC s s hs]
  · intro h0 hna h1 h2
    rw [(ClientExplainability.traduzir_strip t h0 hna).2.2.2 h1 h2, hC t t ht]

/-- C13, amended, at a concrete input: the token "tenure", which is in neither
table and is not an inherited name, is returned unchanged behind the tag `num__`. -/
theorem translators_table_or_passthrough_witness :
    Dashboard.traduzir "num__tenure" = .text "tenure" :=
  (translators_table_or_passthrough "tenure" "tenure" (by decide) (by decide)).1.1

end ChurnInsight

namespace ChurnInsight

theorem PredictionForm.mapa_values : ∀ e ∈ PredictionForm.mapa, e.2.data ≠ [] := by
  decide

/-- C14, as stated, fails: the form's translator does not return
"unmapped_token" unchanged; every underscore becomes a space. Nor does it return
"constructor", which is not in its table: it returns the function that the table
inherits under that name. -/
theorem form_translator_replaces_underscore :
    PredictionForm.traduzir (some "unmapped_token") = .text "unmapped token" ∧
    PredictionForm.traduzir (some "unmapped_token") ≠ .text "unmapped_token" ∧
    PredictionForm.mapa.lookup "constructor" = none ∧
    PredictionForm.traduzir (some "constructor") = .inherited "constructor" := by
  decide

/-- C14, amended: PredictionForm's translator returns every non-empty token that
is not in its table and is not the name of a property inherited from
`Object.prototype` with each underscore replaced by a space, hence unchanged
when the token has no underscore (`traduzir("unmapped_token")` is
"unmapped token"), and returns 'Desconhecido' for an empty or missing token. For
an inherited name it returns the inherited value. -/
theorem form_translator_passthrough (t : String) (hne : t ≠ "")
    (hmiss : PredictionForm.mapa.lookup t = none) (hk : t ∉ objectPrototypeKeys) :
    PredictionForm.traduzir (some t) =
        .text (String.mk (t.data.map (fun c => if c = '_' then ' ' else c))) ∧
    ('_' ∉ t.data → PredictionForm.traduzir (some t) = .text t) ∧
    PredictionForm.traduzir none = .text "Desconhecido" ∧
    PredictionForm.traduzir (some "") = .text "Desconhecido" ∧
    PredictionForm.traduzir (some "unmapped_token") = .text "unmapped token" ∧
    (∀ n ∈ objectPrototypeKeys, PredictionForm.traduzir (some n) = .inherited n) := by
  have hd : t.data ≠ [] := fun h => hne (String.ext h)
  have h1 : PredictionForm.traduzir (some t) =
      .text (String.mk (t.data.map (fun c => if c = '_' then ' ' else c))) := by
    simp only [PredictionForm.traduzir, List.isEmpty_iff, hd, if_false]
    exact lookupOr_miss _ _ _ hmiss hk
  refine ⟨h1, ?_, by decide, by decide, by decide, by decide⟩
  intro hus
  rw [h1]
  congr 1
  apply String.ext
  show t.data.map (fun c => if c = '_' then ' ' else c) = t.data
  conv_rhs => rw [← List.map_id t.data]
  apply List.map_congr_left
  intro c hc
  have : c ≠ '_' := fun h => hus (h ▸ hc)
  simp [this]

/-- C14, amended, at a concrete input: the token "tenure", which has no
underscore and is not in the table. -/
theorem form_translator_passthrough_witness :
    PredictionForm.traduzir (some "tenure") = .text "tenure" :=
  (form_translator_passthrough "tenure" (by decide) (by decide) (by decide)).2.1 (by decide)

/-- C15, as stated, fails: the non-empty token "num__" is translated to the
empty string by both translators. -/
theorem translator_tag_only_empty :
    Dashboard.traduzir "num__" = .text "" ∧ ClientExplainability.traduzir "num__" = .text "" := by
  constructor <;> decide

/-- C15, amended: for every non-empty input token the translators of Dashboard
and ClientExplainability return a string, and that string is empty exactly when
the token consists of tags only: "num__" or "cat__" for Dashboard, and "num__",
"cat__" or "num__cat__" for ClientExplainability; for every other non-empty
token the result is non-empty. -/
theorem translator_empty_iff_tag_only (t : String) (hne : t ≠ "") :
    (Dashboard.traduzir t = .text "" ↔ t = "num__" ∨ t = "cat__") ∧
    (ClientExplainability.traduzir t = .text "" ↔
      t = "num__" ∨ t = "cat__" ∨ t = "num__cat__") := by
  constructor
  · constructor
    · intro h
      by_cases h1 : ∃ r : String, t = "num__" ++ r
      · obtain ⟨r, hr⟩ := h1
        rw [hr, Dashboard.traduzir_num] at h
        have := lookupOr_eq_empty _ Dashboard.mapaTraducao_values r h
        left
        rw [hr, this]
        rfl
      · by_cases h2 : ∃ r : String, t = "cat__" ++ r
        · obtain ⟨r, hr⟩ := h2
          rw [hr, Dashboard.traduzir_cat] at h
          have := lookupOr_eq_empty _ Dashboard.mapaTraducao_values r h
          right
          rw [hr, this]
          rfl
        · rw [Dashboard.traduzir_plain t hne h1 h2] at h
          exact absurd (lookupOr_eq_empty _ Dashboard.mapaTraducao_values t h) hne
    · rintro (h | h) <;> rw [h] <;> decide
  · constructor
    · intro h
      by_cases hna : t = "N/A"
      · rw [hna] at h
        exact absurd h (by decide)
      · have hs := ClientExplainability.traduzir_strip t hne hna
        by_cases h1 : ∃ r : String, t = "num__" ++ r
        · obtain ⟨r, hr⟩ := h1
          by_cases h2 : ∃ r2 : String, r = "cat__" ++ r2
          · obtain ⟨r2, hr2⟩ := h2
            rw [hs.1 r2 (by rw [hr, hr2])] at h
            have := lookupOr_eq_empty _ ClientExplainability.traducao_values r2 h
            right; right
            rw [hr, hr2, this]
            rfl
          · rw [hs.2.1 r hr h2] at h
            have := lookupOr_eq_empty _ ClientExplainability.traducao_values r h
            left
            rw [hr, this]
            rfl
        · by_cases h2 : ∃ r : String, t = "cat__" ++ r
          · obtain ⟨r, hr⟩ := h2
            rw [hs.2.2.1 r hr] at h
            have := lookupOr_eq_empty _ ClientExplainability.traducao_values r h
            right; left
            rw [hr, this]
            rfl
          · rw [hs.2.2.2 h1 h2] at h
            exact absurd (lookupOr_eq_empty _ ClientExplainability.traducao_values t h) hne
    · rintro (h | h | h) <;> rw [h] <;> decide

/-- C15, amended, at a concrete input: the token "num__age" is translated to a
non-empty string by both translators. -/
theorem translator_empty_iff_tag_only_witness :
    Dashboard.traduzir "num__age" ≠ .text "" ∧
    ClientExplainability.traduzir "num__age" ≠ .text "" :=
  ⟨fun h => absurd ((translator_empty_iff_tag_only "num__age" (by decide)).1.mp h) (by decide),
    fun h => absurd ((translator_empty_iff_tag_only "num__age" (by decide)).2.mp h) (by decide)⟩

end ChurnInsight

namespace ChurnInsight

/-! ## Aggregator: absent markers and malformed probabilities -/

theorem Dashboard.statsPorMotivo_one (rt : JSRuntime) (c : Client) (q : ℚ) (hq : 9 / 20 < q)
    (hp : Dashboard.getProb rt c = .fin q) (f : String) (hf : f ≠ "")
    (hc : Dashboard.traduzir (Dashboard.getRiskFactor c) = .text f) :
    Dict.get (Dashboard.statsPorMotivo rt .online none (some [c])) f =
      some { qtd := .fin 1, totalRisco := .fin 1 } := by
  have hem : Dashboard.emRisco rt [c] = [c] := by
    rw [Dashboard.emRisco_eq]
    simp [List.filter, hp, hq]
  have hfd : f.data ≠ [] := fun h => hf (String.ext h)
  rw [Dashboard.statsPorMotivo_fallback rt none (Or.inl rfl), Dashboard.get_fromClients, hem]
  simp [List.filter, hc, hfd, Translated.propertyKey]

/-- C16: what the code does at the failing input. A client at probability `0.9`
whose risk factor is the literal "N/A" is not skipped: the dashboard translator
has no case for "N/A", so the fallback aggregation creates the group "N/A" with
count 1. Clients whose risk factor is empty or missing under every alias are
skipped, as claimed. -/
theorem na_factor_forms_group (rt : JSRuntime) :
    Dict.get (Dashboard.statsPorMotivo rt .online none
        (some [{ probability := .number (.fin 0.9), primary_risk_factor := some "N/A" }])) "N/A" =
      some { qtd := .fin 1, totalRisco := .fin 1 } ∧
    (∀ (n : Nat) (acc : Dict Dashboard.Stat) (c : Client),
      c.primary_risk_factor.truthy = false → c.primaryRiskFactor.truthy = false →
      c.main_factor.truthy = false → c.fator_risco.truthy = false →
      Dashboard.countStep rt n acc c = acc) := by
  constructor
  · apply Dashboard.statsPorMotivo_one rt _ (9 / 10) (by norm_num)
    · rw [Dashboard.getProb_number]
      norm_num
    · decide
    · decide
  · intro n acc c h1 h2 h3 h4
    have hrf : Dashboard.getRiskFactor c = "" := by
      simp only [Dashboard.getRiskFactor, Text.or, h1, h2, h3, h4, Bool.false_eq_true, if_false,
        Option.getD_some]
    simp [Dashboard.countStep, hrf, Dashboard.traduzir, Translated.truthy]

/-- C19: what the code does at the failing inputs. A record whose probability is
`Infinity`, or the string "0.9abc", passes the `> 0.45` filter of the fallback
path and is counted (`parseFloat` keeps `Infinity` and reads the leading
numeral), whereas ClientExplainability's `safeNumber` turns both into 0. Records
whose probability resolves to `NaN` or to `-Infinity` are left out, as claimed. -/
theorem infinite_probability_counted (rt : JSRuntime) :
    Dashboard.emRisco rt [{ probability := .number .posInf, primary_risk_factor := some "age" }] =
      [{ probability := .number .posInf, primary_risk_factor := some "age" }] ∧
    Dict.get (Dashboard.statsPorMotivo rt .online none
        (some [{ probability := .number .posInf, primary_risk_factor := some "age" }])) "Idade" =
      some { qtd := .fin 1, totalRisco := .fin 1 } ∧
    Dict.get (Dashboard.statsPorMotivo exampleRuntime .online none
        (some [{ probability := .string "0.9abc", primary_risk_factor := some "age" }])) "Idade" =
      some { qtd := .fin 1, totalRisco := .fin 1 } ∧
    ClientExplainability.prob rt { probability := .number .posInf } = .fin 0 ∧
    ClientExplainability.prob exampleRuntime { probability := .string "0.9abc" } = .fin 0 ∧
    (∀ (clients : List Client) (c : Client),
      Dashboard.getProb rt c = .nan ∨ Dashboard.getProb rt c = .negInf →
      c ∉ Dashboard.emRisco rt clients) := by
  have hem : Dashboard.emRisco rt
      [{ probability := .number .posInf, primary_risk_factor := some "age" }] =
      [{ probability := .number .posInf, primary_risk_factor := some "age" }] := by
    rw [Dashboard.emRisco_eq]
    simp [List.filter, Dashboard.getProb_number]
  have hstr : Dashboard.getProb exampleRuntime
      { probability := .string "0.9abc", primary_risk_factor := some "age" } =
      .fin (((0 : ℕ) : ℚ) + ((9 : ℕ) : ℚ) / (10 : ℚ) ^ 1) := by
    rfl
  refine ⟨hem, ?_, ?_, ?_, ?_, ?_⟩
  · rw [Dashboard.statsPorMotivo_fallback rt none (Or.inl rfl), Dashboard.get_fromClients, hem]
    have hc : Dashboard.traduzir (Dashboard.getRiskFactor
        { probability := .number .posInf, primary_risk_factor := some "age" }) =
        .text "Idade" := by
      decide
    simp [List.filter, hc, Translated.propertyKey]
  · apply Dashboard.statsPorMotivo_one exampleRuntime _ (9 / 10) (by norm_num)
    · rw [hstr]
      norm_num
    · decide
    · decide
  · rw [ClientExplainability.prob_eq]
    rfl
  · rw [ClientExplainability.prob_eq]
    have hnum : (ClientExplainability.rawProb { probability := .string "0.9abc" }).toNumber
        exampleRuntime = .nan := by
      rfl
    rw [hnum]
  · intro clients c hc
    rw [Dashboard.emRisco_eq, List.mem_filter]
    rcases hc with hc | hc <;> simp [hc]

end ChurnInsight

namespace ChurnInsight

/-! ## Connectivity: refresh and transport failures -/

theorem UseData.fetchData_blocks {D M : Type} (normalize : D → Option M)
    (health : UseData.HealthOutcome) (dashboard : UseData.FetchOutcome D)
    (st : UseData.State M) :
    UseData.fetchData normalize health dashboard st =
      UseData.finallyBlock
        (match UseData.tryBlock normalize health dashboard (UseData.pending st) with
         | (s, none) => s
         | (s, some message) => UseData.catchBlock s message) := by
  cases health with
  | rejected => rfl
  | resolved status =>
    by_cases hup : UseData.isUp status = true
    · cases dashboard <;>
        simp [UseData.fetchData, UseData.tryBlock, UseData.pending, UseData.finallyBlock,
          UseData.catchBlock, hup]
    · simp [UseData.fetchData, UseData.tryBlock, UseData.pending, UseData.finallyBlock, hup]

/-- C17, as stated, fails: a refresh started in the state `online` leaves the
state `online`, not `checking`, while the health probe is pending; the same
holds from `degraded` and `offline`. -/
theorem refresh_keeps_status :
    (UseData.pending
        ({ metrics := none, apiStatus := .online, loading := false, error := none } :
          UseData.State Unit)).apiStatus = .online ∧
    (UseData.pending
        ({ metrics := none, apiStatus := .degraded, loading := false, error := none } :
          UseData.State Unit)).apiStatus = .degraded ∧
    (UseData.pending
        ({ metrics := none, apiStatus := .offline, loading := false, error := none } :
          UseData.State Unit)).apiStatus = .offline := by
  refine ⟨rfl, rfl, rfl⟩

/-- C17, amended: whenever a refresh is initiated, the connectivity state keeps
the value it had (online, degraded or offline) until the health probe settles,
while `loading` is true and `error` is null; `checking` is only the initial
state, and no run of `fetchData` ends in it. -/
theorem refresh_pending_state {D M : Type} (normalize : D → Option M)
    (health : UseData.HealthOutcome) (dashboard : UseData.FetchOutcome D)
    (st : UseData.State M) :
    (UseData.pending st).apiStatus = st.apiStatus ∧
    (UseData.pending st).loading = true ∧
    (UseData.pending st).error = none ∧
    (UseData.pending st).metrics = st.metrics ∧
    (UseData.State.initial M).apiStatus = .checking ∧
    (UseData.fetchData normalize health dashboard st).apiStatus ≠ .checking := by
  refine ⟨rfl, rfl, rfl, rfl, rfl, ?_⟩
  cases health with
  | rejected => simp [UseData.fetchData]
  | resolved status =>
    by_cases hup : UseData.isUp status = true
    · cases dashboard <;> simp [UseData.fetchData, hup]
    · simp [UseData.fetchData, hup]

/-- C18, as stated, fails: when the health probe reports "UP" and the
aggregate-metrics fetch rejects, the connectivity state is `online`, not
`offline`. -/
theorem metrics_failure_stays_online :
    (UseData.fetchData (fun _ : Unit => (none : Option Unit))
        (.resolved (some (.string "UP"))) (.rejected (some "Failed to fetch"))
        (UseData.State.initial Unit)).apiStatus = .online := by
  rfl

/-- C18, amended: in `fetchData`, if the health probe rejects the resulting
connectivity state is `offline`; if the probe reports "UP" and the
aggregate-metrics fetch rejects, the state is `online`, `error` holds the message
of the error (or 'Erro ao carregar métricas' when it has none) and `metrics` is
null; no exception escapes: whatever the `try` block throws is handled by the
`catch` block, and the run always ends with `loading = false`. -/
theorem transport_failure_handling {D M : Type} (normalize : D → Option M)
    (dashboard : UseData.FetchOutcome D) (st : UseData.State M) (message : Text) :
    (UseData.fetchData normalize .rejected dashboard st).apiStatus = .offline ∧
    ((UseData.fetchData normalize (.resolved (some (.string "UP"))) (.rejected message) st).apiStatus =
        .online ∧
      (UseData.fetchData normalize (.resolved (some (.string "UP"))) (.rejected message) st).error =
        some (match message with
          | some m => if m = "" then "Erro ao carregar métricas" else m
          | none => "Erro ao carregar métricas") ∧
      (UseData.fetchData normalize (.resolved (some (.string "UP"))) (.rejected message) st).metrics =
        none) ∧
    (∀ health : UseData.HealthOutcome,
      UseData.fetchData normalize health dashboard st =
        UseData.finallyBlock
          (match UseData.tryBlock normalize health dashboard (UseData.pending st) with
           | (s, none) => s
           | (s, some thrown) => UseData.catchBlock s thrown) ∧
      (UseData.fetchData normalize health dashboard st).loading = false) := by
  refine ⟨rfl, ⟨rfl, ?_, rfl⟩, ?_⟩
  · cases message with
    | none => rfl
    | some m =>
      by_cases hm : m = ""
      · subst hm
        rfl
      · have hd : m.data ≠ [] := fun h => hm (String.ext h)
        simp [UseData.fetchData, UseData.isUp, Text.or, Text.truthy, hd, hm]
  · intro health
    refine ⟨UseData.fetchData_blocks normalize health dashboard st, ?_⟩
    rw [UseData.fetchData_blocks]
    rfl

/-- C20: when online and `summary.risk_factors` is missing, not an array or an
empty array (or there is no summary), `statsPorMotivo` is the local fallback
computed over `clients`, and the empty mapping when `clients` is missing or
empty; when `risk_factors` is a non-empty array it is the mapping built from
`risk_factors`: the preferred path is taken exactly in that case. -/
theorem path_selection (rt : JSRuntime) (summary : Option Dashboard.Summary)
    (clients : Option (List Client)) :
    ((summary.bind (fun s => s.risk_factors) = none ∨
        summary.bind (fun s => s.risk_factors) = some []) →
      (∀ cs : List Client, clients = some cs →
        Dashboard.statsPorMotivo rt .online summary clients = Dashboard.fromClients rt cs) ∧
      (clients = none ∨ clients = some [] →
        Dashboard.statsPorMotivo rt .online summary clients = [])) ∧
    (∀ (it : Dashboard.RiskFactorItem) (its : List Dashboard.RiskFactorItem),
      summary.bind (fun s => s.risk_factors) = some (it :: its) →
      Dashboard.statsPorMotivo rt .online summary clients =
        Dashboard.fromRiskFactors rt (it :: its)) := by
  constructor
  · intro hs
    constructor
    · intro cs hcs
      rw [hcs]
      exact Dashboard.statsPorMotivo_fallback rt summary hs cs
    · intro hc
      unfold Dashboard.statsPorMotivo
      rcases hs with hs | hs <;> rcases hc with hc | hc <;> rw [hs, hc] <;>
        simp [Dashboard.canShowData]
  · intro it its hs
    unfold Dashboard.statsPorMotivo
    rw [hs]
    simp [Dashboard.canShowData]

/-- C20, at a concrete input: a summary whose `risk_factors` is an empty array,
with one client at probability `0.9`. -/
theorem path_selection_witness :
    Dashboard.statsPorMotivo exampleRuntime .online (some { risk_factors := some [] })
        (some [{ probability := .number (.fin 0.9), primary_risk_factor := some "age" }]) =
      Dashboard.fromClients exampleRuntime
        [{ probability := .number (.fin 0.9), primary_risk_factor := some "age" }] :=
  ((path_selection exampleRuntime (some { risk_factors := some [] })
    (some [{ probability := .number (.fin 0.9), primary_risk_factor := some "age" }])).1
    (Or.inr rfl)).1 _ rfl

end ChurnInsight

namespace ChurnInsight

/-! ## Field resolution -/

theorem JSNumber.zero_eq : (0 : JSNumber) = .fin 0 := by
  show JSNumber.fin ((0 : ℕ) : ℚ) = .fin 0
  simp

/-- C21: what the code does, and the failing input. ClientExplainability's
`rawProb` is the value of the first of the four keys that is neither `undefined`
nor `null`, and the number 0 when there is none, as claimed. Dashboard's
`getProb` parses the value of the same first key, and gives 0 when every key is
nullish and `probabilidade` is `undefined`; but when `probabilidade` is `null`
(and the keys before it are nullish) the test `val !== undefined` lets `null`
through and the result is `NaN`, not 0. -/
theorem probability_resolution (rt : JSRuntime) (c : Client) :
    ((c.probability.nullish = false → ClientExplainability.rawProb c = c.probability) ∧
      (c.probability.nullish = true → c.churnProbability.nullish = false →
        ClientExplainability.rawProb c = c.churnProbability) ∧
      (c.probability.nullish = true → c.churnProbability.nullish = true →
        c.churn_probability.nullish = false →
        ClientExplainability.rawProb c = c.churn_probability) ∧
      (c.probability.nullish = true → c.churnProbability.nullish = true →
        c.churn_probability.nullish = true → c.probabilidade.nullish = false →
        ClientExplainability.rawProb c = c.probabilidade) ∧
      (c.probability.nullish = true → c.churnProbability.nullish = true →
        c.churn_probability.nullish = true → c.probabilidade.nullish = true →
        ClientExplainability.rawProb c = .number (.fin 0))) ∧
    ((c.probability.nullish = false →
        Dashboard.getProb rt c = c.probability.parseFloat rt) ∧
      (c.probability.nullish = true → c.churnProbability.nullish = false →
        Dashboard.getProb rt c = c.churnProbability.parseFloat rt) ∧
      (c.probability.nullish = true → c.churnProbability.nullish = true →
        c.churn_probability.nullish = false →
        Dashboard.getProb rt c = c.churn_probability.parseFloat rt) ∧
      (c.probability.nullish = true → c.churnProbability.nullish = true →
        c.churn_probability.nullish = true → c.probabilidade.nullish = false →
        Dashboard.getProb rt c = c.probabilidade.parseFloat rt) ∧
      (c.probability.nullish = true → c.churnProbability.nullish = true →
        c.churn_probability.nullish = true → c.probabilidade = .undefined →
        Dashboard.getProb rt c = .fin 0) ∧
      (c.probability.nullish = true → c.churnProbability.nullish = true →
        c.churn_probability.nullish = true → c.probabilidade = .null →
        Dashboard.getProb rt c = .nan)) ∧
    (Dashboard.getProb rt { probabilidade := .null } = .nan ∧
      ClientExplainability.rawProb { probabilidade := .null } = .number (.fin 0)) := by
  have hnn : ∀ v : JSValue, v.nullish = false → v ≠ .undefined := by
    intro v hv h
    rw [h] at hv
    simp [JSValue.nullish] at hv
  refine ⟨⟨?_, ?_, ?_, ?_, ?_⟩, ⟨?_, ?_, ?_, ?_, ?_, ?_⟩, ?_, ?_⟩
  · intro h1
    simp [ClientExplainability.rawProb, JSValue.orElse, h1]
  · intro h1 h2
    simp [ClientExplainability.rawProb, JSValue.orElse, h1, h2]
  · intro h1 h2 h3
    simp [ClientExplainability.rawProb, JSValue.orElse, h1, h2, h3]
  · intro h1 h2 h3 h4
    simp [ClientExplainability.rawProb, JSValue.orElse, h1, h2, h3, h4]
  · intro h1 h2 h3 h4
    simp [ClientExplainability.rawProb, JSValue.orElse, h1, h2, h3, h4, JSNumber.zero_eq]
  · intro h1
    simp [Dashboard.getProb, JSValue.orElse, h1, hnn _ h1]
  · intro h1 h2
    simp [Dashboard.getProb, JSValue.orElse, h1, h2, hnn _ h2]
  · intro h1 h2 h3
    simp [Dashboard.getProb, JSValue.orElse, h1, h2, h3, hnn _ h3]
  · intro h1 h2 h3 h4
    simp [Dashboard.getProb, JSValue.orElse, h1, h2, h3, h4, hnn _ h4]
  · intro h1 h2 h3 h4
    simp [Dashboard.getProb, JSValue.orElse, h1, h2, h3, h4, JSNumber.zero_eq]
  · intro h1 h2 h3 h4
    simp [Dashboard.getProb, JSValue.orElse, h1, h2, h3, h4, JSValue.parseFloat]
  · simp [Dashboard.getProb, JSValue.orElse, JSValue.nullish, JSValue.parseFloat]
  · simp [ClientExplainability.rawProb, JSValue.orElse, JSValue.nullish, JSNumber.zero_eq]

/-! ## Credentials -/

theorem Api.indexOfFrom_absent (c : Char) (l : List Char) (i : Nat) (h : c ∉ l) :
    Api.indexOfFrom c l i = -1 := by
  induction l generalizing i with
  | nil => rfl
  | cons x xs ih =>
    have hx : x ≠ c := fun hxc => h (hxc ▸ List.mem_cons_self _ _)
    have hxs : c ∉ xs := fun hm => h (List.mem_cons_of_mem _ hm)
    simp only [Api.indexOfFrom, hx, if_false]
    exact ih _ hxs

theorem Api.indexOfFrom_first (c : Char) (u p : List Char) (i : Nat) (h : c ∉ u) :
    Api.indexOfFrom c (u ++ c :: p) i = ((i + u.length : Nat) : Int) := by
  induction u generalizing i with
  | nil => simp [Api.indexOfFrom]
  | cons x xs ih =>
    have hx : x ≠ c := fun hxc => h (hxc ▸ List.mem_cons_self _ _)
    have hxs : c ∉ xs := fun hm => h (List.mem_cons_of_mem _ hm)
    show Api.indexOfFrom c (x :: (xs ++ c :: p)) i = _
    simp only [Api.indexOfFrom, hx, if_false]
    rw [ih _ hxs]
    simp only [List.length_cons]
    congr 1
    omega

theorem Api.split_first (c : Char) (l : List Char) (h : c ∈ l) :
    ∃ u p : List Char, l = u ++ c :: p ∧ c ∉ u := by
  induction l with
  | nil => simp at h
  | cons x xs ih =>
    by_cases hx : x = c
    · exact ⟨[], xs, by simp [hx], by simp⟩
    · have hxs : c ∈ xs := by
        rcases List.mem_cons.mp h with h1 | h1
        · exact absurd h1.symm hx
        · exact h1
      obtain ⟨u, p, hl, hu⟩ := ih hxs
      refine ⟨x :: u, p, by simp [hl], ?_⟩
      intro hm
      rcases List.mem_cons.mp hm with h1 | h1
      · exact hx h1.symm
      · exact hu h1

theorem Api.parsePrompt_split (u p : List Char) (hu : u ≠ []) (hc : ':' ∉ u) :
    Api.parsePrompt (some (String.mk (u ++ ':' :: p))) = .ok (String.mk u, String.mk p) := by
  have hne : (u ++ ':' :: p).isEmpty = false := by
    cases u <;> simp
  have hidx : Api.indexOf (String.mk (u ++ ':' :: p)) ':' = (u.length : Int) := by
    unfold Api.indexOf
    rw [Api.indexOfFrom_first ':' u p 0 hc]
    simp
  have hpos : ¬ ((u.length : Int) ≤ 0) := by
    have : 0 < u.length := List.length_pos.mpr hu
    omega
  have h1 : List.take u.length (u ++ ':' :: p) = u := List.take_left' rfl
  have h2 : List.drop (u.length + 1) (u ++ ':' :: p) = p := by
    rw [← List.drop_drop, List.drop_left' rfl]
    rfl
  simp only [Api.parsePrompt, hne, Bool.false_eq_true, if_false, hidx, hpos, Int.toNat_ofNat,
    h1, h2]

end ChurnInsight

namespace ChurnInsight

theorem Api.parsePrompt_error (s : String)
    (h : s.data = [] ∨ ':' ∉ s.data ∨ s.data.head? = some ':') :
    ∃ e, Api.parsePrompt (some s) = .error e := by
  by_cases he : s.data = []
  · refine ⟨"Credenciais da API não fornecidas", ?_⟩
    simp [Api.parsePrompt, he]
  · have hne : s.data.isEmpty = false := by simpa using he
    have hidx : Api.indexOf s ':' ≤ 0 := by
      rcases h with h | h | h
      · exact absurd h he
      · unfold Api.indexOf
        rw [Api.indexOfFrom_absent _ _ _ h]
        omega
      · unfold Api.indexOf
        cases hd : s.data with
        | nil => exact absurd hd he
        | cons x xs =>
          rw [hd] at h
          simp only [List.head?_cons, Option.some.injEq] at h
          simp [Api.indexOfFrom, h]
    refine ⟨"Formato inválido. Use username:password", ?_⟩
    simp only [Api.parsePrompt, hne, Bool.false_eq_true, if_false, hidx, if_true]

theorem Api.parsePrompt_ok (s : String)
    (h : ¬ (s.data = [] ∨ ':' ∉ s.data ∨ s.data.head? = some ':')) :
    ∃ u p : List Char, u ≠ [] ∧ ':' ∉ u ∧ s.data = u ++ ':' :: p ∧
      Api.parsePrompt (some s) = .ok (String.mk u, String.mk p) := by
  have hmem : ':' ∈ s.data := by
    by_contra hm
    exact h (Or.inr (Or.inl hm))
  obtain ⟨u, p, hl, hu⟩ := Api.split_first ':' s.data hmem
  have hune : u ≠ [] := by
    intro hu0
    apply h
    right; right
    rw [hl, hu0]
    rfl
  refine ⟨u, p, hune, hu, hl, ?_⟩
  have hs : s = String.mk (u ++ ':' :: p) := String.ext hl
  rw [hs]
  exact Api.parsePrompt_split u p hune hu

/-- C22: in `ensureCredentials`, for every prompt input, parsing throws an error
if and only if the input is null or empty, or has no ':', or has its first ':'
at index 0; otherwise the input is split at its first ':': `username + ':' +
password` is the input, `username` is non-empty and has no ':', and `password`
is whatever follows, colons included ("user:pa:ss" gives "user" and "pa:ss");
when no credentials are known otherwise, `ensureCredentials` returns or throws
exactly that. -/
theorem prompt_parsing (input : Option String) :
    ((∃ e, Api.parsePrompt input = .error e) ↔
      (input = none ∨
        ∃ s : String, input = some s ∧
          (s = "" ∨ ':' ∉ s.data ∨ s.data.head? = some ':'))) ∧
    (∀ u p : String, Api.parsePrompt input = .ok (u, p) →
      input = some (u ++ ":" ++ p) ∧ u ≠ "" ∧ ':' ∉ u.data) ∧
    (∀ u p : String, u ≠ "" → ':' ∉ u.data →
      Api.parsePrompt (some (u ++ ":" ++ p)) = .ok (u, p)) ∧
    Api.parsePrompt (some "user:pa:ss") = .ok ("user", "pa:ss") ∧
    (∀ creds : Api.RuntimeCredentials, (creds.username.truthy && creds.password.truthy) = false →
      (∀ e, Api.parsePrompt input = .error e →
        Api.ensureCredentials creds none true input = .error e) ∧
      (∀ u p : String, Api.parsePrompt input = .ok (u, p) →
        Api.ensureCredentials creds none true input =
          .ok { username := some u, password := some p })) := by
  have hempty : ∀ s : String, s = "" ↔ s.data = [] := fun s =>
    ⟨fun h => by rw [h], fun h => String.ext h⟩
  refine ⟨?_, ?_, ?_, rfl, ?_⟩
  · constructor
    · rintro ⟨e, he⟩
      cases input with
      | none => exact Or.inl rfl
      | some s =>
        right
        refine ⟨s, rfl, ?_⟩
        by_contra hcon
        rw [hempty] at hcon
        obtain ⟨u, p, _, _, _, hok⟩ := Api.parsePrompt_ok s hcon
        rw [hok] at he
        cases he
    · rintro (h | ⟨s, hs, h⟩)
      · rw [h]
        exact ⟨_, rfl⟩
      · rw [hs]
        rw [hempty] at h
        exact Api.parsePrompt_error s h
  · intro u p hok
    cases input with
    | none => simp [Api.parsePrompt] at hok
    | some s =>
      by_cases hcon : s.data = [] ∨ ':' ∉ s.data ∨ s.data.head? = some ':'
      · obtain ⟨e, he⟩ := Api.parsePrompt_error s hcon
        rw [he] at hok
        cases hok
      · obtain ⟨u1, p1, hune, hu, hl, hok1⟩ := Api.parsePrompt_ok s hcon
        rw [hok1] at hok
        simp only [Except.ok.injEq, Prod.mk.injEq] at hok
        obtain ⟨h1, h2⟩ := hok
        subst h1
        subst h2
        refine ⟨?_, ?_, hu⟩
        · congr 1
          apply String.ext
          rw [hl]
          simp [String.data_append]
        · intro h0
          exact hune (congrArg String.data h0)
  · intro u p hu hc
    have hune : u.data ≠ [] := fun h => hu (String.ext h)
    have hs : u ++ ":" ++ p = String.mk (u.data ++ ':' :: p.data) := by
      apply String.ext
      simp [String.data_append]
    rw [hs]
    exact Api.parsePrompt_split u.data p.data hune hc
  · intro creds hcreds
    constructor
    · intro e he
      simp [Api.ensureCredentials, hcreds, he]
    · intro u p hok
      simp [Api.ensureCredentials, hcreds, hok]

end ChurnInsight

namespace ChurnInsight

/-! ## Submission of the prediction form -/

/-- C23: `handleSubmit` passes a payload to the prediction API if and only if
`user_id` is non-empty after trimming; when it is empty or blank no request is
made, `reset()` is called and the form error is set; when a request is made the
`user_id` of the payload is the trimmed value. -/
theorem submit_requires_user_id (rt : JSRuntime) (trim : String → String)
    (formData : PredictionForm.FormData) :
    ((PredictionForm.handleSubmit rt trim formData).request.isSome = true ↔
      trim ((formData.user_id.or (some "")).getD "") ≠ "") ∧
    (trim ((formData.user_id.or (some "")).getD "") = "" →
      (PredictionForm.handleSubmit rt trim formData).request = none ∧
      (PredictionForm.handleSubmit rt trim formData).resetCalled = true ∧
      (PredictionForm.handleSubmit rt trim formData).formError =
        some "Informe o ID do Usuário para realizar a predição.") ∧
    (∀ payload : PredictionForm.Payload,
      (PredictionForm.handleSubmit rt trim formData).request = some payload →
      payload.user_id = trim ((formData.user_id.or (some "")).getD "") ∧
      (PredictionForm.handleSubmit rt trim formData).resetCalled = false ∧
      (PredictionForm.handleSubmit rt trim formData).formError = none) ∧
    ((PredictionForm.handleSubmit exampleRuntime jsTrim
        ⟨some "  \n ", .string "Male", .number (.fin 25), .string "BR", .string "Free",
          .string "Mobile", .number (.fin 300), .number (.fin 20), .number (.fin 0.2),
          .number (.fin 10), .bool false⟩).request.isNone = true ∧
      ((PredictionForm.handleSubmit exampleRuntime jsTrim
        ⟨some " user-12345 ", .string "Male", .number (.fin 25), .string "BR", .string "Free",
          .string "Mobile", .number (.fin 300), .number (.fin 20), .number (.fin 0.2),
          .number (.fin 10), .bool false⟩).request.map (fun q => q.user_id)) =
        some "user-12345") := by
  have hempty : ∀ s : String, s = "" ↔ s.data = [] := fun s =>
    ⟨fun h => by rw [h], fun h => String.ext h⟩
  by_cases h : (trim ((formData.user_id.or (some "")).getD "")).data = []
  · have h2 := (hempty _).mpr h
    refine ⟨?_, ?_, ?_, by decide, by decide⟩
    · simp [PredictionForm.handleSubmit, h, h2]
    · intro _
      simp [PredictionForm.handleSubmit, h]
    · intro payload hp
      simp [PredictionForm.handleSubmit, h] at hp
  · have h2 : trim ((formData.user_id.or (some "")).getD "") ≠ "" := fun h3 =>
      h ((hempty _).mp h3)
    refine ⟨?_, ?_, ?_, by decide, by decide⟩
    · simp [PredictionForm.handleSubmit, h, h2]
    · intro h3
      exact absurd h3 h2
    · intro payload hp
      simp only [PredictionForm.handleSubmit, List.isEmpty_iff, h, if_false,
        Option.some.injEq] at hp
      subst hp
      simp [PredictionForm.handleSubmit, h, PredictionForm.payloadOf]

/-- C23, at a concrete input: a form whose identifier is blank. -/
theorem submit_requires_user_id_witness :
    (PredictionForm.handleSubmit exampleRuntime jsTrim
        ⟨some "   ", .string "Male", .number (.fin 25), .string "BR", .string "Free",
          .string "Mobile", .number (.fin 300), .number (.fin 20), .number (.fin 0.2),
          .number (.fin 10), .bool false⟩).request = none :=
  ((submit_requires_user_id exampleRuntime jsTrim
      ⟨some "   ", .string "Male", .number (.fin 25), .string "BR", .string "Free",
        .string "Mobile", .number (.fin 300), .number (.fin 20), .number (.fin 0.2),
        .number (.fin 10), .bool false⟩).2.1 (by decide)).1

theorem PredictionForm.numberOrZero_eq (rt : JSRuntime) (v : JSValue) :
    PredictionForm.numberOrZero rt v =
      if v.toNumber rt = .nan then .fin 0 else v.toNumber rt := by
  unfold PredictionForm.numberOrZero
  rw [JSNumber.zero_eq]
  cases h : v.toNumber rt with
  | nan => simp [JSNumber.truthy]
  | posInf => simp [JSNumber.truthy]
  | negInf => simp [JSNumber.truthy]
  | fin q =>
    by_cases hq : q = 0
    · subst hq
      simp [JSNumber.truthy]
    · simp [JSNumber.truthy, hq]

/-- C24, as stated, fails: the field `user_id` is not copied unchanged; the
form value " u1 " is sent as "u1". -/
theorem payload_user_id_trimmed :
    (PredictionForm.handleSubmit exampleRuntime jsTrim
        ⟨some " u1 ", .string "Male", .number (.fin 25), .string "BR", .string "Free",
          .string "Mobile", .number (.fin 300), .number (.fin 20), .number (.fin 0.2),
          .number (.fin 10), .bool false⟩).request.map (fun q => q.user_id) = some "u1" ∧
    (some "u1" : Option String) ≠ some " u1 " := by
  constructor <;> decide

/-- C24, amended: in every payload that `handleSubmit` sends, each of `age`,
`listening_time`, `songs_played_per_day`, `skip_rate` and
`ads_listened_per_week` is a number that is never `NaN`: it is `Number(field)`
when that is a number and 0 when that is `NaN` (so a non-numeric field becomes
0, and an empty field becomes 0 since `Number("")` is 0); `offline_listening` is
the boolean `!!field`; `gender`, `country`, `subscription_type` and
`device_type` are copied unchanged; `user_id` is the trimmed identifier. -/
theorem payload_sanitised (rt : JSRuntime) (trim : String → String)
    (formData : PredictionForm.FormData) (payload : PredictionForm.Payload)
    (h : (PredictionForm.handleSubmit rt trim formData).request = some payload) :
    (payload.age ≠ .nan ∧ payload.listening_time ≠ .nan ∧
      payload.songs_played_per_day ≠ .nan ∧ payload.skip_rate ≠ .nan ∧
      payload.ads_listened_per_week ≠ .nan) ∧
    (payload.age = (if formData.age.toNumber rt = .nan then .fin 0
        else formData.age.toNumber rt) ∧
      payload.listening_time = (if formData.listening_time.toNumber rt = .nan then .fin 0
        else formData.listening_time.toNumber rt) ∧
      payload.songs_played_per_day =
        (if formData.songs_played_per_day.toNumber rt = .nan then .fin 0
          else formData.songs_played_per_day.toNumber rt) ∧
      payload.skip_rate = (if formData.skip_rate.toNumber rt = .nan then .fin 0
        else formData.skip_rate.toNumber rt) ∧
      payload.ads_listened_per_week =
        (if formData.ads_listened_per_week.toNumber rt = .nan then .fin 0
          else formData.ads_listened_per_week.toNumber rt)) ∧
    (rt.stringToNumber "" = .fin 0 → formData.age = .string "" → payload.age = .fin 0) ∧
    payload.offline_listening = formData.offline_listening.truthy ∧
    (payload.gender = formData.gender ∧ payload.country = formData.country ∧
      payload.subscription_type = formData.subscription_type ∧
      payload.device_type = formData.device_type) ∧
    payload.user_id = trim ((formData.user_id.or (some "")).getD "") := by
  have hp : payload = PredictionForm.payloadOf rt formData
      (trim ((formData.user_id.or (some "")).getD "")) := by
    unfold PredictionForm.handleSubmit at h
    by_cases he : (trim ((formData.user_id.or (some "")).getD "")).data.isEmpty = true
    · simp [he] at h
    · simp only [he, Bool.false_eq_true, if_false, Option.some.injEq] at h
      exact h.symm
  have hnan : ∀ v : JSValue, PredictionForm.numberOrZero rt v ≠ .nan := by
    intro v
    rw [PredictionForm.numberOrZero_eq]
    split
    · intro h2
      cases h2
    · assumption
  subst hp
  refine ⟨⟨hnan _, hnan _, hnan _, hnan _, hnan _⟩,
    ⟨PredictionForm.numberOrZero_eq _ _, PredictionForm.numberOrZero_eq _ _,
      PredictionForm.numberOrZero_eq _ _, PredictionForm.numberOrZero_eq _ _,
      PredictionForm.numberOrZero_eq _ _⟩, ?_, rfl, ⟨rfl, rfl, rfl, rfl⟩, rfl⟩
  intro h0 hage
  show PredictionForm.numberOrZero rt formData.age = .fin 0
  rw [PredictionForm.numberOrZero_eq, hage]
  simp [JSValue.toNumber, h0]

/-- C24, amended, at a concrete input: a form whose `age` is the text "abc" and
whose `listening_time` is the text "300". -/
theorem payload_sanitised_witness :
    (PredictionForm.payloadOf exampleRuntime
        ⟨some "u1", .string "Male", .string "abc", .string "BR", .string "Free",
          .string "Mobile", .string "300", .number (.fin 20), .number (.fin 0.2),
          .number (.fin 10), .bool true⟩ "u1").age ≠ .nan :=
  (payload_sanitised exampleRuntime jsTrim
    ⟨some "u1", .string "Male", .string "abc", .string "BR", .string "Free",
      .string "Mobile", .string "300", .number (.fin 20), .number (.fin 0.2),
      .number (.fin 10), .bool true⟩
    (PredictionForm.payloadOf exampleRuntime
      ⟨some "u1", .string "Male", .string "abc", .string "BR", .string "Free",
        .string "Mobile", .string "300", .number (.fin 20), .number (.fin 0.2),
        .number (.fin 10), .bool true⟩ "u1") (by rfl)).1.1

end ChurnInsight

namespace ChurnInsight

/-! ## Risk classifier: priority, agreement and the unknown band -/

theorem unrecognised_label_unknown_aux (rt : JSRuntime) (r : PredictionForm.PredictionResult)
    (s : String) (hs : r.risk_level = .string s) (hne : (rt.toLowerCase s).data ≠ [])
    (h1 : includes (rt.toLowerCase s) "low" = false)
    (h2 : includes (rt.toLowerCase s) "baixo" = false)
    (h3 : includes (rt.toLowerCase s) "mod" = false)
    (h4 : includes (rt.toLowerCase s) "moder" = false)
    (h5 : includes (rt.toLowerCase s) "high" = false)
    (h6 : includes (rt.toLowerCase s) "alto" = false) :
    PredictionForm.riskLevel rt (some r) = .unknown := by
  rw [PredictionForm.riskLevel_label rt r s hs hne]
  simp [h1, h2, h3, h4, h5, h6]


/-- C25: in PredictionForm the lower-cased label is tested against low/baixo
first, then mod/moder, then high/alto: every label whose lower-cased form
contains "low" or "baixo" gives `low`, whatever else it contains, and every label
whose lower-cased form contains "mod" but neither "low" nor "baixo" gives `mod`,
even if it also contains "high" or "alto". -/
theorem label_family_priority (rt : JSRuntime) (r : PredictionForm.PredictionResult)
    (s : String) (hs : r.risk_level = .string s) :
    (includes (rt.toLowerCase s) "low" = true ∨ includes (rt.toLowerCase s) "baixo" = true →
      PredictionForm.riskLevel rt (some r) = .low) ∧
    (includes (rt.toLowerCase s) "mod" = true →
      includes (rt.toLowerCase s) "low" = false → includes (rt.toLowerCase s) "baixo" = false →
      PredictionForm.riskLevel rt (some r) = .mod) ∧
    (includes (rt.toLowerCase s) "high" = true ∨ includes (rt.toLowerCase s) "alto" = true →
      includes (rt.toLowerCase s) "low" = false → includes (rt.toLowerCase s) "baixo" = false →
      includes (rt.toLowerCase s) "mod" = false → includes (rt.toLowerCase s) "moder" = false →
      PredictionForm.riskLevel rt (some r) = .high) ∧
    (PredictionForm.riskLevel exampleRuntime
        (some { risk_level := .string "Low to High" }) = .low ∧
      PredictionForm.riskLevel exampleRuntime
        (some { risk_level := .string "MODERADO/ALTO" }) = .mod) := by
  refine ⟨?_, ?_, ?_, by decide, by decide⟩
  · intro h
    have hne : (rt.toLowerCase s).data ≠ [] := by
      rcases h with h | h <;> exact PredictionForm.includes_ne_nil _ _ (by decide) h
    rw [PredictionForm.riskLevel_label rt r s hs hne]
    rcases h with h | h <;> simp [h]
  · intro h h1 h2
    have hne : (rt.toLowerCase s).data ≠ [] :=
      PredictionForm.includes_ne_nil _ _ (by decide) h
    rw [PredictionForm.riskLevel_label rt r s hs hne]
    simp [h, h1, h2]
  · intro h h1 h2 h3 h4
    have hne : (rt.toLowerCase s).data ≠ [] := by
      rcases h with h | h <;> exact PredictionForm.includes_ne_nil _ _ (by decide) h
    rw [PredictionForm.riskLevel_label rt r s hs hne]
    rcases h with h | h <;> simp [h, h1, h2, h3, h4]

/-- C25, at a concrete input: the label "Moderate / High". -/
theorem label_family_priority_witness :
    PredictionForm.riskLevel exampleRuntime
      (some { risk_level := .string "Moderate / High" }) = .mod :=
  (label_family_priority exampleRuntime { risk_level := .string "Moderate / High" }
    "Moderate / High" rfl).2.1 (by decide) (by decide) (by decide)

/-- C26: the two numeric banding rules agree. For every finite probability `p`,
inside or outside `[0,1]`, the band PredictionForm computes without label on the
unclamped `p` corresponds (low to LOW, mod to MODERATE, high to HIGH) to the
band `getRiskLevel` gives for `p` clamped to `[0,1]`, which is also the band of
`p` itself; so a prediction and a client record with the same probability get
corresponding bands. -/
theorem numeric_bands_agree (rt : JSRuntime) (p : ℚ) :
    (PredictionForm.numericRiskLevel rt (.number (.fin p)) = .low ↔
      ClientExplainability.getRiskLevel (JSNumber.min (JSNumber.max (.fin p) 0) 1) = .LOW) ∧
    (PredictionForm.numericRiskLevel rt (.number (.fin p)) = .mod ↔
      ClientExplainability.getRiskLevel (JSNumber.min (JSNumber.max (.fin p) 0) 1) =
        .MODERATE) ∧
    (PredictionForm.numericRiskLevel rt (.number (.fin p)) = .high ↔
      ClientExplainability.getRiskLevel (JSNumber.min (JSNumber.max (.fin p) 0) 1) = .HIGH) ∧
    ClientExplainability.getRiskLevel (JSNumber.min (JSNumber.max (.fin p) 0) 1) =
      ClientExplainability.getRiskLevel (.fin p) ∧
    ((PredictionForm.riskLevel rt (some { probability := .number (.fin p) }) = .low ↔
        ClientExplainability.riskLevel rt { probability := .number (.fin p) } = .LOW) ∧
      (PredictionForm.riskLevel rt (some { probability := .number (.fin p) }) = .mod ↔
        ClientExplainability.riskLevel rt { probability := .number (.fin p) } = .MODERATE) ∧
      (PredictionForm.riskLevel rt (some { probability := .number (.fin p) }) = .high ↔
        ClientExplainability.riskLevel rt { probability := .number (.fin p) } = .HIGH)) := by
  have hform : PredictionForm.riskLevel rt (some { probability := .number (.fin p) }) =
      PredictionForm.numericRiskLevel rt (.number (.fin p)) := by
    rw [PredictionForm.riskLevel_no_label _ _ (by rfl)]
    rfl
  have hclient : ClientExplainability.riskLevel rt { probability := .number (.fin p) } =
      ClientExplainability.getRiskLevel (JSNumber.min (JSNumber.max (.fin p) 0) 1) := by
    rfl
  rw [hform, hclient, PredictionForm.numericRiskLevel_fin, ClientExplainability.clamp_fin,
    ClientExplainability.getRiskLevel_fin]
  by_cases h1 : 1 < p
  · have ha : ¬ p < 2 / 5 := by linarith
    have hb : ¬ p < 3 / 5 := by linarith
    simp only [h1, if_true, ClientExplainability.getRiskLevel_fin, ha, hb, if_false]
    norm_num
    simp
  · by_cases h0 : p < 0
    · have ha : p < 2 / 5 := by linarith
      simp only [h1, h0, if_true, if_false, ClientExplainability.getRiskLevel_fin, ha]
      norm_num
      simp
    · simp only [h1, h0, if_false, ClientExplainability.getRiskLevel_fin]
      by_cases ha : p < 2 / 5
      · simp [ha]
      · by_cases hb : p < 3 / 5
        · simp [ha, hb]
        · simp [ha, hb]

/-- C30: in PredictionForm the band is `unknown` if and only if `risk_level` is
a string whose lower-cased form is non-empty and contains none of the
recognised substrings (for a runtime whose `toLowerCase` maps only the empty
string to the empty string: if and only if `risk_level` is such a non-empty
string); with a missing, non-string or empty label the band is one of
low/mod/high, a missing probability being read as 0 and giving `low`; and with
the band `unknown` the displayed risk factor is the fixed text
'Nenhum fator de risco relevante identificado'. -/
theorem unknown_band_iff (rt : JSRuntime) (result : Option PredictionForm.PredictionResult) :
    (PredictionForm.riskLevel rt result = .unknown ↔
      ∃ (r : PredictionForm.PredictionResult) (s : String),
        result = some r ∧ r.risk_level = .string s ∧ rt.toLowerCase s ≠ "" ∧
        includes (rt.toLowerCase s) "low" = false ∧
        includes (rt.toLowerCase s) "baixo" = false ∧
        includes (rt.toLowerCase s) "mod" = false ∧
        includes (rt.toLowerCase s) "moder" = false ∧
        includes (rt.toLowerCase s) "high" = false ∧
        includes (rt.toLowerCase s) "alto" = false) ∧
    ((∀ s : String, rt.toLowerCase s = "" ↔ s = "") →
      (PredictionForm.riskLevel rt result = .unknown ↔
        ∃ (r : PredictionForm.PredictionResult) (s : String),
          result = some r ∧ r.risk_level = .string s ∧ s ≠ "" ∧
          includes (rt.toLowerCase s) "low" = false ∧
          includes (rt.toLowerCase s) "baixo" = false ∧
          includes (rt.toLowerCase s) "mod" = false ∧
          includes (rt.toLowerCase s) "moder" = false ∧
          includes (rt.toLowerCase s) "high" = false ∧
          includes (rt.toLowerCase s) "alto" = false)) ∧
    ((result = none ∨
        ∃ r : PredictionForm.PredictionResult, result = some r ∧
          ((∀ s : String, r.risk_level ≠ .string s) ∨
            ∃ s : String, r.risk_level = .string s ∧ rt.toLowerCase s = "")) →
      PredictionForm.riskLevel rt result = .low ∨ PredictionForm.riskLevel rt result = .mod ∨
        PredictionForm.riskLevel rt result = .high) ∧
    (PredictionForm.riskLevel rt none = .low ∧
      PredictionForm.riskLevel rt (some {}) = .low) ∧
    (PredictionForm.riskLevel rt result = .unknown →
      PredictionForm.riskFactor rt result =
        .text "Nenhum fator de risco relevante identificado") := by
  have hempty : ∀ s : String, s = "" ↔ s.data = [] := fun s =>
    ⟨fun h => by rw [h], fun h => String.ext h⟩
  have hnum : ∀ v : JSValue, PredictionForm.numericRiskLevel rt v ≠ .unknown := by
    intro v
    unfold PredictionForm.numericRiskLevel
    split
    · intro h; cases h
    · split
      · intro h; cases h
      · intro h; cases h
  have hzero : PredictionForm.numericRiskLevel rt (.number 0) = .low := by
    rw [JSNumber.zero_eq, PredictionForm.numericRiskLevel_fin]
    norm_num
  have hmain : PredictionForm.riskLevel rt result = .unknown ↔
      ∃ (r : PredictionForm.PredictionResult) (s : String),
        result = some r ∧ r.risk_level = .string s ∧ rt.toLowerCase s ≠ "" ∧
        includes (rt.toLowerCase s) "low" = false ∧
        includes (rt.toLowerCase s) "baixo" = false ∧
        includes (rt.toLowerCase s) "mod" = false ∧
        includes (rt.toLowerCase s) "moder" = false ∧
        includes (rt.toLowerCase s) "high" = false ∧
        includes (rt.toLowerCase s) "alto" = false := by
    constructor
    · intro h
      by_cases hl : (PredictionForm.apiRiskLevel rt result).truthy = true
      · cases result with
        | none => simp [PredictionForm.apiRiskLevel, Text.truthy] at hl
        | some r =>
          cases hr : r.risk_level with
          | string s =>
            have hne : (rt.toLowerCase s).data ≠ [] := by
              simpa [PredictionForm.apiRiskLevel, hr, Text.truthy] using hl
            rw [PredictionForm.riskLevel_label rt r s hr hne] at h
            refine ⟨r, s, rfl, hr, fun h0 => hne ((hempty _).mp h0), ?_⟩
            cases h1 : includes (rt.toLowerCase s) "low" <;>
              cases h2 : includes (rt.toLowerCase s) "baixo" <;>
              cases h3 : includes (rt.toLowerCase s) "mod" <;>
              cases h4 : includes (rt.toLowerCase s) "moder" <;>
              cases h5 : includes (rt.toLowerCase s) "high" <;>
              cases h6 : includes (rt.toLowerCase s) "alto" <;>
              simp [h1, h2, h3, h4, h5, h6] at h ⊢
          | undefined => simp [PredictionForm.apiRiskLevel, hr, Text.truthy] at hl
          | null => simp [PredictionForm.apiRiskLevel, hr, Text.truthy] at hl
          | bool b => simp [PredictionForm.apiRiskLevel, hr, Text.truthy] at hl
          | number n => simp [PredictionForm.apiRiskLevel, hr, Text.truthy] at hl
      · have hl2 : (PredictionForm.apiRiskLevel rt result).truthy = false := by
          simpa using hl
        rw [PredictionForm.riskLevel_no_label rt result hl2] at h
        exact absurd h (hnum _)
    · rintro ⟨r, s, hres, hs, hne, h1, h2, h3, h4, h5, h6⟩
      rw [hres]
      exact (unrecognised_label_unknown_aux rt r s hs (fun h0 => hne ((hempty _).mpr h0))
        h1 h2 h3 h4 h5 h6)
  refine ⟨hmain, ?_, ?_, ⟨?_, ?_⟩, ?_⟩
  · intro hrt
    rw [hmain]
    constructor
    · rintro ⟨r, s, hres, hs, hne, rest⟩
      exact ⟨r, s, hres, hs, fun h0 => hne ((hrt s).mpr h0), rest⟩
    · rintro ⟨r, s, hres, hs, hne, rest⟩
      exact ⟨r, s, hres, hs, fun h0 => hne ((hrt s).mp h0), rest⟩
  · intro hl
    have hnot : PredictionForm.riskLevel rt result ≠ .unknown := by
      intro hu
      obtain ⟨r, s, hres, hs, hne, _⟩ := hmain.mp hu
      rcases hl with hl | ⟨r2, hres2, hl⟩
      · rw [hl] at hres
        cases hres
      · rw [hres2] at hres
        cases hres
        rcases hl with hl | ⟨s2, hs2, hl⟩
        · exact hl s hs
        · rw [hs2] at hs
          cases hs
          exact hne hl
    cases h : PredictionForm.riskLevel rt result with
    | low => exact Or.inl rfl
    | mod => exact Or.inr (Or.inl rfl)
    | high => exact Or.inr (Or.inr rfl)
    | unknown => exact absurd h hnot
  · rw [PredictionForm.riskLevel_no_label rt none (by rfl)]
    exact hzero
  · rw [PredictionForm.riskLevel_no_label rt (some {}) (by rfl)]
    have hraw : PredictionForm.rawProbability (some {}) = .number 0 := by
      simp [PredictionForm.rawProbability, JSValue.or, JSValue.truthy]
    rw [hraw]
    exact hzero
  · intro h
    simp [PredictionForm.riskFactor, h]

end ChurnInsight

namespace ChurnInsight

/-! ## Agreement of the two translators -/

theorem lookup_eq_none_of_not_mem {β : Type} (table : List (String × β)) (k : String)
    (h : k ∉ table.map Prod.fst) : table.lookup k = none := by
  induction table with
  | nil => rfl
  | cons e rest ih =>
    obtain ⟨k1, v1⟩ := e
    have hk : k ≠ k1 := fun hk => h (by simp [hk])
    have hb : (k == k1) = false := by simpa using hk
    have hrest : k ∉ rest.map Prod.fst := fun hm => h (by simp at hm ⊢; exact Or.inr hm)
    simp only [List.lookup, hb]
    exact ih hrest

theorem tables_agree (k : String) (h1 : k ≠ "premium_sub_month") (h2 : k ≠ "fav_genre") :
    Dashboard.mapaTraducao.lookup k = ClientExplainability.traducao.lookup k := by
  by_cases hk : k ∈ ClientExplainability.traducao.map Prod.fst
  · simp only [ClientExplainability.traducao, List.map_cons, List.map_nil, List.mem_cons,
      List.mem_singleton, List.not_mem_nil, or_false] at hk
    rcases hk with hk | hk | hk | hk | hk | hk | hk | hk | hk | hk | hk | hk | hk | hk | hk |
      hk | hk | hk | hk | hk | hk | hk | hk | hk <;>
      first
        | exact absurd hk h1
        | exact absurd hk h2
        | (rw [hk]; decide)
  · have hsub : ∀ x ∈ Dashboard.mapaTraducao.map Prod.fst,
        x ∈ ClientExplainability.traducao.map Prod.fst := by
      decide
    have hk2 : k ∉ Dashboard.mapaTraducao.map Prod.fst := fun hm => hk (hsub k hm)
    rw [lookup_eq_none_of_not_mem _ _ hk, lookup_eq_none_of_not_mem _ _ hk2]

/-- C27: what the code does at the failing inputs, and where the two
translators do agree. The token "fav_genre" is labelled "fav_genre" by the
Dashboard translator and "Gênero Favorito" by ClientExplainability's, and
likewise "premium_sub_month": the Dashboard table lacks these two keys. The
token "num__cat__age" gives "cat__age" against "Idade": the Dashboard pattern
removes one tag only. For every other non-empty token that is not "N/A" the two
translators return the same name. -/
theorem translators_disagree (t : String) :
    (Dashboard.traduzir "fav_genre" = .text "fav_genre" ∧
      ClientExplainability.traduzir "fav_genre" = .text "Gênero Favorito") ∧
    (Dashboard.traduzir "premium_sub_month" = .text "premium_sub_month" ∧
      ClientExplainability.traduzir "premium_sub_month" =
        .text "Meses de Assinatura Premium") ∧
    (Dashboard.traduzir "num__cat__age" = .text "cat__age" ∧
      ClientExplainability.traduzir "num__cat__age" = .text "Idade") ∧
    (t ≠ "" → t ≠ "N/A" → (¬ ∃ r : String, t = "num__" ++ ("cat__" ++ r)) →
      dropLeading "cat__" (dropLeading "num__" t) ≠ "premium_sub_month" →
      dropLeading "cat__" (dropLeading "num__" t) ≠ "fav_genre" →
      Dashboard.traduzir t = ClientExplainability.traduzir t) := by
  refine ⟨by decide, by decide, by decide, ?_⟩
  intro hne hna hnc h1 h2
  have hs := ClientExplainability.traduzir_strip t hne hna
  by_cases hnum : ∃ r : String, t = "num__" ++ r
  · obtain ⟨r, hr⟩ := hnum
    have hcat : ¬ ∃ r2 : String, r = "cat__" ++ r2 := by
      rintro ⟨r2, hr2⟩
      exact hnc ⟨r2, by rw [hr, hr2]⟩
    have hd : dropLeading "cat__" (dropLeading "num__" t) = r := by
      rw [hr, dropLeading_append, dropLeading_of_not _ _ hcat]
    rw [hd] at h1 h2
    rw [hs.2.1 r hr hcat, hr, Dashboard.traduzir_num]
    exact lookupOr_congr _ _ r r (tables_agree r h1 h2)
  · by_cases hcat : ∃ r : String, t = "cat__" ++ r
    · obtain ⟨r, hr⟩ := hcat
      have hd : dropLeading "cat__" (dropLeading "num__" t) = r := by
        rw [dropLeading_of_not _ _ hnum, hr, dropLeading_append]
      rw [hd] at h1 h2
      rw [hs.2.2.1 r hr, hr, Dashboard.traduzir_cat]
      exact lookupOr_congr _ _ r r (tables_agree r h1 h2)
    · have hd : dropLeading "cat__" (dropLeading "num__" t) = t := by
        rw [dropLeading_of_not _ _ hnum, dropLeading_of_not _ _ hcat]
      rw [hd] at h1 h2
      rw [hs.2.2.2 hnum hcat, Dashboard.traduzir_plain t hne hnum hcat]
      exact lookupOr_congr _ _ t t (tables_agree t h1 h2)

end ChurnInsight

namespace ChurnInsight

/-! ## Aggregator: totals -/

theorem Dict.put_of_get_none {α : Type} (d : Dict α) (k : String) (v : α)
    (h : Dict.get d k = none) : Dict.put d k v = d ++ [(k, v)] := by
  induction d with
  | nil => rfl
  | cons e rest ih =>
    obtain ⟨k1, v1⟩ := e
    by_cases hk : k1 = k
    · simp [Dict.get, hk] at h
    · simp only [Dict.get, hk, if_false] at h
      simp only [Dict.put, hk, if_false, List.cons_append, ih h]

theorem Dict.modify_append_of_get_none {α : Type} (d : Dict α) (k : String) (v : α)
    (f : α → α) (h : Dict.get d k = none) :
    Dict.modify (d ++ [(k, v)]) k f = d ++ [(k, f v)] := by
  induction d with
  | nil => simp [Dict.modify]
  | cons e rest ih =>
    obtain ⟨k1, v1⟩ := e
    by_cases hk : k1 = k
    · simp [Dict.get, hk] at h
    · simp only [Dict.get, hk, if_false] at h
      show Dict.modify ((k1, v1) :: (rest ++ [(k, v)])) k f = (k1, v1) :: (rest ++ [(k, f v)])
      simp only [Dict.modify, hk, if_false, ih h]

theorem Dict.get_append_single {α : Type} (d : Dict α) (k k2 : String) (v : α)
    (h : Dict.get d k2 = none) (hk : k ≠ k2) : Dict.get (d ++ [(k, v)]) k2 = none := by
  induction d with
  | nil => simp [Dict.get, hk]
  | cons e rest ih =>
    obtain ⟨k1, v1⟩ := e
    by_cases hk1 : k1 = k2
    · simp [Dict.get, hk1] at h
    · simp only [Dict.get, hk1, if_false] at h
      show Dict.get ((k1, v1) :: (rest ++ [(k, v)])) k2 = none
      simp only [Dict.get, hk1, if_false, ih h]

theorem Dashboard.foldl_set_distinct {β : Type} (f : Dashboard.RiskFactorItem → β)
    (l : List Dashboard.RiskFactorItem) (acc : Dict β)
    (hnd : (l.map (fun it => it.name)).Nodup)
    (hproto : "__proto__" ∉ l.map (fun it => it.name))
    (hacc : ∀ it ∈ l, Dict.get acc it.name = none) :
    l.foldl (fun a it => Dict.set a it.name (f it)) acc =
      acc ++ l.map (fun it => (it.name, f it)) := by
  induction l generalizing acc with
  | nil => simp
  | cons x l ih =>
    have hx : x.name ≠ "__proto__" := by
      intro h
      apply hproto
      rw [List.map_cons, h]
      exact List.mem_cons_self _ _
    have hproto2 : "__proto__" ∉ l.map (fun it => it.name) := by
      intro h
      apply hproto
      rw [List.map_cons]
      exact List.mem_cons_of_mem _ h
    rw [List.foldl_cons, Dict.set_eq_put _ _ _ hx,
      Dict.put_of_get_none _ _ _ (hacc x (List.mem_cons_self _ _))]
    have hnd2 : x.name ∉ l.map (fun it => it.name) ∧ (l.map (fun it => it.name)).Nodup := by
      rw [List.map_cons] at hnd
      exact List.nodup_cons.mp hnd
    rw [ih _ hnd2.2 hproto2]
    · simp
    · intro it hit
      apply Dict.get_append_single _ _ _ _ (hacc it (List.mem_cons_of_mem _ hit))
      intro hx2
      apply hnd2.1
      rw [hx2]
      exact List.mem_map_of_mem (fun it => it.name) hit

theorem Dashboard.countOf_nat (rt : JSRuntime) (l : List Dashboard.RiskFactorItem)
    (ks : List ℕ)
    (hks : l.map (fun e => e.count.toNumber rt) =
      ks.map (fun (n : ℕ) => JSNumber.fin (n : ℚ))) :
    l.map (fun e => Dashboard.countOf rt e.count) =
      ks.map (fun (n : ℕ) => JSNumber.fin (n : ℚ)) := by
  induction l generalizing ks with
  | nil =>
    cases ks with
    | nil => rfl
    | cons k ks => simp at hks
  | cons x l ih =>
    cases ks with
    | nil => simp at hks
    | cons k ks =>
      simp only [List.map_cons, List.cons.injEq] at hks
      have hc : Dashboard.countOf rt x.count = .fin (k : ℚ) := by
        rw [Dashboard.countOf_eq, hks.1]
        simp
      simp only [List.map_cons, hc, ih ks hks.2]

/-- C29, as stated, fails: with the entries `A: 3` and `A: 5`, whose counts are
positive, the only entry returned is `A` with `qtd` 5, while `totalRisco` is 8;
and with the entries `__proto__: 3` and `A: 5` the only entry returned is again
`A` with `qtd` 5 and `totalRisco` 8. -/
theorem preferred_totals_duplicate_name :
    Dashboard.statsPorMotivo exampleRuntime .online
        (some { risk_factors := some [⟨"A", .number (.fin 3)⟩, ⟨"A", .number (.fin 5)⟩] }) none =
      [("A", { qtd := .fin 5, totalRisco := .fin 8 })] ∧
    Dashboard.statsPorMotivo exampleRuntime .online
        (some { risk_factors := some [⟨"__proto__", .number (.fin 3)⟩, ⟨"A", .number (.fin 5)⟩] })
        (some []) = [("A", { qtd := .fin 5, totalRisco := .fin 8 })] := by
  have ht : ∀ a : String, Dashboard.total exampleRuntime
      [⟨a, .number (.fin 3)⟩, ⟨"A", .number (.fin 5)⟩] = .fin 8 := by
    intro a
    rw [Dashboard.total_nat exampleRuntime _ [3, 5] (by simp [JSValue.toNumber]) (by norm_num)]
    norm_num
  constructor
  · rw [Dashboard.statsPorMotivo_preferred]
    simp only [Dashboard.fromRiskFactors, ht, List.foldl_cons, List.foldl_nil]
    rw [Dict.set_eq_put _ _ _ (by decide), Dict.set_eq_put _ _ _ (by decide)]
    simp [Dict.put, Dashboard.countOf, JSValue.toNumber, JSNumber.truthy]
  · rw [Dashboard.statsPorMotivo_preferred]
    simp only [Dashboard.fromRiskFactors, ht, List.foldl_cons, List.foldl_nil, Dict.set_proto]
    rw [Dict.set_eq_put _ _ _ (by decide)]
    simp [Dict.put, Dashboard.countOf, JSValue.toNumber, JSNumber.truthy]

/-- C29, amended: for every non-empty upstream `risk_factors` list whose names
are pairwise distinct and other than `__proto__`, `statsPorMotivo` has one entry
per upstream entry, in the same order, all with the same `totalRisco`; when the
counts are positive integers whose sum does not exceed `2^53`, the `qtd` values
are these integers and `totalRisco` is exactly their sum. For counts of any
kind the `qtd` values, added in upstream order as the language adds them, give
the sum from which `totalRisco` is taken. -/
theorem preferred_totals_consistent (rt : JSRuntime) (it : Dashboard.RiskFactorItem)
    (its : List Dashboard.RiskFactorItem) (clients : Option (List Client))
    (hnd : ((it :: its).map (fun e => e.name)).Nodup)
    (hproto : "__proto__" ∉ (it :: its).map (fun e => e.name)) :
    (Dashboard.statsPorMotivo rt .online (some { risk_factors := some (it :: its) }) clients).map
        (fun e => e.1) = (it :: its).map (fun e => e.name) ∧
    (∀ e ∈ Dashboard.statsPorMotivo rt .online (some { risk_factors := some (it :: its) }) clients,
      e.2.totalRisco = Dashboard.total rt (it :: its)) ∧
    (∀ ks : List ℕ,
      (it :: its).map (fun e => e.count.toNumber rt) =
        ks.map (fun (n : ℕ) => JSNumber.fin (n : ℚ)) →
      (∀ n ∈ ks, 0 < n) → ks.sum ≤ 9007199254740992 →
      (Dashboard.statsPorMotivo rt .online (some { risk_factors := some (it :: its) })
          clients).map (fun e => e.2.qtd) = ks.map (fun (n : ℕ) => JSNumber.fin (n : ℚ)) ∧
        Dashboard.total rt (it :: its) = .fin (ks.sum : ℚ)) ∧
    (∀ S : JSNumber,
      S = ((Dashboard.statsPorMotivo rt .online (some { risk_factors := some (it :: its) })
        clients).map (fun e => e.2.qtd)).foldl (JSNumber.plus rt) 0 →
      Dashboard.total rt (it :: its) = if S.truthy then S else 1) := by
  have hstats : Dashboard.statsPorMotivo rt .online (some { risk_factors := some (it :: its) })
      clients = (it :: its).map (fun e => (e.name,
        ({ qtd := Dashboard.countOf rt e.count, totalRisco := Dashboard.total rt (it :: its) } :
          Dashboard.Stat))) := by
    rw [Dashboard.statsPorMotivo_preferred, Dashboard.fromRiskFactors,
      Dashboard.foldl_set_distinct _ _ ([] : Dict Dashboard.Stat) hnd hproto (fun _ _ => rfl)]
    simp
  rw [hstats]
  refine ⟨?_, ?_, ?_, ?_⟩
  · simp [List.map_map, Function.comp]
  · intro e he
    simp only [List.mem_map] at he
    obtain ⟨x, _, hx⟩ := he
    rw [← hx]
  · intro ks hks hpos hsum
    constructor
    · rw [List.map_map]
      exact Dashboard.countOf_nat rt (it :: its) ks hks
    · rw [Dashboard.total_nat rt (it :: its) ks hks hsum]
      have hne : ks.sum ≠ 0 := by
        cases ks with
        | nil => simp at hks
        | cons k ks =>
          have := hpos k (List.mem_cons_self _ _)
          simp only [List.sum_cons]
          omega
      rw [if_neg hne]
  · intro S hS
    rw [List.map_map, List.foldl_map] at hS
    rw [hS]
    rfl

/-- C29, amended, at a concrete input: the entries `Idade: 12` and `País: 8`. -/
theorem preferred_totals_consistent_witness :
    (Dashboard.statsPorMotivo exampleRuntime .online
        (some { risk_factors := some [⟨"Idade", .number (.fin 12)⟩, ⟨"País", .number (.fin 8)⟩] })
        none).map (fun e => e.2.qtd) = [.fin 12, .fin 8] ∧
    Dashboard.total exampleRuntime [⟨"Idade", .number (.fin 12)⟩, ⟨"País", .number (.fin 8)⟩] =
      .fin 20 := by
  have h := (preferred_totals_consistent exampleRuntime ⟨"Idade", .number (.fin 12)⟩
    [⟨"País", .number (.fin 8)⟩] none (by decide) (by decide)).2.2.1 [12, 8]
    (by simp [JSValue.toNumber]) (by decide) (by norm_num)
  refine ⟨?_, ?_⟩
  · rw [h.1]
    simp
  · rw [h.2]
    norm_num

end ChurnInsight

namespace ChurnInsight

/-! ## Aggregator: the count invariant of the fallback path -/

theorem Dashboard.bump_fin (a : ℕ) :
    (JSNumber.fin (a : ℚ)).add 1 = JSNumber.fin ((a + 1 : ℕ) : ℚ) := by
  show (JSNumber.fin (a : ℚ)).add (JSNumber.fin ((1 : ℕ) : ℚ)) = _
  simp [JSNumber.add]

theorem Dashboard.modify_bump_present (d : Dict Dashboard.Stat) (k : String) (ks : List ℕ)
    (hq : d.map (fun e => e.2.qtd) = ks.map (fun (x : ℕ) => JSNumber.fin (x : ℚ)))
    (hg : Dict.get d k ≠ none) :
    ∃ ks2 : List ℕ,
      (Dict.modify d k (fun s => { s with qtd := s.qtd.add 1 })).map (fun e => e.2.qtd) =
        ks2.map (fun (x : ℕ) => JSNumber.fin (x : ℚ)) ∧
      ks2.sum = ks.sum + 1 ∧ ((∀ x ∈ ks, 1 ≤ x) → ∀ x ∈ ks2, 1 ≤ x) := by
  induction d generalizing ks with
  | nil => exact absurd rfl hg
  | cons e rest ih =>
    obtain ⟨k1, v1⟩ := e
    cases ks with
    | nil => simp at hq
    | cons a ks0 =>
      simp only [List.map_cons, List.cons.injEq] at hq
      obtain ⟨hv, hrest⟩ := hq
      by_cases hk : k1 = k
      · refine ⟨(a + 1) :: ks0, ?_, ?_, ?_⟩
        · simp only [Dict.modify, hk, if_true, List.map_cons, hrest, List.cons.injEq, and_true]
          show v1.qtd.add 1 = _
          rw [hv]
          exact Dashboard.bump_fin a
        · simp only [List.sum_cons]
          omega
        · intro hpos x hx
          rcases List.mem_cons.mp hx with hx | hx
          · omega
          · exact hpos x (List.mem_cons_of_mem _ hx)
      · have hg2 : Dict.get rest k ≠ none := by
          simpa [Dict.get, hk] using hg
        obtain ⟨ks2, h1, h2, h3⟩ := ih ks0 hrest hg2
        refine ⟨a :: ks2, ?_, ?_, ?_⟩
        · simp only [Dict.modify, hk, if_false, List.map_cons, h1, hv]
        · simp only [List.sum_cons, h2]
          omega
        · intro hpos x hx
          rcases List.mem_cons.mp hx with hx | hx
          · rw [hx]
            exact hpos a (List.mem_cons_self _ _)
          · exact h3 (fun y hy => hpos y (List.mem_cons_of_mem _ hy)) x hx

theorem Dashboard.countStep_inv (rt : JSRuntime) (n : Nat) (acc : Dict Dashboard.Stat)
    (c : Client) (ks : List ℕ)
    (hq : acc.map (fun e => e.2.qtd) = ks.map (fun (x : ℕ) => JSNumber.fin (x : ℚ)))
    (ht : ∀ e ∈ acc, e.2.totalRisco = .fin n) (hpos : ∀ x ∈ ks, 1 ≤ x) :
    ∃ ks2 : List ℕ,
      (Dashboard.countStep rt n acc c).map (fun e => e.2.qtd) =
        ks2.map (fun (x : ℕ) => JSNumber.fin (x : ℚ)) ∧
      (∀ e ∈ Dashboard.countStep rt n acc c, e.2.totalRisco = .fin n) ∧
      (∀ x ∈ ks2, 1 ≤ x) ∧
      ks2.sum = ks.sum +
        (if (Dashboard.traduzir (Dashboard.getRiskFactor c)).truthy then 1 else 0) := by
  have htr := Translated.truthy_eq rt (Dashboard.traduzir (Dashboard.getRiskFactor c))
  rw [Dashboard.countStep_eq]
  by_cases he : ((Dashboard.traduzir (Dashboard.getRiskFactor c)).propertyKey rt).data = []
  · refine ⟨ks, ?_, ?_, hpos, ?_⟩
    · simp only [he, if_true, hq]
    · simp only [he, if_true]
      exact ht
    · simp [htr, he]
  · by_cases hg : Dict.get acc
        ((Dashboard.traduzir (Dashboard.getRiskFactor c)).propertyKey rt) = none
    · have hstep : Dict.modify
          (if (Dict.get acc
              ((Dashboard.traduzir (Dashboard.getRiskFactor c)).propertyKey rt)).isNone then
            Dict.put acc ((Dashboard.traduzir (Dashboard.getRiskFactor c)).propertyKey rt)
              { qtd := 0, totalRisco := .fin n }
          else acc)
          ((Dashboard.traduzir (Dashboard.getRiskFactor c)).propertyKey rt)
          (fun s => { s with qtd := s.qtd.add 1 }) =
          acc ++ [((Dashboard.traduzir (Dashboard.getRiskFactor c)).propertyKey rt,
            { qtd := (0 : JSNumber).add 1, totalRisco := .fin n })] := by
        simp only [hg, Option.isNone_none, if_true]
        rw [Dict.put_of_get_none _ _ _ hg, Dict.modify_append_of_get_none _ _ _ _ hg]
      have h01 : (0 : JSNumber).add 1 = JSNumber.fin ((1 : ℕ) : ℚ) := by
        have := Dashboard.bump_fin 0
        simpa [JSNumber.zero_eq] using this
      refine ⟨ks ++ [1], ?_, ?_, ?_, ?_⟩
      · simp only [he, if_false, hstep]
        simp only [List.map_append, hq, List.map_cons, List.map_nil, h01]
      · simp only [he, if_false, hstep]
        intro e hmem
        rcases List.mem_append.mp hmem with hmem | hmem
        · exact ht e hmem
        · simp only [List.mem_singleton] at hmem
          rw [hmem]
      · intro x hx
        rcases List.mem_append.mp hx with hx | hx
        · exact hpos x hx
        · simp only [List.mem_singleton] at hx
          omega
      · simp [htr, he]
    · have hsome : (Dict.get acc
          ((Dashboard.traduzir (Dashboard.getRiskFactor c)).propertyKey rt)).isNone = false := by
        cases hx : Dict.get acc
            ((Dashboard.traduzir (Dashboard.getRiskFactor c)).propertyKey rt) with
        | none => exact absurd hx hg
        | some v => rfl
      obtain ⟨ks2, h1, h2, h3⟩ := Dashboard.modify_bump_present acc _ ks hq hg
      refine ⟨ks2, ?_, ?_, h3 hpos, ?_⟩
      · simp only [he, if_false, hsome, Bool.false_eq_true]
        exact h1
      · simp only [he, if_false, hsome, Bool.false_eq_true]
        exact Dict.forall_modify (fun s : Dashboard.Stat => s.totalRisco = JSNumber.fin (n : ℚ))
          acc _ _ ht (fun s hs => hs)
      · simp [htr, he, h2]

theorem Dashboard.foldl_countStep_inv (rt : JSRuntime) (n : Nat) (l : List Client)
    (acc : Dict Dashboard.Stat) (ks : List ℕ)
    (hq : acc.map (fun e => e.2.qtd) = ks.map (fun (x : ℕ) => JSNumber.fin (x : ℚ)))
    (ht : ∀ e ∈ acc, e.2.totalRisco = .fin n) (hpos : ∀ x ∈ ks, 1 ≤ x) :
    ∃ ks2 : List ℕ,
      (l.foldl (Dashboard.countStep rt n) acc).map (fun e => e.2.qtd) =
        ks2.map (fun (x : ℕ) => JSNumber.fin (x : ℚ)) ∧
      (∀ e ∈ l.foldl (Dashboard.countStep rt n) acc, e.2.totalRisco = .fin n) ∧
      (∀ x ∈ ks2, 1 ≤ x) ∧
      ks2.sum = ks.sum +
        (l.filter (fun c =>
          (Dashboard.traduzir (Dashboard.getRiskFactor c)).truthy)).length := by
  induction l generalizing acc ks with
  | nil => exact ⟨ks, hq, ht, hpos, by simp⟩
  | cons c l ih =>
    obtain ⟨ks1, h1, h2, h3, h4⟩ := Dashboard.countStep_inv rt n acc c ks hq ht hpos
    obtain ⟨ks2, g1, g2, g3, g4⟩ := ih (Dashboard.countStep rt n acc c) ks1 h1 h2 h3
    refine ⟨ks2, ?_, ?_, g3, ?_⟩
    · rw [List.foldl_cons]
      exact g1
    · rw [List.foldl_cons]
      exact g2
    · rw [g4, h4]
      by_cases he : (Dashboard.traduzir (Dashboard.getRiskFactor c)).truthy = true
      · simp [List.filter_cons, he]
        omega
      · simp [List.filter_cons, he]

end ChurnInsight

namespace ChurnInsight

theorem Dashboard.sum_shares (ks : List ℕ) (n : ℕ) :
    (ks.map (fun (k : ℕ) => (k : ℚ) / (n : ℚ))).sum = ((ks.sum : ℕ) : ℚ) / (n : ℚ) := by
  induction ks with
  | nil => simp
  | cons a ks ih =>
    simp only [List.map_cons, List.sum_cons, ih]
    push_cast
    ring

/-- C28: in the fallback path, for every clients list, with `n` the number of
considered clients: every entry of `statsPorMotivo` has `1 <= qtd <= n` and
`totalRisco = n`, so all entries share the same `totalRisco`; the `qtd` values
add up to `n` minus the number of considered clients whose translated risk
factor is empty; hence every share `qtd / totalRisco` lies in `(0, 1]` and the
shares add up to at most 1. -/
theorem fallback_count_invariant (rt : JSRuntime) (summary : Option Dashboard.Summary)
    (hs : summary.bind (fun s => s.risk_factors) = none ∨
      summary.bind (fun s => s.risk_factors) = some [])
    (clients : List Client) :
    (∀ e ∈ Dashboard.statsPorMotivo rt .online summary (some clients),
      ∃ k : ℕ, e.2.qtd = .fin (k : ℚ) ∧ 1 ≤ k ∧ k ≤ (Dashboard.emRisco rt clients).length ∧
        e.2.totalRisco = .fin ((Dashboard.emRisco rt clients).length : ℚ) ∧
        0 < (k : ℚ) / ((Dashboard.emRisco rt clients).length : ℚ) ∧
        (k : ℚ) / ((Dashboard.emRisco rt clients).length : ℚ) ≤ 1) ∧
    (∃ ks : List ℕ,
      (Dashboard.statsPorMotivo rt .online summary (some clients)).map (fun e => e.2.qtd) =
        ks.map (fun (k : ℕ) => JSNumber.fin (k : ℚ)) ∧
      ks.sum + ((Dashboard.emRisco rt clients).filter (fun c =>
          decide (Dashboard.traduzir (Dashboard.getRiskFactor c) = .text ""))).length =
        (Dashboard.emRisco rt clients).length ∧
      (ks.map (fun (k : ℕ) => (k : ℚ) / ((Dashboard.emRisco rt clients).length : ℚ))).sum ≤
        1) := by
  obtain ⟨ks, h1, h2, h3, h4⟩ := Dashboard.foldl_countStep_inv rt
    (Dashboard.emRisco rt clients).length (Dashboard.emRisco rt clients) [] []
    (by simp) (by simp) (by simp)
  have hstats : Dashboard.statsPorMotivo rt .online summary (some clients) =
      (Dashboard.emRisco rt clients).foldl
        (Dashboard.countStep rt (Dashboard.emRisco rt clients).length) [] := by
    rw [Dashboard.statsPorMotivo_fallback rt summary hs]
    rfl
  have hfalsy : ∀ t : Translated, (!t.truthy) = decide (t = .text "") := by
    intro t
    cases t with
    | text s =>
      by_cases hs0 : s = ""
      · rw [hs0]
        rfl
      · have hd : s.data ≠ [] := fun h => hs0 (String.ext h)
        simp [Translated.truthy, hd, hs0]
    | inherited name => simp [Translated.truthy]
  have hsplit := List.length_eq_length_filter_add
    (l := Dashboard.emRisco rt clients)
    (fun c => (Dashboard.traduzir (Dashboard.getRiskFactor c)).truthy)
  simp only [hfalsy] at hsplit
  have hsum : ks.sum + ((Dashboard.emRisco rt clients).filter (fun c =>
      decide (Dashboard.traduzir (Dashboard.getRiskFactor c) = .text ""))).length =
      (Dashboard.emRisco rt clients).length := by
    rw [h4]
    simp only [List.sum_nil, zero_add]
    exact hsplit.symm
  have hle : ∀ k ∈ ks, k ≤ (Dashboard.emRisco rt clients).length := by
    intro k hk
    have := List.le_sum_of_mem hk
    omega
  rw [hstats]
  constructor
  · intro e he
    have hmem : e.2.qtd ∈ ks.map (fun (k : ℕ) => JSNumber.fin (k : ℚ)) := by
      rw [← h1]
      exact List.mem_map_of_mem (fun e => e.2.qtd) he
    obtain ⟨k, hk, hkq⟩ := List.mem_map.mp hmem
    have hk1 := h3 k hk
    have hkn := hle k hk
    have hn0 : (0 : ℚ) < ((Dashboard.emRisco rt clients).length : ℚ) := by
      have : 0 < (Dashboard.emRisco rt clients).length := by omega
      exact_mod_cast this
    have hk0 : (0 : ℚ) < (k : ℚ) := by
      have : 0 < k := by omega
      exact_mod_cast this
    refine ⟨k, hkq.symm, hk1, hkn, h2 e he, div_pos hk0 hn0, ?_⟩
    rw [div_le_one hn0]
    exact_mod_cast hkn
  · refine ⟨ks, h1, hsum, ?_⟩
    rw [Dashboard.sum_shares]
    by_cases hn : (Dashboard.emRisco rt clients).length = 0
    · rw [hn]
      simp
    · have hn0 : (0 : ℚ) < ((Dashboard.emRisco rt clients).length : ℚ) := by
        have : 0 < (Dashboard.emRisco rt clients).length := Nat.pos_of_ne_zero hn
        exact_mod_cast this
      rw [div_le_one hn0]
      have : ks.sum ≤ (Dashboard.emRisco rt clients).length := by omega
      exact_mod_cast this

/-- C28, at a concrete input: three clients above the sill, one of them without
risk factor, and one below it. -/
theorem fallback_count_invariant_witness :
    ∃ ks : List ℕ,
      (Dashboard.statsPorMotivo exampleRuntime .online none (some
          [{ probability := .number (.fin 0.9), primary_risk_factor := some "age" },
           { probability := .number (.fin 0.5) },
           { probability := .number (.fin 0.46), primary_risk_factor := some "age" },
           { probability := .number (.fin 0.2), primary_risk_factor := some "country" }])).map
          (fun e => e.2.qtd) = ks.map (fun (k : ℕ) => JSNumber.fin (k : ℚ)) ∧
      ks.sum + ((Dashboard.emRisco exampleRuntime
          [{ probability := .number (.fin 0.9), primary_risk_factor := some "age" },
           { probability := .number (.fin 0.5) },
           { probability := .number (.fin 0.46), primary_risk_factor := some "age" },
           { probability := .number (.fin 0.2), primary_risk_factor := some "country" }]).filter
          (fun c => decide (Dashboard.traduzir (Dashboard.getRiskFactor c) = .text ""))).length =
        (Dashboard.emRisco exampleRuntime
          [{ probability := .number (.fin 0.9), primary_risk_factor := some "age" },
           { probability := .number (.fin 0.5) },
           { probability := .number (.fin 0.46), primary_risk_factor := some "age" },
           { probability := .number (.fin 0.2), primary_risk_factor := some "country" }]).length :=
  let ⟨ks, h1, h2, _⟩ := (fallback_count_invariant exampleRuntime none (Or.inl rfl)
    [{ probability := .number (.fin 0.9), primary_risk_factor := some "age" },
     { probability := .number (.fin 0.5) },
     { probability := .number (.fin 0.46), primary_risk_factor := some "age" },
     { probability := .number (.fin 0.2), primary_risk_factor := some "country" }]).2
  ⟨ks, h1, h2⟩

end ChurnInsight
